import Mathlib

/-!
# HyperSerialPico: frame decoder, LED output manager and LED drivers

A shallow embedding of `include/leds.h`, `include/base.h` and `include/main.h`.

* Machine integers are natural numbers; a byte is a `Nat` reduced `% 256` where the
  source stores an `uint8_t`, a 16-bit value is reduced `% 65536`.
* Memory blocks (`calloc`ed buffers, the lookup table) are lists of bytes, a pointer into a
  block is a byte offset.
* The driver objects and the statics of the driver classes form the record `Drivers`; the
  frame state, the statistics, the scalar members of `base` and the drivers form the record
  `World`. A function of the source that has an effect is a function on one of the two.
* `World.calls` and `Drivers.hw` are instrumentation: the first logs the calls made on
  `base`, the second the operations that reach a driver object or the hardware.
-/

namespace HyperSerialPico

/-! ## leds.h : colours -/

/-- The four colour structs of `leds.h`. -/
inductive ColorLayout where
  | ColorGrb32
  | ColorGrb
  | ColorGrbw
  | ColorDotstartBgr
  deriving DecidableEq, Repr

/-- A colour value. `R`, `G`, `B` are the members every colour struct has; `X` is the
remaining member where there is one (`notUsed` of `ColorGrb32`, `W` of `ColorGrbw`,
`brightness` of `ColorDotstartBgr`). -/
structure ColorDefinition where
  R : Nat
  G : Nat
  B : Nat
  X : Nat
  deriving DecidableEq, Repr

/-- The memory image of a colour, `reinterpret_cast<uint8_t*>(&color)`: the members in
declaration order. -/
def colorBytes : ColorLayout → ColorDefinition → List Nat
  | .ColorGrb32, c => [c.X % 256, c.B % 256, c.R % 256, c.G % 256]
  | .ColorGrb, c => [c.B % 256, c.R % 256, c.G % 256]
  | .ColorGrbw, c => [c.X % 256, c.B % 256, c.R % 256, c.G % 256]
  | .ColorDotstartBgr, c => [c.X % 256, c.B % 256, c.G % 256, c.R % 256]

/-- The value of `sizeof(colorData)`. -/
def sizeofColor (l : ColorLayout) : Nat :=
  match l with
  | .ColorGrb => 3
  | _ => 4

/-- The constructor `colorData(gray)` of the dotstar colour. -/
def ColorDotstartBgr.ofGray (gray : Nat) : ColorDefinition :=
  { R := gray % 256, G := gray % 256, B := gray % 256, X := (gray ||| 0b11100000) % 256 }

/-! ## leds.h : memory helpers -/

/-- Read of an `uint32_t` at byte offset `off` (little-endian, as on the RP2040). -/
def readWord32 (mem : List Nat) (off : Nat) : Nat :=
  mem.getD off 0 % 256 + (mem.getD (off + 1) 0 % 256) * 2 ^ 8
    + (mem.getD (off + 2) 0 % 256) * 2 ^ 16 + (mem.getD (off + 3) 0 % 256) * 2 ^ 24

/-- Write of an `uint32_t` at byte offset `off` (little-endian). -/
def writeWord32 (mem : List Nat) (off : Nat) (w : Nat) : List Nat :=
  (((mem.set off (w % 256)).set (off + 1) (w / 2 ^ 8 % 256)).set (off + 2)
    (w / 2 ^ 16 % 256)).set (off + 3) (w / 2 ^ 24 % 256)

/-- The statement `*p |= w` on an `uint32_t*` at byte offset `off`. -/
def orWord32 (mem : List Nat) (off : Nat) (w : Nat) : List Nat :=
  writeWord32 mem off ((readWord32 mem off ||| w) % 2 ^ 32)

/-- Copy of the bytes `src` to offset `off` (a struct assignment through a pointer). -/
def writeBytes : List Nat → Nat → List Nat → List Nat
  | mem, _, [] => mem
  | mem, off, b :: bs => writeBytes (mem.set off (b % 256)) (off + 1) bs

/-! ## leds.h : LedDriver -/

/-- The data members of `LedDriver` that hold pixel data. -/
structure LedDriver where
  ledsNumber : Nat
  dmaSize : Nat
  buffer : List Nat
  dma : List Nat
  deriving DecidableEq, Repr

/-- The constructor `LedDriver(_ledsNumber, _pin, _clockPin, _dmaSize)`: the size is
rounded up to a multiple of 4 and both blocks are `calloc`ed. -/
def LedDriver.new (ledsNumber dmaSize : Nat) : LedDriver :=
  let size := if dmaSize % 4 ≠ 0 then dmaSize + (4 - dmaSize % 4) else dmaSize
  { ledsNumber := ledsNumber, dmaSize := size,
    buffer := List.replicate size 0, dma := List.replicate size 0 }

/-! ## leds.h : NeopixelParallelType, lookup table and SetPixel -/

/-- The initialiser `myLaneMask(1 << (instances++))` of the `const uint8_t` member. -/
def laneMask (instances : Nat) : Nat := (1 <<< instances) % 256

/-- The 64 bytes of `lut[16]` after the constructor loop
`for a < 16: target = &lut[a]; for b < 4: *(target++) = (a & (1 << b)) ? myLaneMask : 0`. -/
def lutMemory (myLaneMask : Nat) : List Nat :=
  (List.range 16).flatMap fun a =>
    (List.range 4).map fun b => if a &&& (1 <<< b) ≠ 0 then myLaneMask % 256 else 0

/-- The value `lut[n]` read as `uint32_t`. -/
def lutAt (lut : List Nat) (n : Nat) : Nat := readWord32 lut (4 * n)

/-- The loop of `NeopixelParallelType::SetPixel`; `target` is the byte offset of the
`uint32_t*` of the same name, `source` the colour bytes not yet consumed. -/
def setPixelLoop (lut : List Nat) : List Nat → Nat → List Nat → List Nat
  | [], _, buffer => buffer
  | c :: source, target, buffer =>
      let buffer1 := orWord32 buffer (target - 4) (lutAt lut ((c % 256) &&& 0b00001111))
      let buffer2 := orWord32 buffer1 (target - 8) (lutAt lut ((c % 256) >>> 4))
      setPixelLoop lut source (target - 8) buffer2

/-- The method `NeopixelParallelType::SetPixel(index, color)` on the shared buffer; `color`
is the memory image of the colour, its length is `sizeof(colorData)`. -/
def NeopixelParallelType.SetPixel (maxLeds : Nat) (lut : List Nat) (buffer : List Nat)
    (index : Nat) (color : List Nat) : List Nat :=
  if index ≥ maxLeds then buffer
  else setPixelLoop lut color ((index + 1) * 8 * color.length) buffer

/-- The method `NeopixelType::SetPixel(index, color)`. -/
def NeopixelType.SetPixel (d : LedDriver) (index : Nat) (color : List Nat) : LedDriver :=
  if index ≥ d.ledsNumber then d
  else { d with buffer := writeBytes d.buffer (index * color.length) color }

/-- The method `DotstarType::SetPixel(index, color)`. -/
def DotstarType.SetPixel (d : LedDriver) (index : Nat) (color : List Nat) : LedDriver :=
  if index ≥ d.ledsNumber then d
  else { d with buffer := writeBytes d.buffer ((index + 1) * color.length) color }

/-! ## leds.h : driver classes and their statics -/

/-- The API classes declared by the typedefs at the end of `leds.h`. -/
inductive LedType where
  | ws2812
  | sk6812
  | ws2812p
  | sk6812p
  | apa102
  deriving DecidableEq, Repr

/-- The template argument `RESET_TIME` of each API class. -/
def LedType.RESET_TIME : LedType → Nat
  | .ws2812 => 650
  | .sk6812 => 450
  | .ws2812p => 300
  | .sk6812p => 80
  | .apa102 => 100

/-- The template argument `colorData` of each API class. -/
def LedType.colorData : LedType → ColorLayout
  | .ws2812 => .ColorGrb32
  | .sk6812 => .ColorGrbw
  | .ws2812p => .ColorGrb
  | .sk6812p => .ColorGrbw
  | .apa102 => .ColorDotstartBgr

/-- Whether the class is an instance of `NeopixelParallelType`, the only class with
`renderAllLanes`; the other classes are the only ones with `renderSingleLane`. -/
def LedType.isParallel : LedType → Bool
  | .ws2812p => true
  | .sk6812p => true
  | _ => false

/-- An object behind `ledStrip1` or `ledStrip2`. -/
inductive Strip where
  /-- A `NeopixelType` object (`ws2812`, `sk6812`) with its `LedDriver` members. -/
  | neopixel (t : LedType) (d : LedDriver)
  /-- A `DotstarType` object (`apa102`) with its `LedDriver` members. -/
  | dotstar (t : LedType) (d : LedDriver)
  /-- A `NeopixelParallelType` object: `myLaneMask` and `lut`; `ledsNumber` records the
  constructor argument `_ledsNumber`, which the object itself does not keep. -/
  | lane (t : LedType) (ledsNumber : Nat) (myLaneMask : Nat) (lut : List Nat)
  deriving DecidableEq, Repr

/-! ## framestate.h and statistics.h -/

/-- The enumeration `AwaProtocol` as used by the `switch` of `processData`. -/
inductive AwaProtocol where
  | HEADER_A
  | HEADER_d
  | HEADER_a
  | HEADER_HI
  | HEADER_LO
  | HEADER_CRC
  | RED
  | GREEN
  | BLUE
  | FINAL
  deriving DecidableEq, Repr

/-- Modelled from the spec: the object `frameState` of `framestate.h`, which is not among the
sources. It holds the protocol phase, the length field (`ledCount - 1`), the header check
value, the running payload checksum accumulators, the current pixel index and the pixel
under construction. -/
structure FrameState where
  state : AwaProtocol
  CRC : Nat
  count : Nat
  currentLed : Nat
  fletcher1 : Nat
  fletcher2 : Nat
  color : ColorDefinition
  deriving DecidableEq, Repr

/-- Modelled from the spec: the counters of the object `statistics` of `statistics.h`, which
is not among the sources: total frames, good frames and transmissions. Each counts the calls
of its hook (`increaseTotal`, `increaseGood`, `increaseShow`). -/
structure Statistics where
  totalFrames : Nat
  goodFrames : Nat
  showFrames : Nat
  deriving DecidableEq, Repr

/-! ## Instrumentation -/

/-- A call of a member function of `base`. -/
inductive Call where
  | initLedStrip (count : Nat)
  | setStripPixel (pix : Nat) (color : ColorDefinition)
  | renderLeds (newFrame : Bool)
  deriving DecidableEq, Repr

/-- An operation on a driver object or on the hardware. `strip` is 1 for `ledStrip1` and 2
for `ledStrip2`. -/
inductive HwEvent where
  /-- The expression `new LED_DRIVER(ledsNumber, ...)` assigned to the strip. -/
  | newStrip (strip : Nat) (t : LedType) (ledsNumber : Nat)
  /-- The statement `delete ledStripK`. -/
  | deleteStrip (strip : Nat)
  /-- The call `ledStripK->SetPixel(index, color)`. -/
  | SetPixel (strip : Nat) (index : Nat) (color : ColorDefinition)
  /-- The call `busy_wait_us(us)`. -/
  | busyWait (us : Nat)
  /-- The call `dma_channel_set_read_addr(PICO_DMA_CHANNEL, dma, true)`, which starts the
  transfer; `data` is the content of `dma` at that moment. -/
  | dmaStart (data : List Nat)
  deriving DecidableEq, Repr

/-! ## The state -/

/-- The compile-time configuration. `SECOND_SEGMENT_START_INDEX` is `none` when the macro is
not defined. `LED_DRIVER` and `LED_DRIVER2` are the macros of the same names. `rgb2rgbw` is
the calibration step of `NEOPIXEL_RGBW` builds (`calibration.h` is not among the sources),
`none` when `NEOPIXEL_RGBW` is not defined. `crc8` is the header check value that
`frameState.computeCRC` derives from the two length bytes (`framestate.h` is not among the
sources). -/
structure Build where
  SECOND_SEGMENT_START_INDEX : Option Nat
  SECOND_SEGMENT_REVERSED : Bool
  LED_DRIVER : LedType
  LED_DRIVER2 : LedType
  rgb2rgbw : Option (ColorDefinition → ColorDefinition)
  crc8 : Nat → Nat → Nat

/-- The value of the macro `MAX_BUFFER` of `main.h`. -/
def MAX_BUFFER : Nat := 3013 * 3 + 1

/-- The driver side of the state: the members `ledStrip1` and `ledStrip2` of `base` with the
objects they point to (`none` is `nullptr`), the static members of `DmaClient` (`isDmaBusy`,
`lastRenderTime`) and of `NeopixelParallel` (`muxer`, `instances`, `maxLeds`; the static
`buffer` is `muxer->getBufferMemory()`), and the log of driver operations. -/
structure Drivers where
  ledStrip1 : Option Strip
  ledStrip2 : Option Strip
  isDmaBusy : Bool
  lastRenderTime : Nat
  muxer : Option LedDriver
  instances : Nat
  maxLeds : Nat
  hw : List HwEvent
  deriving DecidableEq, Repr

/-- The state of the program: `frameState`, `statistics`, the scalar members of `base`, the
drivers, and the log of the calls made on `base`. -/
structure World where
  frameState : FrameState
  statistics : Statistics
  ledsNumber : Nat
  readyToRender : Bool
  buffer : List Nat
  queueCurrent : Nat
  queueEnd : Nat
  drivers : Drivers
  calls : List Call
  deriving DecidableEq, Repr

/-- What the environment contributes to one step: `time_us_64` is the value of the clock,
`irq = some k` says that the DMA completion interrupt (`dmaFinishReceiver`) runs once `k`
waits of a readiness poll have elapsed (`k = 0`: before the poll starts), `irq = none` that
it does not run during the step. -/
structure Env where
  time_us_64 : Nat
  irq : Option Nat
  deriving DecidableEq, Repr

/-- The drivers after the static initialisers. -/
def Drivers.initial : Drivers :=
  { ledStrip1 := none, ledStrip2 := none, isDmaBusy := false, lastRenderTime := 0,
    muxer := none, instances := 0, maxLeds := 0, hw := [] }

/-- The state after the static initialisers: no strip, empty queue, decoder in `HEADER_A`.
The pixel under construction has all members 0, as a default-constructed Neopixel colour; a
default-constructed `ColorDotstartBgr` has `brightness = 0xff`. -/
def World.initial : World :=
  { frameState := { state := .HEADER_A, CRC := 0, count := 0, currentLed := 0,
                    fletcher1 := 0, fletcher2 := 0, color := { R := 0, G := 0, B := 0, X := 0 } },
    statistics := { totalFrames := 0, goodFrames := 0, showFrames := 0 },
    ledsNumber := 0, readyToRender := false,
    buffer := List.replicate (MAX_BUFFER + 1) 0, queueCurrent := 0, queueEnd := 0,
    drivers := Drivers.initial, calls := [] }

/-! ## leds.h : DmaClient -/

/-- The loop `while (isDmaBusy && wait-- > 0) busy_wait_us(50);` of `isReadyBlocking`,
followed by the read of `isDmaBusy` for the return value. `wait` is the remaining budget,
`waited` the number of waits done. The result is the value of `isDmaBusy` at the end and the
number of calls of `busy_wait_us(50)`. -/
def isReadyBlockingLoop (irq : Option Nat) : Nat → Nat → Bool → Bool × Nat
  | 0, waited, busy => (busy && irq != some waited, waited)
  | wait + 1, waited, busy =>
      if busy && irq != some waited then isReadyBlockingLoop irq wait (waited + 1) true
      else (false, waited)

/-- The method `DmaClient::isReadyBlocking()`: `int wait = 200`, the loop, `return !isDmaBusy`.
When the interrupt handler ran, it also stored the clock in `lastRenderTime`. -/
def isReadyBlocking (env : Env) (d : Drivers) : Bool × Drivers :=
  let r := isReadyBlockingLoop env.irq 200 0 d.isDmaBusy
  (!r.1,
   { d with isDmaBusy := r.1,
            lastRenderTime := if d.isDmaBusy && !r.1 then env.time_us_64 else d.lastRenderTime,
            hw := d.hw ++ List.replicate r.2 (HwEvent.busyWait 50) })

/-- The argument of `busy_wait_us` in `renderDma` (0 when the call is skipped):
`if (currentTime < resetTime + lastRenderTime)
   busy_wait_us(std::min(resetTime + lastRenderTime - currentTime, resetTime))`,
in `uint64_t` arithmetic. -/
def renderWait (resetTime lastRenderTime currentTime : Nat) : Nat :=
  if currentTime < (resetTime + lastRenderTime) % 2 ^ 64 then
    min (((resetTime + lastRenderTime) % 2 ^ 64 - currentTime) % 2 ^ 64) resetTime
  else 0

/-- The call `memcpy(dst, src, n)`. -/
def memcpy (dst src : List Nat) (n : Nat) : List Nat := src.take n ++ dst.drop n

/-- The call `memset(dst, 0, n)`. -/
def memsetZero (dst : List Nat) (n : Nat) : List Nat :=
  List.replicate (min n dst.length) 0 ++ dst.drop n

/-- The methods `Neopixel::renderDma(resetBuffer)` and `Dotstar::renderDma()` (the latter is
the former with `resetBuffer = false`) of the object with the members `m`. -/
def renderDma (env : Env) (resetTime : Nat) (resetBuffer : Bool) (m : LedDriver) (d : Drivers) :
    LedDriver × Drivers :=
  if d.isDmaBusy then (m, d)
  else
    let wait := renderWait resetTime d.lastRenderTime env.time_us_64
    let dma := memcpy m.dma m.buffer m.dmaSize
    let buffer := if resetBuffer then memsetZero m.buffer m.dmaSize else m.buffer
    ({ m with dma := dma, buffer := buffer },
     { d with isDmaBusy := true,
              hw := d.hw ++ (if wait = 0 then [] else [HwEvent.busyWait wait])
                ++ [HwEvent.dmaStart dma] })

/-! ## leds.h : constructors and destructors -/

/-- The expression `new T(ledsNumber, ...)` for an API class `T`. For a single-lane class the
`LedDriver` constructor allocates the two blocks and the `DmaClient` constructor resets
`isDmaBusy` and `lastRenderTime`. For a parallel class the `NeopixelParallel` constructor
takes the lane mask from `instances`, raises `maxLeds`, replaces `muxer` by a new `Neopixel`
of `maxLeds * 8 * pixelSize` bytes, and the `NeopixelParallelType` constructor fills `lut`. -/
def newStrip (t : LedType) (ledsNumber : Nat) (d : Drivers) : Strip × Drivers :=
  match t with
  | .ws2812p | .sk6812p =>
      let myLaneMask := laneMask d.instances
      let instances := d.instances + 1
      let maxLeds := max d.maxLeds ledsNumber
      let muxer := LedDriver.new maxLeds (maxLeds * 8 * sizeofColor t.colorData)
      (Strip.lane t ledsNumber myLaneMask (lutMemory myLaneMask),
       { d with instances := instances, maxLeds := maxLeds, muxer := some muxer,
                isDmaBusy := false, lastRenderTime := 0 })
  | .apa102 =>
      (Strip.dotstar t (LedDriver.new ledsNumber ((ledsNumber + 2) * sizeofColor t.colorData)),
       { d with isDmaBusy := false, lastRenderTime := 0 })
  | _ =>
      (Strip.neopixel t (LedDriver.new ledsNumber (ledsNumber * sizeofColor t.colorData)),
       { d with isDmaBusy := false, lastRenderTime := 0 })

/-- The statement `delete strip`. For a parallel lane the `NeopixelParallel` destructor
lowers `instances` and, at 0, deletes `muxer` and clears `maxLeds`. For a single-lane object
the blocks are freed with the object. The destructor `~DmaClient` of the object that owns the
channel first waits for a running transfer (at most 10 calls of `busy_wait_us(500)` while
`isDmaBusy`); these waits are not entered in `hw`, here and for the `delete muxer` of the
`NeopixelParallel` constructor. -/
def deleteStrip (s : Strip) (d : Drivers) : Drivers :=
  match s with
  | .lane _ _ _ _ =>
      let instances := if d.instances > 0 then d.instances - 1 else d.instances
      if instances = 0 then { d with instances := instances, muxer := none, maxLeds := 0 }
      else { d with instances := instances }
  | _ => d

/-- The block `if (ledStrip1 != nullptr) { delete ledStrip1; ledStrip1 = nullptr; }`. -/
def deleteStrip1 (d : Drivers) : Drivers :=
  match d.ledStrip1 with
  | some s => { deleteStrip s d with ledStrip1 := none, hw := d.hw ++ [HwEvent.deleteStrip 1] }
  | none => d

/-- The block `if (ledStrip2 != nullptr) { delete ledStrip2; ledStrip2 = nullptr; }`. -/
def deleteStrip2 (d : Drivers) : Drivers :=
  match d.ledStrip2 with
  | some s => { deleteStrip s d with ledStrip2 := none, hw := d.hw ++ [HwEvent.deleteStrip 2] }
  | none => d

/-- The assignment `ledStrip1 = new LED_DRIVER(n, ...)`. -/
def assignStrip1 (t : LedType) (n : Nat) (d : Drivers) : Drivers :=
  let r := newStrip t n d
  { r.2 with ledStrip1 := some r.1, hw := r.2.hw ++ [HwEvent.newStrip 1 t n] }

/-- The assignment `ledStrip2 = new LED_DRIVER2(n, ...)`. -/
def assignStrip2 (t : LedType) (n : Nat) (d : Drivers) : Drivers :=
  let r := newStrip t n d
  { r.2 with ledStrip2 := some r.1, hw := r.2.hw ++ [HwEvent.newStrip 2 t n] }

/-! ## base.h -/

/-- The method `Base::getLedsNumber`. -/
def getLedsNumber (w : World) : Nat := w.ledsNumber

/-- The method `Base::hasLateFrameToRender`. -/
def hasLateFrameToRender (w : World) : Bool := w.readyToRender

/-- The method `Base::dropLateFrame`. -/
def dropLateFrame (w : World) : World := { w with readyToRender := false }

/-- The part of `Base::initLedStrip` after `ledsNumber = count`: under
`SECOND_SEGMENT_START_INDEX` and `ledsNumber > SECOND_SEGMENT_START_INDEX` the two segments
are created; then, `if (ledStrip1 == nullptr)`, the single strip. -/
def createStrips (b : Build) (ledsNumber : Nat) (d : Drivers) : Drivers :=
  let d : Drivers := match b.SECOND_SEGMENT_START_INDEX with
    | some start =>
        if ledsNumber > start then
          assignStrip2 b.LED_DRIVER2 (ledsNumber - start) (assignStrip1 b.LED_DRIVER start d)
        else d
    | none => d
  match d.ledStrip1 with
  | none => assignStrip1 b.LED_DRIVER ledsNumber d
  | some _ => d

/-- The method `Base::initLedStrip(count)`: both strips are deleted, `ledsNumber = count`,
the strips are created. -/
def initLedStrip (b : Build) (count : Nat) (w : World) : World :=
  { w with calls := w.calls ++ [Call.initLedStrip count],
           ledsNumber := count,
           drivers := createStrips b count (deleteStrip2 (deleteStrip1 w.drivers)) }

/-- The call `strip->SetPixel(index, color)` on the object behind `ledStrip1` (`strip = 1`) or
`ledStrip2` (`strip = 2`). A parallel lane writes to the shared buffer of `muxer`. -/
def stripSetPixel (strip : Nat) (index : Nat) (color : ColorDefinition) (d : Drivers) : Drivers :=
  let d := { d with hw := d.hw ++ [HwEvent.SetPixel strip index color] }
  let put := fun (s : Strip) (d : Drivers) =>
    if strip = 1 then { d with ledStrip1 := some s } else { d with ledStrip2 := some s }
  match (if strip = 1 then d.ledStrip1 else d.ledStrip2) with
  | some (.neopixel t m) =>
      put (.neopixel t (NeopixelType.SetPixel m index (colorBytes t.colorData color))) d
  | some (.dotstar t m) =>
      put (.dotstar t (DotstarType.SetPixel m index (colorBytes t.colorData color))) d
  | some (.lane t _ _ lut) =>
      match d.muxer with
      | some m =>
          let buffer := NeopixelParallelType.SetPixel d.maxLeds lut m.buffer index
            (colorBytes t.colorData color)
          { d with muxer := some { m with buffer := buffer } }
      | none => d
  | none => d

/-- The body of `if (pix < ledsNumber)` in `Base::setStripPixel`. -/
def routePixel (b : Build) (ledsNumber pix : Nat) (inputColor : ColorDefinition) (d : Drivers) :
    Drivers :=
  match b.SECOND_SEGMENT_START_INDEX with
  | some start =>
      if pix < start then stripSetPixel 1 pix inputColor d
      else if b.SECOND_SEGMENT_REVERSED then stripSetPixel 2 (ledsNumber - pix - 1) inputColor d
      else stripSetPixel 2 (pix - start) inputColor d
  | none => stripSetPixel 1 pix inputColor d

/-- The method `Base::setStripPixel(pix, inputColor)`; `pix` is an `uint16_t`. -/
def setStripPixel (b : Build) (pix : Nat) (inputColor : ColorDefinition) (w : World) :
    Bool × World :=
  (decide (pix + 1 < w.ledsNumber),
   { w with calls := w.calls ++ [Call.setStripPixel pix inputColor],
            drivers := if pix < w.ledsNumber then routePixel b w.ledsNumber pix inputColor w.drivers
                       else w.drivers })

/-- The call `ledStrip1->renderAllLanes()`, that is `muxer->renderDma(true)`. The reset time
is the `RESET_TIME` of the class of the lane; `muxer->resetTime` is the one of the lane
constructed last, the same value when the lanes are of one class. -/
def renderAllLanes (env : Env) (d : Drivers) : Drivers :=
  match d.ledStrip1, d.muxer with
  | some (.lane t _ _ _), some m =>
      let r := renderDma env t.RESET_TIME true m d
      { r.2 with muxer := some r.1 }
  | _, _ => d

/-- The call `ledStrip1->renderSingleLane()`: `renderDma(false)` for a `NeopixelType`; for a
`DotstarType` the start frame is zeroed and the end frame `colorData(0xff)` is stored first. -/
def renderSingleLane (env : Env) (d : Drivers) : Drivers :=
  match d.ledStrip1 with
  | some (.neopixel t m) =>
      let r := renderDma env t.RESET_TIME false m d
      { r.2 with ledStrip1 := some (.neopixel t r.1) }
  | some (.dotstar t m) =>
      let buffer := memsetZero m.buffer 4
      let buffer := writeBytes buffer ((m.ledsNumber + 1) * sizeofColor t.colorData)
        (colorBytes t.colorData (ColorDotstartBgr.ofGray 0xff))
      let r := renderDma env t.RESET_TIME false { m with buffer := buffer } d
      { r.2 with ledStrip1 := some (.dotstar t r.1) }
  | _ => d

/-- The display of the segments in `Base::renderLeds`: `renderAllLanes` under
`SECOND_SEGMENT_START_INDEX`, otherwise `renderSingleLane`. -/
def displaySegments (b : Build) (env : Env) (d : Drivers) : Drivers :=
  match b.SECOND_SEGMENT_START_INDEX with
  | some _ => renderAllLanes env d
  | none => renderSingleLane env d

/-- The method `Base::renderLeds(newFrame)`. -/
def renderLeds (b : Build) (env : Env) (newFrame : Bool) (w : World) : World :=
  let w := { w with calls := w.calls ++ [Call.renderLeds newFrame] }
  let w : World := if newFrame then { w with readyToRender := true } else w
  if w.readyToRender && w.drivers.ledStrip1 != none then
    let r := isReadyBlocking env w.drivers
    if r.1 then
      { w with statistics := { w.statistics with showFrames := w.statistics.showFrames + 1 },
               readyToRender := false,
               drivers := displaySegments b env r.2 }
    else { w with drivers := r.2 }
  else w

/-! ## framestate.h : the helper object -/

/-- Modelled from the spec: `frameState.setState` of the missing `framestate.h`. -/
def setState (st : AwaProtocol) (w : World) : World :=
  { w with frameState := { w.frameState with state := st } }

/-- Modelled from the spec: `frameState.init(input)` of the missing `framestate.h`: "start a
new frame — reset running checksum accumulators"; "this byte is the high byte of
`ledCount - 1`". The pixel index restarts at 0. -/
def FrameState.init (input : Nat) (f : FrameState) : FrameState :=
  { f with count := (input * 0x100) % 65536, currentLed := 0, fletcher1 := 0, fletcher2 := 0 }

/-- Modelled from the spec: `frameState.computeCRC(input)` of the missing `framestate.h`: "low
byte of `ledCount - 1`; compute the CRC-8 over the two length bytes". -/
def FrameState.computeCRC (crc8 : Nat → Nat → Nat) (input : Nat) (f : FrameState) : FrameState :=
  { f with count := (f.count + input) % 65536, CRC := crc8 (f.count / 0x100) input }

/-- Modelled from the spec: `frameState.addFletcher(input)` of the missing `framestate.h`: the
byte is folded "into the running payload checksum" (Fletcher-16 style). -/
def FrameState.addFletcher (input : Nat) (f : FrameState) : FrameState :=
  let f1 := (f.fletcher1 + input) % 255
  { f with fletcher1 := f1, fletcher2 := (f.fletcher2 + f1) % 255 }

/-- Modelled from the spec: `frameState.getCurrentLedIndex()` of the missing `framestate.h`:
returns the current pixel index and advances it (`uint16_t`). -/
def FrameState.getCurrentLedIndex (f : FrameState) : Nat × FrameState :=
  (f.currentLed, { f with currentLed := (f.currentLed + 1) % 65536 })

/-- The call `frameState.rgb2rgbw()` under `#ifdef NEOPIXEL_RGBW`: the calibration step on
the pixel under construction; nothing in a build without `NEOPIXEL_RGBW`. -/
def FrameState.rgb2rgbw (b : Build) (f : FrameState) : FrameState :=
  match b.rgb2rgbw with
  | some g => { f with color := g f.color }
  | none => f

/-! ## main.h -/

/-- The body of the `switch (frameState.getState())` of `processData` for one input byte.
The calls of `updateMainStatistics` and `yield` in the `FINAL` case act on the timing
monitor and the scheduler only and are not part of the model. -/
def step (b : Build) (env : Env) (w : World) (input : Nat) : World :=
  match w.frameState.state with
  | .HEADER_A =>
      if input = 65 then setState .HEADER_d w else w
  | .HEADER_d =>
      if input = 100 then setState .HEADER_a w else setState .HEADER_A w
  | .HEADER_a =>
      if input = 97 then setState .HEADER_HI w else setState .HEADER_A w
  | .HEADER_HI =>
      let w := { w with statistics :=
        { w.statistics with totalFrames := w.statistics.totalFrames + 1 } }
      let w := { w with frameState := w.frameState.init input }
      setState .HEADER_LO w
  | .HEADER_LO =>
      let w := { w with frameState := w.frameState.computeCRC b.crc8 input }
      setState .HEADER_CRC w
  | .HEADER_CRC =>
      if w.frameState.CRC = input then
        let ledSize := (w.frameState.count + 1) % 65536
        if ledSize > 4096 then setState .HEADER_A w
        else
          let w : World := if ledSize ≠ getLedsNumber w then initLedStrip b ledSize w else w
          setState .RED w
      else setState .HEADER_A w
  | .RED =>
      let w := { w with frameState :=
        { w.frameState with color := { w.frameState.color with R := input } } }
      let w := { w with frameState := w.frameState.addFletcher input }
      setState .GREEN w
  | .GREEN =>
      let w := { w with frameState :=
        { w.frameState with color := { w.frameState.color with G := input } } }
      let w := { w with frameState := w.frameState.addFletcher input }
      setState .BLUE w
  | .BLUE =>
      let w := { w with frameState :=
        { w.frameState with color := { w.frameState.color with B := input } } }
      let w := { w with frameState := w.frameState.addFletcher input }
      let w := { w with frameState := w.frameState.rgb2rgbw b }
      let i := w.frameState.getCurrentLedIndex
      let w := { w with frameState := i.2 }
      let r := setStripPixel b i.1 w.frameState.color w
      if r.1 then setState .RED r.2 else setState .FINAL r.2
  | .FINAL =>
      let w := { w with statistics :=
        { w.statistics with goodFrames := w.statistics.goodFrames + 1 } }
      let w := renderLeds b env true w
      setState .HEADER_A w

/-- The decoder fed the bytes `inputs` one after the other; `env i` is the environment of
the `i`-th step. -/
def run (b : Build) : (Nat → Env) → World → List Nat → World
  | _, w, [] => w
  | env, w, input :: inputs => run b (fun i => env (i + 1)) (step b (env 0) w input) inputs

/-- The protocol phase after each byte of `inputs`. -/
def runStates (b : Build) : (Nat → Env) → World → List Nat → List AwaProtocol
  | _, _, [] => []
  | env, w, input :: inputs =>
      (step b (env 0) w input).frameState.state
        :: runStates b (fun i => env (i + 1)) (step b (env 0) w input) inputs

/-- The `while (base.queueCurrent != base.queueEnd)` loop of `processData`, at most `fuel`
iterations. -/
def processLoop (b : Build) : Nat → (Nat → Env) → World → World
  | 0, _, w => w
  | fuel + 1, env, w =>
      if w.queueCurrent ≠ w.queueEnd then
        let input := w.buffer.getD w.queueCurrent 0
        let queueCurrent := w.queueCurrent + 1
        let queueCurrent := if queueCurrent ≥ MAX_BUFFER then 0 else queueCurrent
        let w := { w with queueCurrent := queueCurrent }
        processLoop b fuel (fun i => env (i + 1)) (step b (env 0) w input)
      else w

/-- The function `processData`: the late frame is rendered when there is one, then the
queue is drained. `env 0` is the environment of the late render, `env (i + 1)` that of the
`i`-th byte. The statistics printout at the head of the function is not part of the model. -/
def processData (b : Build) (fuel : Nat) (env : Nat → Env) (w : World) : World :=
  let w : World := if hasLateFrameToRender w then renderLeds b (env 0) false w else w
  processLoop b fuel (fun i => env (i + 1)) w

/-- The header bytes `'A', 'd', 'a', hi, lo, c` of a frame. -/
def header (hi lo c : Nat) : List Nat := [65, 100, 97, hi, lo, c]

/-- The calls of `setStripPixel` in a call log, as index and the three channels. -/
def setStripPixelCalls : List Call → List (Nat × Nat × Nat × Nat)
  | [] => []
  | Call.setStripPixel pix c :: cs => (pix, c.R, c.G, c.B) :: setStripPixelCalls cs
  | _ :: cs => setStripPixelCalls cs

/-! ## Auxiliary definitions for the statements -/

/-- The colour passed to `setStripPixel` for the bytes `r`, `g`, `bl`. -/
def pixelColor (b : Build) (w : World) (r g bl : Nat) : ColorDefinition :=
  match b.rgb2rgbw with
  | some f => f { w.frameState.color with R := r, G := g, B := bl }
  | none => { w.frameState.color with R := r, G := g, B := bl }

/-- The world after one pixel: the three steps taken from `RED` on the bytes `r`, `g`, `bl`. -/
def pixelWorld (b : Build) (w : World) (r g bl : Nat) : World :=
  { w with
    frameState := { ((w.frameState.addFletcher r).addFletcher g).addFletcher bl with
      state := if w.frameState.currentLed + 1 < w.ledsNumber then .RED else .FINAL,
      color := pixelColor b w r g bl,
      currentLed := (w.frameState.currentLed + 1) % 65536 },
    calls := w.calls ++ [Call.setStripPixel w.frameState.currentLed (pixelColor b w r g bl)],
    drivers := if w.frameState.currentLed < w.ledsNumber then
        routePixel b w.ledsNumber w.frameState.currentLed (pixelColor b w r g bl) w.drivers
      else w.drivers }

/-- The world after the five bytes `'A', 'd', 'a', hi, lo` processed from `HEADER_A`. -/
def headerWorld (b : Build) (w : World) (hi lo : Nat) : World :=
  { w with
    statistics := { w.statistics with totalFrames := w.statistics.totalFrames + 1 },
    frameState := { w.frameState with
      state := .HEADER_CRC, count := ((hi * 0x100) % 65536 + lo) % 65536,
      CRC := b.crc8 ((hi * 0x100) % 65536 / 0x100) lo, currentLed := 0,
      fletcher1 := 0, fletcher2 := 0 } }

/-- A sample header check: the exclusive or of the two length bytes and `0x55`. -/
def sampleCrc8 (hi lo : Nat) : Nat := hi ^^^ lo ^^^ 0x55

/-- A sample build with one single-lane `ws2812` strip. -/
def singleBuild : Build :=
  { SECOND_SEGMENT_START_INDEX := none, SECOND_SEGMENT_REVERSED := false,
    LED_DRIVER := .ws2812, LED_DRIVER2 := .ws2812, rgb2rgbw := none, crc8 := sampleCrc8 }

/-- A sample build with two parallel `ws2812p` lanes split at `start`. -/
def splitBuild (start : Nat) (reversed : Bool) : Build :=
  { SECOND_SEGMENT_START_INDEX := some start, SECOND_SEGMENT_REVERSED := reversed,
    LED_DRIVER := .ws2812p, LED_DRIVER2 := .ws2812p, rgb2rgbw := none, crc8 := sampleCrc8 }

/-- An environment in which no DMA completion interrupt arrives. -/
def idleEnv : Nat → Env := fun _ => { time_us_64 := 0, irq := none }

/-- The stream of one frame with a single pixel followed by the byte consumed in `FINAL`, then
the header with length field `0xFFFF`. -/
def wrapStream : List Nat :=
  header 0 0 (sampleCrc8 0 0) ++ [1, 2, 3] ++ [0] ++ header 255 255 (sampleCrc8 255 255)

/-- The index at which `Base::setStripPixel` addresses the second segment. -/
def secondSegmentIndex (reversed : Bool) (start ledsNumber pix : Nat) : Nat :=
  if reversed then ledsNumber - pix - 1 else pix - start

/-- The byte that the loop of `NeopixelParallelType::SetPixel` ORs into offset `p`: the first
statement of an iteration covers `[target - 4, target)` with the low nibble, the second
`[target - 8, target - 4)` with the high nibble. -/
def laneBits (mask : Nat) : List Nat → Nat → Nat → Nat
  | [], _, _ => 0
  | c :: source, target, p =>
      if target - 4 ≤ p ∧ p < target then
        (if ((c % 256) &&& 0b00001111).testBit (p - (target - 4)) then mask % 256 else 0)
      else if target - 8 ≤ p ∧ p < target - 4 then
        (if ((c % 256) >>> 4).testBit (p - (target - 8)) then mask % 256 else 0)
      else laneBits mask source (target - 8) p

/-- The data of the transfers started, in order. -/
def dmaStarts : List HwEvent → List (List Nat)
  | [] => []
  | HwEvent.dmaStart data :: es => data :: dmaStarts es
  | _ :: es => dmaStarts es

/-- A frame in wire format with one pixel: header for length field 0, the three channel
bytes, two trailing checksum bytes. -/
def onePixelFrame (r g bl : Nat) : List Nat :=
  header 0 0 (sampleCrc8 0 0) ++ [r, g, bl] ++ [0, 0]

/-- Three frames of one pixel each: the first is transmitted at once, the other two arrive
while that transfer is running. -/
def coalesceStream : List Nat :=
  onePixelFrame 1 2 3 ++ onePixelFrame 255 0 0 ++ onePixelFrame 0 0 255

/-- An environment in which the DMA completion interrupt has run before the step. -/
def readyEnv : Nat → Env := fun _ => { time_us_64 := 1000000, irq := some 0 }

/-- The shared buffer of one parallel lane (lane 0, one `ColorGrb` pixel) that holds exactly
the colour bytes `bytes`. -/
def laneImage (bytes : List Nat) : List Nat :=
  NeopixelParallelType.SetPixel 1 (lutMemory (laneMask 0)) (List.replicate 24 0) 0 bytes

/-- Whether `ledStrip1` holds an object on which the display call of `Base::renderLeds`
compiles: a parallel lane (with its `muxer`) under `SECOND_SEGMENT_START_INDEX`, a
single-lane object otherwise. -/
def configured (b : Build) (d : Drivers) : Bool :=
  match b.SECOND_SEGMENT_START_INDEX, d.ledStrip1, d.muxer with
  | some _, some (.lane _ _ _ _), some _ => true
  | none, some (.neopixel _ _), _ => true
  | none, some (.dotstar _ _), _ => true
  | _, _, _ => false

/-- The byte length of a frame of `n` pixels in wire format: 6 header bytes, `3 * n` payload
bytes, 2 trailing checksum bytes. -/
def wireLength (n : Nat) : Nat := 6 + 3 * n + 2

/-- A configured sample state: one `ws2812` pixel, nothing pending, channel idle. -/
def sampleWorld : World := initLedStrip singleBuild 1 World.initial

/-- The indices at which the loop of `processData` reads `base.buffer`: the cursor
`queueCurrent` before each increment, with the same wrap as the loop. -/
def drainIndices : Nat → Nat → Nat → List Nat
  | 0, _, _ => []
  | fuel + 1, queueCurrent, queueEnd =>
      if queueCurrent ≠ queueEnd then
        queueCurrent ::
          drainIndices fuel (if queueCurrent + 1 ≥ MAX_BUFFER then 0 else queueCurrent + 1)
            queueEnd
      else []

/-- The value of `queueCurrent` when the loop of `processData` stops. -/
def drainCursor : Nat → Nat → Nat → Nat
  | 0, queueCurrent, _ => queueCurrent
  | fuel + 1, queueCurrent, queueEnd =>
      if queueCurrent ≠ queueEnd then
        drainCursor fuel (if queueCurrent + 1 ≥ MAX_BUFFER then 0 else queueCurrent + 1) queueEnd
      else queueCurrent

/-- The late-frame render at the head of `processData`. -/
def lateRender (b : Build) (env : Env) (w : World) : World :=
  if hasLateFrameToRender w then renderLeds b env false w else w

/-- The cursor after one increment of the loop of `processData`. -/
def nextCursor (queueCurrent : Nat) : Nat :=
  if queueCurrent + 1 ≥ MAX_BUFFER then 0 else queueCurrent + 1

/-- A state whose queue holds four unread bytes across the wrap. -/
def wrapQueueWorld : World :=
  { World.initial with queueCurrent := 9038, queueEnd := 2 }

/-- The calls `ledStripK->SetPixel` in a driver log. -/
def pixelWrites : List HwEvent → List (Nat × Nat × ColorDefinition)
  | [] => []
  | HwEvent.SetPixel strip index color :: es => (strip, index, color) :: pixelWrites es
  | _ :: es => pixelWrites es

/-- The state with the running payload checksum replaced by `f1`, `f2`. -/
def withFletcher (f1 f2 : Nat) (w : World) : World :=
  { w with frameState := { w.frameState with fletcher1 := f1, fletcher2 := f2 } }

/-- A state in `FINAL`: the one-pixel frame has been decoded, its trailer has not. -/
def finalWorld : World :=
  run singleBuild idleEnv World.initial (header 0 0 (sampleCrc8 0 0) ++ [1, 2, 3])

/-- What a display call can add to the driver log: nothing, the start of a transfer, or one
wait of at most 650 us (the longest reset time) followed by the start of a transfer. -/
def RenderTail (rest : List HwEvent) : Prop :=
  rest = [] ∨ (∃ data, rest = [HwEvent.dmaStart data]) ∨
    (∃ wait data, wait ≤ 650 ∧ rest = [HwEvent.busyWait wait, HwEvent.dmaStart data])

/-- A state with a running transfer: the one-pixel frame has been decoded and rendered. -/
def busyWorld : World := run singleBuild idleEnv World.initial (onePixelFrame 1 2 3)

/-- The calls that the decoder makes for the frames, in order: `some pix` for a call
`setStripPixel(pix, _)`, `none` for a render request `renderLeds(true)`. -/
def frameCalls : List Call → List (Option Nat)
  | [] => []
  | Call.setStripPixel pix _ :: cs => some pix :: frameCalls cs
  | Call.renderLeds true :: cs => none :: frameCalls cs
  | _ :: cs => frameCalls cs

/-- A frame in wire format: header with the matching check byte of the build, payload, two
trailing checksum bytes. -/
def wireFrame (b : Build) (hi lo : Nat) (p : List Nat) (t1 t2 : Nat) : List Nat :=
  header hi lo (b.crc8 hi lo) ++ p ++ [t1, t2]

/-- Construction of parallel lanes of class `t` with the declared pixel counts `counts`, one
after the other: the objects created, in order, and the drivers afterwards. -/
def constructLanes (t : LedType) : List Nat → Drivers → List Strip × Drivers
  | [], d => ([], d)
  | c :: counts, d =>
      let r := newStrip t c d
      let rs := constructLanes t counts r.2
      (r.1 :: rs.1, rs.2)

/-- Destruction of the objects `lanes`, one after the other. -/
def destroyLanes : List Strip → Drivers → Drivers
  | [], d => d
  | s :: lanes, d => destroyLanes lanes (deleteStrip s d)

/-- Whether the object is a parallel lane. -/
def Strip.isLane : Strip → Bool
  | .lane _ _ _ _ => true
  | _ => false

/-- An operation on the set of live parallel lanes: the construction of a lane with a
declared pixel count, or the destruction of the live lane at position `j` (in order of
construction). -/
inductive LaneOp where
  | construct (ledsNumber : Nat)
  | destroy (j : Nat)
  deriving DecidableEq, Repr

/-- The member `myLaneMask` of a parallel lane. -/
def Strip.myLaneMask : Strip → Nat
  | .lane _ _ myLaneMask _ => myLaneMask
  | _ => 0

/-- One operation applied to the live lanes (in order of construction) and the drivers. -/
def LaneOp.apply (t : LedType) : LaneOp → List Strip × Drivers → List Strip × Drivers
  | .construct n, s =>
      let r := newStrip t n s.2
      (s.1 ++ [r.1], r.2)
  | .destroy j, s =>
      match s.1[j]? with
      | some x => (s.1.eraseIdx j, deleteStrip x s.2)
      | none => s

/-- A sequence of operations applied from left to right. -/
def runLaneOps (t : LedType) : List LaneOp → List Strip × Drivers → List Strip × Drivers
  | [], s => s
  | op :: ops, s => runLaneOps t ops (op.apply t s)

/-- The ranks of the live lanes (in order of construction) after one operation. The rank of a
lane is the number of lanes that were alive when it was constructed; it is a function of the
sequence of operations alone. -/
def LaneOp.ranks : LaneOp → List Nat → List Nat
  | .construct _, live => live ++ [live.length]
  | .destroy j, live => live.eraseIdx j

/-- The ranks of the live lanes after a sequence of operations. -/
def runRanks : List LaneOp → List Nat → List Nat
  | [], live => live
  | op :: ops, live => runRanks ops (op.ranks live)

/-- Whether, with `k` lanes alive at the start, at most 8 lanes are alive at once along the
sequence and every destruction names a live lane. -/
def atMostEight : List LaneOp → Nat → Bool
  | [], _ => true
  | .construct _ :: ops, k => decide (k < 8) && atMostEight ops (k + 1)
  | .destroy j :: ops, k => decide (j < k) && atMostEight ops (k - 1)

/-- Whether, with `k` lanes alive at the start, every destruction takes the lane constructed
last among the live ones (lanes are destroyed in reverse order of construction). -/
def reverseOrder : List LaneOp → Nat → Bool
  | [], _ => true
  | .construct _ :: ops, k => reverseOrder ops (k + 1)
  | .destroy j :: ops, k => decide (j + 1 = k) && reverseOrder ops (k - 1)

/-- Whether, with `k` lanes alive at the start, no lane is constructed after a destruction
before all lanes have been destroyed; `torn` says that a destruction has left lanes alive. -/
def rebuildOnly : List LaneOp → Nat → Bool → Bool
  | [], _, _ => true
  | .construct _ :: ops, k, torn => !torn && rebuildOnly ops (k + 1) false
  | .destroy _ :: ops, k, _ => rebuildOnly ops (k - 1) (decide (k - 1 ≠ 0))

/-- A sequence that is neither in reverse order nor a rebuild: four lanes are constructed,
the first and the third are destroyed, a fifth is constructed with rank 2. -/
def gapOps : List LaneOp :=
  [.construct 1, .construct 1, .construct 1, .construct 1, .destroy 0, .destroy 1, .construct 1]

/-- The operations of two rounds of `Base::initLedStrip` in a split build: two lanes are
constructed, the first and then the second is destroyed, two lanes are constructed. -/
def initLedStripOps : List LaneOp :=
  [.construct 4, .construct 6, .destroy 0, .destroy 0, .construct 4, .construct 2]

/-- The loop of `NeopixelParallelType::SetPixel` with the pointer `target` as a signed byte
offset from `buffer`. The result is the buffer and, in order, the offsets of the `uint32_t`
words dereferenced by the two `*(--target) |= ...` statements of each iteration. -/
def setPixelLoopTrace (lut : List Nat) : List Nat → Int → List Nat → List Nat × List Int
  | [], _, buffer => (buffer, [])
  | c :: source, target, buffer =>
      let buffer1 := orWord32 buffer (target - 4).toNat (lutAt lut ((c % 256) &&& 0b00001111))
      let buffer2 := orWord32 buffer1 (target - 8).toNat (lutAt lut ((c % 256) >>> 4))
      let r := setPixelLoopTrace lut source (target - 8) buffer2
      (r.1, (target - 4) :: (target - 8) :: r.2)

/-- The method `NeopixelParallelType::SetPixel(index, color)` with the offsets of the words
it dereferences; `color` is the memory image of the colour, its length is
`sizeof(colorData)`. -/
def NeopixelParallelType.SetPixelTrace (maxLeds : Nat) (lut : List Nat) (buffer : List Nat)
    (index : Nat) (color : List Nat) : List Nat × List Int :=
  if index ≥ maxLeds then (buffer, [])
  else setPixelLoopTrace lut color (((index + 1) * 8 * color.length : Nat) : Int) buffer

/-- The content of the static `NeopixelParallel::buffer`, the buffer of `muxer`; empty when
`muxer` is `nullptr`. -/
def sharedBuffer (d : Drivers) : List Nat :=
  match d.muxer with
  | some m => m.buffer
  | none => []

/-- Every bit that is set in the bytes `old` is set in the bytes `new`. -/
def BitsKept (old new : List Nat) : Prop :=
  ∀ p bit, bit < 8 → (old.getD p 0).testBit bit = true → (new.getD p 0).testBit bit = true

/-- The bytewise OR of two colours given as memory images. -/
def orBytes (c1 c2 : List Nat) : List Nat := List.zipWith (fun x y => x ||| y) c1 c2

/-- The outcome of `muxer->renderDma(true)` when it starts a transfer: the content of the
shared buffer is copied to `dma`, the transfer of `dma` is started, and the buffer is zeroed
by `memset(buffer, 0, dmaSize)`. -/
def ResetByTransfer (old new : Drivers) : Prop :=
  ∃ m, old.muxer = some m ∧
    new.muxer = some { m with dma := memcpy m.dma m.buffer m.dmaSize,
                              buffer := memsetZero m.buffer m.dmaSize } ∧
    dmaStarts new.hw = dmaStarts old.hw ++ [memcpy m.dma m.buffer m.dmaSize]

/-- The four bytes of pixel `i` in the buffer of a `DotstarType` strip: the `colorData` at
`reinterpret_cast<colorData*>(buffer) + i + 1`. -/
def pixelWord (buffer : List Nat) (i : Nat) : List Nat := (buffer.drop (4 * (i + 1))).take 4

/-- The frame that a `DotstarType` strip of `n` pixels sends for the buffer `buffer`: the
start frame of 4 zero bytes, the pixel words in index order, the end frame of 4 bytes `0xFF`. -/
def dotstarFrame (n : Nat) (buffer : List Nat) : List Nat :=
  [0, 0, 0, 0] ++ (List.range n).flatMap (pixelWord buffer) ++ [0xFF, 0xFF, 0xFF, 0xFF]

/-- A `DotstarType` strip of 2 pixels after `SetPixel(0, c0)` and `SetPixel(1, c1)`, with
`c0 = (R 1, G 2, B 3, brightness 0xFF)` and `c1 = (R 4, G 5, B 6, brightness 0xE7)`. -/
def sampleDotstar : LedDriver :=
  DotstarType.SetPixel
    (DotstarType.SetPixel (LedDriver.new 2 16) 0 (colorBytes .ColorDotstartBgr ⟨1, 2, 3, 0xFF⟩))
    1 (colorBytes .ColorDotstartBgr ⟨4, 5, 6, 0xE7⟩)

/-- The drivers with `sampleDotstar` behind `ledStrip1` and an idle channel. -/
def sampleDotstarDrivers : Drivers :=
  { Drivers.initial with ledStrip1 := some (Strip.dotstar .apa102 sampleDotstar) }

/-! ## Theorems -/

theorem setStripPixelCalls_append (xs ys : List Call) :
    setStripPixelCalls (xs ++ ys) = setStripPixelCalls xs ++ setStripPixelCalls ys := by
  induction xs with
  | nil => rfl
  | cons x xs ih =>
    cases x <;> simp [setStripPixelCalls, ih]

theorem run_cons (b : Build) (env : Nat → Env) (w : World) (x : Nat) (xs : List Nat) :
    run b env w (x :: xs) = run b (fun i => env (i + 1)) (step b (env 0) w x) xs := rfl

theorem run_append (b : Build) (xs ys : List Nat) : ∀ (env : Nat → Env) (w : World),
    run b env w (xs ++ ys) = run b (fun i => env (i + xs.length)) (run b env w xs) ys := by
  induction xs with
  | nil => intro env w; rfl
  | cons x xs ih =>
    intro env w
    simp only [List.cons_append, run_cons, ih, List.length_cons]
    congr 1

theorem pixel_steps (b : Build) (e0 e1 e2 : Env) (w : World)
    (r g bl : Nat) (hs : w.frameState.state = .RED) :
    step b e2 (step b e1 (step b e0 w r) g) bl = pixelWorld b w r g bl := by
  obtain ⟨⟨st, _, _, cur, _, _, _⟩, _, n, _, _, _, _, _, _⟩ := w
  simp only at hs
  subst hs
  unfold pixelWorld pixelColor
  cases hb : b.rgb2rgbw <;> by_cases h : cur + 1 < n <;>
    simp [step, hb, setState, setStripPixel, FrameState.addFletcher, FrameState.rgb2rgbw,
      FrameState.getCurrentLedIndex, h]

theorem pixels_cons (i r g bl : Nat) (p : List Nat) (n : Nat) :
    (List.range (n + 1)).map (fun k => (i + k, (r :: g :: bl :: p).getD (3 * k) 0,
          (r :: g :: bl :: p).getD (3 * k + 1) 0, (r :: g :: bl :: p).getD (3 * k + 2) 0))
      = (i, r, g, bl) :: (List.range n).map (fun k => (i + 1 + k, p.getD (3 * k) 0,
          p.getD (3 * k + 1) 0, p.getD (3 * k + 2) 0)) := by
  rw [List.range_succ_eq_map, List.map_cons, List.map_map]
  congr 1
  apply List.map_congr_left
  intro k _
  have e1 : 3 * (k + 1) = 3 * k + 1 + 1 + 1 := by omega
  have e2 : 3 * (k + 1) + 1 = 3 * k + 1 + 1 + 1 + 1 := by omega
  have e3 : 3 * (k + 1) + 2 = 3 * k + 2 + 1 + 1 + 1 := by omega
  simp only [Function.comp, Nat.succ_eq_add_one, e1, e2, e3, List.getD_cons_succ]
  congr 1
  omega

theorem run_payload (b : Build) (hrgbw : b.rgb2rgbw = none) : ∀ (n : Nat) (env : Nat → Env)
    (w : World) (p : List Nat),
    w.frameState.state = .RED → p.length = 3 * (n + 1) →
    w.ledsNumber = w.frameState.currentLed + n + 1 → w.ledsNumber ≤ 65536 →
    setStripPixelCalls (run b env w p).calls = setStripPixelCalls w.calls ++
        (List.range (n + 1)).map (fun k => (w.frameState.currentLed + k, p.getD (3 * k) 0,
          p.getD (3 * k + 1) 0, p.getD (3 * k + 2) 0)) ∧
      (run b env w p).ledsNumber = w.ledsNumber ∧
      (run b env w p).frameState.state = .FINAL := by
  intro n
  induction n with
  | zero =>
    intro env w p hs hp hl _
    match p, hp with
    | [r, g, bl], _ =>
      simp only [run_cons, run]
      rw [pixel_steps b _ _ _ w r g bl hs, pixels_cons]
      refine ⟨?_, rfl, ?_⟩
      · simp [pixelWorld, pixelColor, hrgbw, setStripPixelCalls_append, setStripPixelCalls]
      · simp only [pixelWorld]
        rw [if_neg (by omega)]
  | succ n ih =>
    intro env w p hs hp hl hle
    match p, hp with
    | r :: g :: bl :: p', hp' =>
      simp only [run_cons]
      rw [pixel_steps b _ _ _ w r g bl hs]
      have hst : (pixelWorld b w r g bl).frameState.state = .RED := by
        simp only [pixelWorld]
        rw [if_pos (by omega)]
      have hcur : (pixelWorld b w r g bl).frameState.currentLed
          = w.frameState.currentLed + 1 := by
        simp only [pixelWorld]
        exact Nat.mod_eq_of_lt (by omega)
      have hln : (pixelWorld b w r g bl).ledsNumber = w.ledsNumber := rfl
      have hp'' : p'.length = 3 * (n + 1) := by
        simp only [List.length_cons] at hp'; omega
      obtain ⟨i1, i2, i3⟩ := ih (fun i => env (i + 1 + 1 + 1)) (pixelWorld b w r g bl) p' hst hp''
        (by rw [hln, hcur]; omega) (by rw [hln]; exact hle)
      refine ⟨?_, by rw [i2, hln], i3⟩
      rw [i1, hcur, pixels_cons]
      simp [pixelWorld, pixelColor, hrgbw, setStripPixelCalls_append, setStripPixelCalls]

theorem run_header5 (b : Build) (env : Nat → Env) (w : World) (hi lo : Nat)
    (hs : w.frameState.state = .HEADER_A) :
    run b env w [65, 100, 97, hi, lo] = headerWorld b w hi lo := by
  obtain ⟨⟨st, _, _, _, _, _, _⟩, _, _, _, _, _, _, _, _⟩ := w
  simp only at hs
  subst hs
  rfl

theorem run_header (b : Build) (env : Nat → Env) (w : World) (hi lo c : Nat)
    (hs : w.frameState.state = .HEADER_A) :
    run b env w (header hi lo c) = step b (env 5) (headerWorld b w hi lo) c := by
  have h := run_append b [65, 100, 97, hi, lo] [c] env w
  simp only [List.cons_append, List.nil_append] at h
  unfold header
  rw [h, run_header5 b env w hi lo hs]
  rfl

theorem length_field (hi lo : Nat) (hlo : lo < 256) : hi <<< 8 ||| lo = hi * 256 + lo := by
  rw [Nat.shiftLeft_eq, Nat.mul_comm hi (2 ^ 8)]
  exact (Nat.mul_add_lt_is_or (i := 8) hlo hi).symm.trans (by norm_num)

/-- The step taken in `HEADER_CRC` on the matching check byte when the pixel count passes
the sanity check. -/
theorem step_CRC_ok (b : Build) (e : Env) (w : World) (hi lo : Nat)
    (hhi : hi < 256) (hn : hi * 256 + lo + 1 ≤ 4096) :
    step b e (headerWorld b w hi lo) (b.crc8 hi lo) =
      setState .RED (if hi * 256 + lo + 1 ≠ w.ledsNumber
        then initLedStrip b (hi * 256 + lo + 1) (headerWorld b w hi lo)
        else headerWorld b w hi lo) := by
  have h1 : hi * 256 % 65536 = hi * 256 := Nat.mod_eq_of_lt (by omega)
  have h2 : hi * 256 / 256 = hi := by omega
  have h3 : (hi * 256 + lo) % 65536 = hi * 256 + lo := Nat.mod_eq_of_lt (by omega)
  have h4 : (hi * 256 + lo + 1) % 65536 = hi * 256 + lo + 1 := Nat.mod_eq_of_lt (by omega)
  have h5 : ¬ (hi * 256 + lo + 1 > 4096) := by omega
  simp only [step, headerWorld, h1, h2, h3, h4, h5, if_true, if_false, getLedsNumber]

/-- C1: from `HEADER_A`, in a build without RGBW expansion, the header `'A','d','a',hi,lo,c`
with the matching check byte and a pixel count `n = (hi<<8 | lo) + 1 ≤ 4096`, followed by
`3n` payload bytes `p`, makes exactly `n` calls of `setStripPixel`, the `k`-th with index `k`
and the channels `p[3k]`, `p[3k+1]`, `p[3k+2]`; afterwards the configured strip size is `n`
and the decoder is in `FINAL`. -/
theorem C1_frame_sets_pixels (b : Build) (env : Nat → Env) (w : World) (hi lo : Nat)
    (p : List Nat) (hrgbw : b.rgb2rgbw = none) (hs : w.frameState.state = .HEADER_A)
    (hhi : hi < 256) (hlo : lo < 256) (hn : (hi <<< 8 ||| lo) + 1 ≤ 4096)
    (hp : p.length = 3 * ((hi <<< 8 ||| lo) + 1)) :
    setStripPixelCalls (run b env w (header hi lo (b.crc8 hi lo) ++ p)).calls
        = setStripPixelCalls w.calls ++ (List.range ((hi <<< 8 ||| lo) + 1)).map
            (fun k => (k, p.getD (3 * k) 0, p.getD (3 * k + 1) 0, p.getD (3 * k + 2) 0)) ∧
      (run b env w (header hi lo (b.crc8 hi lo) ++ p)).ledsNumber = (hi <<< 8 ||| lo) + 1 ∧
      (run b env w (header hi lo (b.crc8 hi lo) ++ p)).frameState.state = .FINAL := by
  rw [length_field hi lo hlo] at hn hp ⊢
  rw [run_append, run_header b env w hi lo _ hs, step_CRC_ok b _ w hi lo hhi hn]
  generalize hw0 : setState AwaProtocol.RED (if hi * 256 + lo + 1 ≠ w.ledsNumber
        then initLedStrip b (hi * 256 + lo + 1) (headerWorld b w hi lo)
        else headerWorld b w hi lo) = w0
  have hst : w0.frameState.state = .RED := by rw [← hw0]; rfl
  have hcur : w0.frameState.currentLed = 0 := by
    rw [← hw0]; split <;> rfl
  have hln : w0.ledsNumber = hi * 256 + lo + 1 := by
    rw [← hw0]
    by_cases h : hi * 256 + lo + 1 = w.ledsNumber
    · rw [if_neg (by simpa using h)]; exact h.symm
    · rw [if_pos h]; rfl
  have hcalls : setStripPixelCalls w0.calls = setStripPixelCalls w.calls := by
    rw [← hw0]
    split
    · simp [setState, initLedStrip, headerWorld, setStripPixelCalls_append, setStripPixelCalls]
    · rfl
  obtain ⟨i1, i2, i3⟩ := run_payload b hrgbw (hi * 256 + lo) _ w0 p hst hp
    (by rw [hln, hcur]; omega) (by rw [hln]; omega)
  refine ⟨?_, by rw [i2, hln], i3⟩
  rw [i1, hcalls, hcur]
  simp

/-- C1 at a frame of two pixels on the initial state. -/
theorem C1_witness :
    singleBuild.rgb2rgbw = none ∧ World.initial.frameState.state = .HEADER_A ∧
    (0 : Nat) < 256 ∧ (1 : Nat) < 256 ∧ (0 <<< 8 ||| 1) + 1 ≤ 4096 ∧
    [10, 20, 30, 40, 50, 60].length = 3 * ((0 <<< 8 ||| 1) + 1) ∧
    (setStripPixelCalls (run singleBuild idleEnv World.initial
        (header 0 1 (singleBuild.crc8 0 1) ++ [10, 20, 30, 40, 50, 60])).calls
        = setStripPixelCalls World.initial.calls ++ (List.range ((0 <<< 8 ||| 1) + 1)).map
            (fun k => (k, [10, 20, 30, 40, 50, 60].getD (3 * k) 0,
              [10, 20, 30, 40, 50, 60].getD (3 * k + 1) 0,
              [10, 20, 30, 40, 50, 60].getD (3 * k + 2) 0)) ∧
      (run singleBuild idleEnv World.initial
        (header 0 1 (singleBuild.crc8 0 1) ++ [10, 20, 30, 40, 50, 60])).ledsNumber
        = (0 <<< 8 ||| 1) + 1 ∧
      (run singleBuild idleEnv World.initial
        (header 0 1 (singleBuild.crc8 0 1) ++ [10, 20, 30, 40, 50, 60])).frameState.state
        = .FINAL) :=
  ⟨rfl, rfl, by decide, by decide, by decide, by decide,
    C1_frame_sets_pixels singleBuild idleEnv World.initial 0 1 [10, 20, 30, 40, 50, 60] rfl rfl
      (by decide) (by decide) (by decide) (by decide)⟩

theorem runStates_append (b : Build) (xs ys : List Nat) : ∀ (env : Nat → Env) (w : World),
    runStates b env w (xs ++ ys)
      = runStates b env w xs ++ runStates b (fun i => env (i + xs.length)) (run b env w xs) ys := by
  induction xs with
  | nil => intro env w; rfl
  | cons x xs ih =>
    intro env w
    show _ :: runStates b _ _ (xs ++ ys) = _
    rw [ih]
    rfl

theorem runStates_singleton_append (b : Build) (xs : List Nat) (x : Nat) (env : Nat → Env)
    (w : World) :
    runStates b env w (xs ++ [x]) = runStates b env w xs
      ++ [(step b (env xs.length) (run b env w xs) x).frameState.state] := by
  rw [runStates_append]
  simp [runStates]

theorem run_singleton_append (b : Build) (xs : List Nat) (x : Nat) (env : Nat → Env)
    (w : World) :
    run b env w (xs ++ [x]) = step b (env xs.length) (run b env w xs) x := by
  rw [run_append]
  simp [run]

theorem step_HEADER_A (b : Build) (e : Env) (w : World) (x : Nat) :
    step b e (setState .HEADER_A w) x
      = if x = 65 then setState .HEADER_d w else setState .HEADER_A w := by
  simp only [step, setState]

theorem step_HEADER_d (b : Build) (e : Env) (w : World) (x : Nat) :
    step b e (setState .HEADER_d w) x
      = if x = 100 then setState .HEADER_a w else setState .HEADER_A w := by
  simp only [step, setState]

theorem step_HEADER_a (b : Build) (e : Env) (w : World) (x : Nat) :
    step b e (setState .HEADER_a w) x
      = if x = 97 then setState .HEADER_HI w else setState .HEADER_A w := by
  simp only [step, setState]

theorem setState_self (w : World) : setState w.frameState.state w = w := rfl

/-- Noise without the magic, processed from `HEADER_A`: only the protocol phase changes, it
stays among the three magic phases, and a pending match is a suffix of the noise. -/
theorem run_noise (b : Build) (env : Nat → Env) (w : World)
    (hs : w.frameState.state = .HEADER_A) (noise : List Nat) :
    ¬ [65, 100, 97] <:+: noise →
    ∃ st, run b env w noise = setState st w ∧
      (st = .HEADER_A ∨ (st = .HEADER_d ∧ [65] <:+ noise)
        ∨ (st = .HEADER_a ∧ [65, 100] <:+ noise)) ∧
      (runStates b env w noise).count .FINAL = 0 := by
  induction noise using List.reverseRecOn with
  | nil =>
    intro _
    refine ⟨.HEADER_A, ?_, Or.inl rfl, rfl⟩
    rw [← hs]
    rfl
  | append_singleton xs x ih =>
    intro hm
    have hm' : ¬ [65, 100, 97] <:+: xs := by
      rintro ⟨s, t, e⟩
      exact hm ⟨s, t ++ [x], by rw [← e]; simp⟩
    obtain ⟨st, hrun, hcase, hcount⟩ := ih hm'
    rw [run_singleton_append, runStates_singleton_append, hrun, List.count_append, hcount]
    rcases hcase with h | ⟨h, _⟩ | ⟨h, hsuf⟩
    · subst h
      rw [step_HEADER_A]
      by_cases hx : x = 65
      · subst hx
        exact ⟨.HEADER_d, by simp, Or.inr (Or.inl ⟨rfl, List.suffix_append xs [65]⟩),
          by simp [setState]⟩
      · exact ⟨.HEADER_A, by simp [hx], Or.inl rfl, by simp [hx, setState]⟩
    · subst h
      rw [step_HEADER_d]
      by_cases hx : x = 100
      · subst hx
        refine ⟨.HEADER_a, by simp, Or.inr (Or.inr ⟨rfl, ?_⟩), by simp [setState]⟩
        rename_i h65
        obtain ⟨t, ht⟩ := h65
        exact ⟨t, by rw [← ht]; simp⟩
      · exact ⟨.HEADER_A, by simp [hx], Or.inl rfl, by simp [hx, setState]⟩
    · subst h
      rw [step_HEADER_a]
      by_cases hx : x = 97
      · subst hx
        exfalso
        apply hm
        obtain ⟨t, ht⟩ := hsuf
        exact ⟨t, [], by rw [← ht]; simp⟩
      · exact ⟨.HEADER_A, by simp [hx], Or.inl rfl, by simp [hx, setState]⟩

theorem runStates_header5 (b : Build) (env : Nat → Env) (w : World) (hi lo : Nat)
    (hs : w.frameState.state = .HEADER_A) :
    runStates b env w [65, 100, 97, hi, lo]
      = [.HEADER_d, .HEADER_a, .HEADER_HI, .HEADER_LO, .HEADER_CRC] := by
  obtain ⟨⟨st, _, _, _, _, _, _⟩, _, _, _, _, _, _, _, _⟩ := w
  simp only at hs
  subst hs
  rfl

theorem runStates_header (b : Build) (env : Nat → Env) (w : World) (hi lo c : Nat)
    (hs : w.frameState.state = .HEADER_A) :
    runStates b env w (header hi lo c)
      = [.HEADER_d, .HEADER_a, .HEADER_HI, .HEADER_LO, .HEADER_CRC,
         (step b (env 5) (headerWorld b w hi lo) c).frameState.state] := by
  have h := runStates_append b [65, 100, 97, hi, lo] [c] env w
  simp only [List.cons_append, List.nil_append] at h
  unfold header
  rw [h, runStates_header5 b env w hi lo hs, run_header5 b env w hi lo hs]
  rfl

theorem runStates_pixel (b : Build) (env : Nat → Env) (w : World) (r g bl : Nat)
    (p : List Nat) (hs : w.frameState.state = .RED) :
    runStates b env w (r :: g :: bl :: p)
      = .GREEN :: .BLUE :: (pixelWorld b w r g bl).frameState.state
          :: runStates b (fun i => env (i + 1 + 1 + 1)) (pixelWorld b w r g bl) p := by
  have h3 := pixel_steps b (env 0) (env 1) (env 2) w r g bl hs
  have h1 : (step b (env 0) w r).frameState.state = .GREEN := by
    simp [step, hs, setState]
  have h2 : (step b (env 1) (step b (env 0) w r) g).frameState.state = .BLUE := by
    simp [step, hs, setState]
  simp only [runStates]
  rw [h1, h2]
  show _ :: _ :: (step b (env 2) (step b (env 1) (step b (env 0) w r) g) bl).frameState.state
    :: runStates b _ (step b (env 2) (step b (env 1) (step b (env 0) w r) g) bl) p = _
  rw [h3]

/-- The payload of `n + 1` pixels processed from `RED`: `FINAL` is entered once, at the end,
and the strip size is kept. -/
theorem run_payload_states (b : Build) : ∀ (n : Nat) (env : Nat → Env)
    (w : World) (p : List Nat),
    w.frameState.state = .RED → p.length = 3 * (n + 1) →
    w.ledsNumber = w.frameState.currentLed + n + 1 → w.ledsNumber ≤ 65536 →
    (runStates b env w p).count .FINAL = 1 ∧
      (run b env w p).frameState.state = .FINAL := by
  intro n
  induction n with
  | zero =>
    intro env w p hs hp hl _
    match p, hp with
    | [r, g, bl], _ =>
      rw [runStates_pixel b env w r g bl [] hs]
      simp only [run_cons, run]
      rw [pixel_steps b _ _ _ w r g bl hs]
      have : (pixelWorld b w r g bl).frameState.state = .FINAL := by
        simp only [pixelWorld]
        rw [if_neg (by omega)]
      rw [this]
      simp [runStates]
  | succ n ih =>
    intro env w p hs hp hl hle
    match p, hp with
    | r :: g :: bl :: p', hp' =>
      rw [runStates_pixel b env w r g bl p' hs]
      simp only [run_cons]
      rw [pixel_steps b _ _ _ w r g bl hs]
      have hst : (pixelWorld b w r g bl).frameState.state = .RED := by
        simp only [pixelWorld]
        rw [if_pos (by omega)]
      have hcur : (pixelWorld b w r g bl).frameState.currentLed
          = w.frameState.currentLed + 1 := by
        simp only [pixelWorld]
        exact Nat.mod_eq_of_lt (by omega)
      have hln : (pixelWorld b w r g bl).ledsNumber = w.ledsNumber := rfl
      have hp'' : p'.length = 3 * (n + 1) := by
        simp only [List.length_cons] at hp'; omega
      obtain ⟨i1, i2⟩ := ih (fun i => env (i + 1 + 1 + 1)) (pixelWorld b w r g bl) p' hst hp''
        (by rw [hln, hcur]; omega) (by rw [hln]; exact hle)
      refine ⟨?_, i2⟩
      rw [hst]
      simp [i1]

/-- The state in which the payload starts, after a header with matching check byte and
admissible pixel count. -/
theorem after_header (b : Build) (e : Env) (w : World) (hi lo : Nat)
    (hhi : hi < 256) (hn : hi * 256 + lo + 1 ≤ 4096) :
    (step b e (headerWorld b w hi lo) (b.crc8 hi lo)).frameState.state = .RED ∧
    (step b e (headerWorld b w hi lo) (b.crc8 hi lo)).frameState.currentLed = 0 ∧
    (step b e (headerWorld b w hi lo) (b.crc8 hi lo)).ledsNumber = hi * 256 + lo + 1 := by
  rw [step_CRC_ok b e w hi lo hhi hn]
  refine ⟨rfl, ?_, ?_⟩
  · split <;> rfl
  · by_cases h : hi * 256 + lo + 1 = w.ledsNumber
    · rw [if_neg (by simpa using h)]; exact h.symm
    · rw [if_pos h]; rfl

theorem frame_reaches_FINAL_once (b : Build) (env : Nat → Env) (w : World) (hi lo : Nat)
    (p : List Nat) (hs : w.frameState.state = .HEADER_A)
    (hhi : hi < 256) (hn : hi * 256 + lo + 1 ≤ 4096)
    (hp : p.length = 3 * (hi * 256 + lo + 1)) :
    (runStates b env w (header hi lo (b.crc8 hi lo) ++ p)).count .FINAL = 1 ∧
      (run b env w (header hi lo (b.crc8 hi lo) ++ p)).frameState.state = .FINAL := by
  obtain ⟨a1, a2, a3⟩ := after_header b (env 5) w hi lo hhi hn
  rw [runStates_append, run_append, runStates_header b env w hi lo _ hs,
    run_header b env w hi lo _ hs, a1]
  obtain ⟨i1, i2⟩ := run_payload_states b (hi * 256 + lo)
    (fun i => env (i + (header hi lo (b.crc8 hi lo)).length))
    (step b (env 5) (headerWorld b w hi lo) (b.crc8 hi lo)) p a1 hp
    (by rw [a3, a2]; omega) (by rw [a3]; omega)
  refine ⟨?_, i2⟩
  rw [List.count_append, i1]
  simp

/-- C2 (amended): for every noise that does not contain the magic and does not end in `'A'` or
in `'A','d'`, and every well-formed frame (magic, length, matching check byte, pixel count at
most 4096, full payload), the decoder started in `HEADER_A` and fed the noise followed by the
frame enters `FINAL` exactly once, and is in `FINAL` at the end. -/
theorem C2_resync_after_noise (b : Build) (env : Nat → Env) (w : World) (noise : List Nat)
    (hi lo : Nat) (p : List Nat) (hs : w.frameState.state = .HEADER_A)
    (hmagic : ¬ [65, 100, 97] <:+: noise)
    (hA : ¬ [65] <:+ noise) (hAd : ¬ [65, 100] <:+ noise)
    (hhi : hi < 256) (hlo : lo < 256) (hn : (hi <<< 8 ||| lo) + 1 ≤ 4096)
    (hp : p.length = 3 * ((hi <<< 8 ||| lo) + 1)) :
    (runStates b env w (noise ++ (header hi lo (b.crc8 hi lo) ++ p))).count .FINAL = 1 ∧
      (run b env w (noise ++ (header hi lo (b.crc8 hi lo) ++ p))).frameState.state
        = .FINAL := by
  rw [length_field hi lo hlo] at hn hp
  obtain ⟨st, hrun, hcase, hcount⟩ := run_noise b env w hs noise hmagic
  have hst : st = .HEADER_A := by
    rcases hcase with h | ⟨_, h⟩ | ⟨_, h⟩
    · exact h
    · exact absurd h hA
    · exact absurd h hAd
  subst hst
  rw [runStates_append, run_append, hrun, List.count_append, hcount]
  have hw : setState .HEADER_A w = w := by rw [← hs]; rfl
  rw [hw]
  obtain ⟨f1, f2⟩ := frame_reaches_FINAL_once b (fun i => env (i + noise.length)) w hi lo p hs
    hhi hn hp
  exact ⟨by rw [f1], f2⟩

/-- C2 (amended) at the noise `'d','A',7` before a one-pixel frame. -/
theorem C2_witness :
    World.initial.frameState.state = .HEADER_A ∧
    ¬ [65, 100, 97] <:+: [100, 65, 7] ∧ ¬ [65] <:+ [100, 65, 7] ∧
    ¬ [65, 100] <:+ [100, 65, 7] ∧ (0 : Nat) < 256 ∧ (0 : Nat) < 256 ∧
    (0 <<< 8 ||| 0) + 1 ≤ 4096 ∧ [1, 2, 3].length = 3 * ((0 <<< 8 ||| 0) + 1) ∧
    ((runStates singleBuild idleEnv World.initial
        ([100, 65, 7] ++ (header 0 0 (singleBuild.crc8 0 0) ++ [1, 2, 3]))).count .FINAL = 1 ∧
      (run singleBuild idleEnv World.initial
        ([100, 65, 7] ++ (header 0 0 (singleBuild.crc8 0 0) ++ [1, 2, 3]))).frameState.state
        = .FINAL) :=
  ⟨rfl, by decide, by decide, by decide, by decide, by decide, by decide, by decide,
    C2_resync_after_noise singleBuild idleEnv World.initial [100, 65, 7] 0 0 [1, 2, 3] rfl
      (by decide) (by decide) (by decide) (by decide) (by decide) (by decide) (by decide)⟩

/-- C2, as stated, fails: the noise `'A'` holds no magic, yet after it the one-pixel frame is
not decoded, `FINAL` is never entered. -/
theorem C2_counterexample :
    ¬ [65, 100, 97] <:+: [65] ∧
    (runStates singleBuild idleEnv World.initial
      ([65] ++ (header 0 0 (singleBuild.crc8 0 0) ++ [1, 2, 3]))).count .FINAL = 0 := by
  decide

/-- C3: a header `'A','d','a',hi,lo,c` processed from `HEADER_A` whose check byte `c` differs
from the computed header check makes no call on `base` at all (no `setStripPixel`, no
`initLedStrip`, no `renderLeds`), leaves the strip size, the drivers and the pending-render
flag as they were, and leaves the decoder in `HEADER_A`. -/
theorem C3_bad_crc_discards (b : Build) (env : Nat → Env) (w : World) (hi lo c : Nat)
    (hs : w.frameState.state = .HEADER_A) (hhi : hi < 256) (hc : c ≠ b.crc8 hi lo) :
    (run b env w (header hi lo c)).calls = w.calls ∧
    (run b env w (header hi lo c)).ledsNumber = w.ledsNumber ∧
    (run b env w (header hi lo c)).drivers = w.drivers ∧
    (run b env w (header hi lo c)).readyToRender = w.readyToRender ∧
    (run b env w (header hi lo c)).frameState.state = .HEADER_A := by
  rw [run_header b env w hi lo c hs]
  have h1 : hi * 256 % 65536 = hi * 256 := Nat.mod_eq_of_lt (by omega)
  have h2 : hi * 256 / 256 = hi := by omega
  have h3 : ¬ (b.crc8 hi lo = c) := fun h => hc h.symm
  simp only [step, headerWorld, h1, h2, h3, if_false, setState, and_self]

/-- C3 at the header `'A','d','a',0,0,0` with the sample check `0x55`. -/
theorem C3_witness :
    World.initial.frameState.state = .HEADER_A ∧ (0 : Nat) < 256 ∧ 0 ≠ singleBuild.crc8 0 0 ∧
    (run singleBuild idleEnv World.initial (header 0 0 0)).calls = World.initial.calls ∧
    (run singleBuild idleEnv World.initial (header 0 0 0)).ledsNumber
      = World.initial.ledsNumber ∧
    (run singleBuild idleEnv World.initial (header 0 0 0)).drivers = World.initial.drivers ∧
    (run singleBuild idleEnv World.initial (header 0 0 0)).readyToRender
      = World.initial.readyToRender ∧
    (run singleBuild idleEnv World.initial (header 0 0 0)).frameState.state = .HEADER_A :=
  ⟨rfl, by decide, by decide,
    C3_bad_crc_discards singleBuild idleEnv World.initial 0 0 0 rfl (by decide) (by decide)⟩

/-- A header whose pixel count lies between 4097 and 65535 is rejected. -/
theorem oversized_rejected (b : Build) (env : Nat → Env) (w : World) (hi lo : Nat)
    (hs : w.frameState.state = .HEADER_A) (hhi : hi < 256)
    (hL : 4096 ≤ hi * 256 + lo) (hU : hi * 256 + lo < 65535) :
    (run b env w (header hi lo (b.crc8 hi lo))).calls = w.calls ∧
    (run b env w (header hi lo (b.crc8 hi lo))).drivers = w.drivers ∧
    (run b env w (header hi lo (b.crc8 hi lo))).frameState.state = .HEADER_A := by
  rw [run_header b env w hi lo _ hs]
  have h1 : hi * 256 % 65536 = hi * 256 := Nat.mod_eq_of_lt (by omega)
  have h2 : hi * 256 / 256 = hi := by omega
  have h3 : (hi * 256 + lo) % 65536 = hi * 256 + lo := Nat.mod_eq_of_lt (by omega)
  have h4 : (hi * 256 + lo + 1) % 65536 = hi * 256 + lo + 1 := Nat.mod_eq_of_lt (by omega)
  have h5 : hi * 256 + lo + 1 > 4096 := by omega
  simp only [step, headerWorld, h1, h2, h3, h4, h5, if_true, setState, and_self]

/-- C4 fails at the length field `0xFFFF`: `uint16_t ledSize = count + 1` wraps to 0, the
sanity check `ledSize > 4096` passes, `initLedStrip(0)` is called on the strip configured by
the preceding frame, and the decoder goes on to `RED` with a strip size of 0. -/
theorem C4_length_wraps_to_zero :
    (run singleBuild idleEnv World.initial wrapStream).frameState.state = .RED ∧
    (run singleBuild idleEnv World.initial wrapStream).ledsNumber = 0 ∧
    (run singleBuild idleEnv World.initial wrapStream).calls
      = [Call.initLedStrip 1, Call.setStripPixel 0 { R := 1, G := 2, B := 3, X := 0 },
         Call.renderLeds true, Call.initLedStrip 0] := by
  decide

theorem stripSetPixel_hw (k i : Nat) (c : ColorDefinition) (d : Drivers) :
    (stripSetPixel k i c d).hw = d.hw ++ [HwEvent.SetPixel k i c] := by
  unfold stripSetPixel
  by_cases hk : k = 1
  · simp only [hk, if_true]
    split
    · rfl
    · rfl
    · split <;> rfl
    · rfl
  · simp only [hk, if_false]
    split
    · rfl
    · rfl
    · split <;> rfl
    · rfl

theorem newStrip_hw (t : LedType) (n : Nat) (d : Drivers) : (newStrip t n d).2.hw = d.hw := by
  cases t <;> rfl

theorem createStrips_split_hw (b : Build) (S N : Nat) (d : Drivers)
    (hS : b.SECOND_SEGMENT_START_INDEX = some S) (hN : N > S) :
    (createStrips b N d).hw
      = d.hw ++ [HwEvent.newStrip 1 b.LED_DRIVER S, HwEvent.newStrip 2 b.LED_DRIVER2 (N - S)] := by
  have h1 : (assignStrip2 b.LED_DRIVER2 (N - S) (assignStrip1 b.LED_DRIVER S d)).ledStrip1
      = some (newStrip b.LED_DRIVER S d).1 := by
    unfold assignStrip2 assignStrip1
    cases b.LED_DRIVER2 <;> rfl
  unfold createStrips
  simp only [hS, hN, if_true, h1]
  simp [assignStrip2, assignStrip1, newStrip_hw]

/-- C5: with a split at `S` and a strip configured by `initLedStrip(N)`, `N > S`, the two
backends are created with the sizes `S` and `N - S`; for every `pix < N` the call
`setStripPixel(pix, c)` makes exactly one backend `SetPixel` of `c`, on backend 1 at `pix`
when `pix < S`, otherwise on backend 2 at `pix - S` (`N - pix - 1` when reversed); the index
is below the size of the backend addressed; and over `pix` in `[S, N)` the index on backend
2 takes every value of `[0, N - S)` exactly once. -/
theorem C5_split_routing (b : Build) (S N pix : Nat) (c : ColorDefinition) (w : World)
    (hS : b.SECOND_SEGMENT_START_INDEX = some S) (hN : N > S) (hpix : pix < N) :
    (∃ pre, (initLedStrip b N w).drivers.hw = pre ++
      [HwEvent.newStrip 1 b.LED_DRIVER S, HwEvent.newStrip 2 b.LED_DRIVER2 (N - S)]) ∧
    (setStripPixel b pix c (initLedStrip b N w)).2.drivers.hw
      = (initLedStrip b N w).drivers.hw ++
        [if pix < S then HwEvent.SetPixel 1 pix c
         else HwEvent.SetPixel 2 (secondSegmentIndex b.SECOND_SEGMENT_REVERSED S N pix) c] ∧
    (if pix < S then pix < S
     else secondSegmentIndex b.SECOND_SEGMENT_REVERSED S N pix < N - S) ∧
    (∀ j, j < N - S →
      ∃! q, S ≤ q ∧ q < N ∧ secondSegmentIndex b.SECOND_SEGMENT_REVERSED S N q = j) := by
  refine ⟨⟨_, createStrips_split_hw b S N _ hS hN⟩, ?_, ?_, ?_⟩
  · have hl : (initLedStrip b N w).ledsNumber = N := rfl
    simp only [setStripPixel, hl, hpix, if_true, routePixel, hS, secondSegmentIndex]
    by_cases h1 : pix < S
    · simp only [h1, if_true, stripSetPixel_hw]
    · cases hr : b.SECOND_SEGMENT_REVERSED <;> simp [h1, stripSetPixel_hw]
  · by_cases h1 : pix < S
    · simp only [h1, if_true]
    · simp only [h1, if_false, secondSegmentIndex]
      split <;> omega
  · intro j hj
    unfold secondSegmentIndex
    cases b.SECOND_SEGMENT_REVERSED
    · refine ⟨j + S, ⟨by omega, by omega, by simp⟩, ?_⟩
      rintro q ⟨h1, h2, h3⟩
      simp only [Bool.false_eq_true, if_false] at h3
      omega
    · refine ⟨N - 1 - j, ⟨by omega, by omega, by simp; omega⟩, ?_⟩
      rintro q ⟨h1, h2, h3⟩
      simp only [if_true] at h3
      omega

/-- C5 at a reversed split at 2 of a strip of 5 pixels, pixel 3. -/
theorem C5_witness :
    (splitBuild 2 true).SECOND_SEGMENT_START_INDEX = some 2 ∧ 5 > 2 ∧ 3 < 5 ∧
    ((∃ pre, (initLedStrip (splitBuild 2 true) 5 World.initial).drivers.hw = pre ++
      [HwEvent.newStrip 1 (splitBuild 2 true).LED_DRIVER 2,
       HwEvent.newStrip 2 (splitBuild 2 true).LED_DRIVER2 (5 - 2)]) ∧
    (setStripPixel (splitBuild 2 true) 3 ⟨1, 2, 3, 0⟩
        (initLedStrip (splitBuild 2 true) 5 World.initial)).2.drivers.hw
      = (initLedStrip (splitBuild 2 true) 5 World.initial).drivers.hw ++
        [if 3 < 2 then HwEvent.SetPixel 1 3 ⟨1, 2, 3, 0⟩
         else HwEvent.SetPixel 2
          (secondSegmentIndex (splitBuild 2 true).SECOND_SEGMENT_REVERSED 2 5 3) ⟨1, 2, 3, 0⟩] ∧
    (if 3 < 2 then 3 < 2
     else secondSegmentIndex (splitBuild 2 true).SECOND_SEGMENT_REVERSED 2 5 3 < 5 - 2) ∧
    (∀ j, j < 5 - 2 →
      ∃! q, 2 ≤ q ∧ q < 5 ∧
        secondSegmentIndex (splitBuild 2 true).SECOND_SEGMENT_REVERSED 2 5 q = j)) :=
  ⟨rfl, by decide, by decide,
    C5_split_routing (splitBuild 2 true) 2 5 3 ⟨1, 2, 3, 0⟩ World.initial rfl (by decide)
      (by decide)⟩

/-- C6: for every strip size `N` and every index `pix` (in particular `N ≤ 4096` and a 16-bit
`pix`), `setStripPixel(pix, c)` returns true exactly when `pix + 1 < N`, and touches no driver
(no backend write) when `pix ≥ N`. -/
theorem C6_more_pixels_remain (b : Build) (w : World) (pix : Nat) (c : ColorDefinition) :
    ((setStripPixel b pix c w).1 = true ↔ pix + 1 < w.ledsNumber) ∧
    (pix ≥ w.ledsNumber → (setStripPixel b pix c w).2.drivers = w.drivers) := by
  refine ⟨by simp [setStripPixel], ?_⟩
  intro h
  simp only [setStripPixel]
  rw [if_neg (by omega)]

/-- C6 at a strip of 5 pixels and the index 7. -/
theorem C6_witness :
    (((setStripPixel singleBuild 7 ⟨1, 2, 3, 0⟩ (initLedStrip singleBuild 5 World.initial)).1
        = true ↔ 7 + 1 < (initLedStrip singleBuild 5 World.initial).ledsNumber) ∧
    (7 ≥ (initLedStrip singleBuild 5 World.initial).ledsNumber →
      (setStripPixel singleBuild 7 ⟨1, 2, 3, 0⟩
        (initLedStrip singleBuild 5 World.initial)).2.drivers
        = (initLedStrip singleBuild 5 World.initial).drivers)) ∧
    7 ≥ (initLedStrip singleBuild 5 World.initial).ledsNumber :=
  ⟨C6_more_pixels_remain singleBuild (initLedStrip singleBuild 5 World.initial) 7 ⟨1, 2, 3, 0⟩,
    by decide⟩

theorem getD_set (l : List Nat) (i j a : Nat) :
    (l.set i a).getD j 0 = if i = j ∧ i < l.length then a else l.getD j 0 := by
  simp only [List.getD_eq_getElem?_getD, List.getElem?_set]
  by_cases h : i = j
  · subst h
    by_cases h2 : i < l.length
    · simp [h2]
    · simp [h2, List.getElem?_eq_none (Nat.le_of_not_lt h2)]
  · simp [h]

theorem byte_of_word (b0 b1 b2 b3 : Nat) (h0 : b0 < 256) (h1 : b1 < 256) (h2 : b2 < 256)
    (h3 : b3 < 256) (i : Nat) (hi : i < 4) :
    (b0 + b1 * 2 ^ 8 + b2 * 2 ^ 16 + b3 * 2 ^ 24) / 2 ^ (8 * i) % 256
      = if i = 0 then b0 else if i = 1 then b1 else if i = 2 then b2 else b3 := by
  interval_cases i <;> norm_num <;> omega

theorem readWord32_byte (mem : List Nat) (off i : Nat) (hi : i < 4) :
    readWord32 mem off / 2 ^ (8 * i) % 256 = mem.getD (off + i) 0 % 256 := by
  unfold readWord32
  rw [byte_of_word _ _ _ _ (Nat.mod_lt _ (by norm_num)) (Nat.mod_lt _ (by norm_num))
    (Nat.mod_lt _ (by norm_num)) (Nat.mod_lt _ (by norm_num)) i hi]
  interval_cases i <;> simp

theorem readWord32_lt (mem : List Nat) (off : Nat) : readWord32 mem off < 2 ^ 32 := by
  unfold readWord32
  have h0 := Nat.mod_lt (mem.getD off 0) (show 256 > 0 by norm_num)
  have h1 := Nat.mod_lt (mem.getD (off + 1) 0) (show 256 > 0 by norm_num)
  have h2 := Nat.mod_lt (mem.getD (off + 2) 0) (show 256 > 0 by norm_num)
  have h3 := Nat.mod_lt (mem.getD (off + 3) 0) (show 256 > 0 by norm_num)
  norm_num
  omega

theorem length_writeWord32 (mem : List Nat) (off w : Nat) :
    (writeWord32 mem off w).length = mem.length := by
  simp [writeWord32]

theorem getD_writeWord32 (mem : List Nat) (off w p : Nat) :
    (writeWord32 mem off w).getD p 0
      = if off ≤ p ∧ p < off + 4 ∧ p < mem.length then w / 2 ^ (8 * (p - off)) % 256
        else mem.getD p 0 := by
  unfold writeWord32
  simp only [getD_set, List.length_set]
  by_cases h3 : off + 3 = p
  · subst h3
    by_cases hl : off + 3 < mem.length
    · simp [hl]
    · have : ¬ (off + 3 < mem.length) := hl
      simp [hl]
  · by_cases h2 : off + 2 = p
    · subst h2
      by_cases hl : off + 2 < mem.length <;> simp [hl]
    · by_cases h1 : off + 1 = p
      · subst h1
        by_cases hl : off + 1 < mem.length <;> simp [hl]
      · by_cases h0 : off = p
        · subst h0
          by_cases hl : off < mem.length <;> simp [hl]
        · have : ¬ (off ≤ p ∧ p < off + 4 ∧ p < mem.length) := by omega
          simp [h0, h1, h2, h3, this]

theorem byte_or (x y i : Nat) (hi : i < 4) :
    ((x ||| y) % 2 ^ 32) / 2 ^ (8 * i) % 256
      = (x / 2 ^ (8 * i) % 256) ||| (y / 2 ^ (8 * i) % 256) := by
  apply Nat.eq_of_testBit_eq
  intro j
  have e : (256 : Nat) = 2 ^ 8 := by norm_num
  simp only [e, ← Nat.shiftRight_eq_div_pow, Nat.testBit_mod_two_pow, Nat.testBit_shiftRight,
    Nat.testBit_or]
  by_cases hj : j < 8
  · have : 8 * i + j < 32 := by omega
    simp [hj, this]
  · simp [hj]

theorem length_orWord32 (mem : List Nat) (off w : Nat) :
    (orWord32 mem off w).length = mem.length := by
  simp [orWord32, length_writeWord32]

theorem getD_orWord32 (mem : List Nat) (off w p : Nat) :
    (orWord32 mem off w).getD p 0
      = if off ≤ p ∧ p < off + 4 ∧ p < mem.length
        then (mem.getD p 0 % 256) ||| (w / 2 ^ (8 * (p - off)) % 256)
        else mem.getD p 0 := by
  unfold orWord32
  rw [getD_writeWord32]
  by_cases h : off ≤ p ∧ p < off + 4 ∧ p < mem.length
  · rw [if_pos h, if_pos h, byte_or _ _ _ (by omega), readWord32_byte _ _ _ (by omega)]
    congr 3
    omega
  · rw [if_neg h, if_neg h]

theorem lutMemory_getD (m n i : Nat) (hn : n < 16) (hi : i < 4) :
    (lutMemory m).getD (4 * n + i) 0 = if n.testBit i then m % 256 else 0 := by
  interval_cases n <;> interval_cases i <;> rfl

theorem lutAt_byte (m n i : Nat) (hn : n < 16) (hi : i < 4) :
    lutAt (lutMemory m) n / 2 ^ (8 * i) % 256 = if n.testBit i then m % 256 else 0 := by
  unfold lutAt
  rw [readWord32_byte _ _ _ hi, lutMemory_getD m n i hn hi]
  split
  · exact Nat.mod_mod _ _
  · rfl

theorem laneMask_eq (L : Nat) (hL : L ≤ 7) : laneMask L = 1 <<< L := by
  unfold laneMask
  interval_cases L <;> rfl

/-- C7: for a lane index `L ≤ 7`, every `n ≤ 15` and every `i ≤ 3`, byte `i` (little-endian)
of `lut[n]` as built by the constructor is `1 << L` when bit `i` of `n` is set and 0
otherwise. -/
theorem C7_lookup_table (L n i : Nat) (hL : L ≤ 7) (hn : n ≤ 15) (hi : i ≤ 3) :
    lutAt (lutMemory (laneMask L)) n / 2 ^ (8 * i) % 256
      = if n.testBit i then 1 <<< L else 0 := by
  rw [lutAt_byte _ n i (by omega) (by omega), laneMask_eq L hL]
  split
  · interval_cases L <;> rfl
  · rfl

/-- C7 at lane 2, entry 5, byte 2. -/
theorem C7_witness :
    (2 : Nat) ≤ 7 ∧ (5 : Nat) ≤ 15 ∧ (2 : Nat) ≤ 3 ∧
    lutAt (lutMemory (laneMask 2)) 5 / 2 ^ (8 * 2) % 256
      = if Nat.testBit 5 2 then 1 <<< 2 else 0 :=
  ⟨by decide, by decide, by decide, C7_lookup_table 2 5 2 (by decide) (by decide) (by decide)⟩

theorem laneBits_lt (mask : Nat) (cs : List Nat) : ∀ (target p : Nat),
    laneBits mask cs target p < 256 := by
  induction cs with
  | nil => intro _ _; simp [laneBits]
  | cons c cs ih =>
    intro target p
    have hm : mask % 256 < 256 := Nat.mod_lt _ (by norm_num)
    unfold laneBits
    split
    · split <;> omega
    · split
      · split <;> omega
      · exact ih _ _

theorem low_nibble_lt (c : Nat) : (c % 256) &&& 0b00001111 < 16 := by
  have : (0b00001111 : Nat) = 2 ^ 4 - 1 := by norm_num
  rw [this, Nat.and_pow_two_sub_one_eq_mod]
  exact Nat.mod_lt _ (by norm_num)

theorem high_nibble_lt (c : Nat) : (c % 256) >>> 4 < 16 := by
  rw [Nat.shiftRight_eq_div_pow]
  have := Nat.mod_lt c (show 256 > 0 by norm_num)
  norm_num
  omega

theorem length_setPixelLoop (lut : List Nat) (cs : List Nat) : ∀ (target : Nat) (mem : List Nat),
    (setPixelLoop lut cs target mem).length = mem.length := by
  induction cs with
  | nil => intro _ _; rfl
  | cons c cs ih =>
    intro target mem
    simp only [setPixelLoop, ih, length_orWord32]

theorem getD_setPixelLoop (mask : Nat) (cs : List Nat) : ∀ (target : Nat) (mem : List Nat)
    (p : Nat), 8 * cs.length ≤ target →
    (setPixelLoop (lutMemory mask) cs target mem).getD p 0
      = if target - 8 * cs.length ≤ p ∧ p < target ∧ p < mem.length
        then (mem.getD p 0 % 256) ||| laneBits mask cs target p
        else mem.getD p 0 := by
  induction cs with
  | nil =>
    intro target mem p _
    simp only [setPixelLoop, List.length_nil, Nat.mul_zero, Nat.sub_zero]
    rw [if_neg (by omega)]
  | cons c cs ih =>
    intro target mem p hT
    simp only [List.length_cons] at hT
    simp only [setPixelLoop, List.length_cons]
    rw [ih (target - 8) _ p (by omega)]
    simp only [length_orWord32, getD_orWord32]
    have e1 : target - 8 + 4 = target - 4 := by omega
    have e2 : target - 4 + 4 = target := by omega
    rw [e1, e2]
    by_cases hlen : p < mem.length
    · by_cases hA : target - 4 ≤ p ∧ p < target
      · have n1 : ¬ (target - 8 - 8 * cs.length ≤ p ∧ p < target - 8 ∧ p < mem.length) := by omega
        have n2 : ¬ (target - 8 ≤ p ∧ p < target - 4 ∧ p < mem.length) := by omega
        have y1 : target - 4 ≤ p ∧ p < target ∧ p < mem.length := by omega
        have y2 : target - 8 * (cs.length + 1) ≤ p ∧ p < target ∧ p < mem.length := by omega
        rw [if_neg n1, if_neg n2, if_pos y1, if_pos y2]
        simp only [laneBits]
        rw [if_pos hA, lutAt_byte _ _ _ (low_nibble_lt c) (by omega)]
      · by_cases hB : target - 8 ≤ p ∧ p < target - 4
        · have n1 : ¬ (target - 8 - 8 * cs.length ≤ p ∧ p < target - 8 ∧ p < mem.length) := by
            omega
          have y2 : target - 8 ≤ p ∧ p < target - 4 ∧ p < mem.length := by omega
          have n3 : ¬ (target - 4 ≤ p ∧ p < target ∧ p < mem.length) := by omega
          have y4 : target - 8 * (cs.length + 1) ≤ p ∧ p < target ∧ p < mem.length := by omega
          rw [if_neg n1, if_pos y2, if_neg n3, if_pos y4]
          simp only [laneBits]
          rw [if_neg hA, if_pos hB, lutAt_byte _ _ _ (high_nibble_lt c) (by omega)]
        · have n2 : ¬ (target - 8 ≤ p ∧ p < target - 4 ∧ p < mem.length) := by omega
          have n3 : ¬ (target - 4 ≤ p ∧ p < target ∧ p < mem.length) := by omega
          simp only [if_neg n2, if_neg n3, laneBits, if_neg hA, if_neg hB]
          by_cases hC : target - 8 - 8 * cs.length ≤ p ∧ p < target - 8 ∧ p < mem.length
          · rw [if_pos hC, if_pos (by omega)]
          · rw [if_neg hC, if_neg (by omega)]
    · have n1 : ¬ (target - 8 - 8 * cs.length ≤ p ∧ p < target - 8 ∧ p < mem.length) := by omega
      have n2 : ¬ (target - 8 ≤ p ∧ p < target - 4 ∧ p < mem.length) := by omega
      have n3 : ¬ (target - 4 ≤ p ∧ p < target ∧ p < mem.length) := by omega
      have n4 : ¬ (target - 8 * (cs.length + 1) ≤ p ∧ p < target ∧ p < mem.length) := by omega
      rw [if_neg n1, if_neg n2, if_neg n3, if_neg n4]

theorem testBit_low_nibble (c j : Nat) (hj : j < 4) :
    ((c % 256) &&& 0b00001111).testBit j = c.testBit j := by
  have e : (256 : Nat) = 2 ^ 8 := by norm_num
  have : (0b00001111 : Nat) = 2 ^ 4 - 1 := by norm_num
  rw [this, Nat.and_pow_two_sub_one_eq_mod, e, Nat.testBit_mod_two_pow, Nat.testBit_mod_two_pow]
  have h8 : j < 8 := by omega
  simp [hj, h8]

theorem testBit_high_nibble (c j : Nat) (hj : j < 4) :
    ((c % 256) >>> 4).testBit j = c.testBit (j + 4) := by
  have e : (256 : Nat) = 2 ^ 8 := by norm_num
  rw [Nat.testBit_shiftRight, e, Nat.testBit_mod_two_pow]
  have h8 : 4 + j < 8 := by omega
  rw [Nat.add_comm j 4]
  simp [h8]

/-- The bit `j` of colour byte `k` lands at offset `target - 8 * (k + 1) + (j + 4) % 8`. -/
theorem laneBits_at (mask : Nat) (cs : List Nat) : ∀ (target k j : Nat),
    8 * cs.length ≤ target → k < cs.length → j < 8 →
    laneBits mask cs target (target - 8 * (k + 1) + (j + 4) % 8)
      = if (cs.getD k 0).testBit j then mask % 256 else 0 := by
  induction cs with
  | nil => intro _ k _ _ hk _; simp at hk
  | cons c cs ih =>
    intro target k j hT hk hj
    simp only [List.length_cons] at hT hk
    cases k with
    | zero =>
      simp only [laneBits, Nat.zero_add, Nat.mul_one, List.getD_cons_zero]
      by_cases h4 : j < 4
      · have e : (j + 4) % 8 = j + 4 := by omega
        rw [e, if_pos (by omega)]
        have e2 : target - 8 + (j + 4) - (target - 4) = j := by omega
        rw [e2, testBit_low_nibble c j h4]
      · have e : (j + 4) % 8 = j - 4 := by omega
        rw [e, if_neg (by omega), if_pos (by omega)]
        have e2 : target - 8 + (j - 4) - (target - 8) = j - 4 := by omega
        rw [e2, testBit_high_nibble c (j - 4) (by omega)]
        have e3 : j - 4 + 4 = j := by omega
        rw [e3]
    | succ k =>
      have hq : (j + 4) % 8 < 8 := Nat.mod_lt _ (by norm_num)
      simp only [laneBits, List.getD_cons_succ]
      rw [if_neg (by omega), if_neg (by omega)]
      have := ih (target - 8) k j (by omega) (by omega) hj
      have e : target - 8 - 8 * (k + 1) + (j + 4) % 8 = target - 8 * (k + 1 + 1) + (j + 4) % 8 := by
        omega
      rw [e] at this
      exact this

theorem length_SetPixel (maxLeds : Nat) (lut buffer : List Nat) (index : Nat)
    (color : List Nat) :
    (NeopixelParallelType.SetPixel maxLeds lut buffer index color).length = buffer.length := by
  unfold NeopixelParallelType.SetPixel
  split
  · rfl
  · exact length_setPixelLoop _ _ _ _

theorem getD_SetPixel (maxLeds mask : Nat) (buffer : List Nat) (index : Nat) (color : List Nat)
    (p : Nat) :
    (NeopixelParallelType.SetPixel maxLeds (lutMemory mask) buffer index color).getD p 0
      = if index < maxLeds ∧ index * 8 * color.length ≤ p ∧ p < (index + 1) * 8 * color.length
            ∧ p < buffer.length
        then (buffer.getD p 0 % 256) ||| laneBits mask color ((index + 1) * 8 * color.length) p
        else buffer.getD p 0 := by
  have hT : (index + 1) * 8 * color.length = index * 8 * color.length + 8 * color.length := by
    ring
  unfold NeopixelParallelType.SetPixel
  by_cases h : index ≥ maxLeds
  · rw [if_pos h, if_neg (by omega)]
  · rw [if_neg h, getD_setPixelLoop mask color _ buffer p (by omega)]
    by_cases hR : index * 8 * color.length ≤ p ∧ p < (index + 1) * 8 * color.length
        ∧ p < buffer.length
    · rw [if_pos (by omega), if_pos (by omega)]
    · rw [if_neg (by omega), if_neg (by omega)]

theorem getD_replicate_zero (n p : Nat) : (List.replicate n 0).getD p 0 = 0 := by
  simp only [List.getD_eq_getElem?_getD, List.getElem?_replicate]
  split <;> rfl

theorem testBit_laneMask (L : Nat) (hL : L ≤ 7) : (laneMask L % 256).testBit L = true := by
  interval_cases L <;> rfl

/-- C8: for a lane `L ≤ 7`, a pixel size `s`, an index below `maxLeds` and any colour of `s`
bytes, `SetPixel` on the zeroed shared buffer leaves, for every colour byte `k < s` and every
bit `j ≤ 7`, bit `L` of the buffer byte at offset `(index+1)*8*s - 8*(k+1) + ((j+4) mod 8)`
equal to bit `j` of colour byte `k`. The byte `0xA5` on lane 2 gives the cells
`0,4,0,4,4,0,4,0`. -/
theorem C8_lane_bit_readback (L s maxLeds index : Nat) (color : List Nat) (k j : Nat)
    (hL : L ≤ 7) (hs : color.length = s) (hidx : index < maxLeds) (hk : k < s) (hj : j ≤ 7) :
    ((NeopixelParallelType.SetPixel maxLeds (lutMemory (laneMask L))
        (List.replicate (maxLeds * 8 * s) 0) index color).getD
        ((index + 1) * 8 * s - 8 * (k + 1) + (j + 4) % 8) 0).testBit L
      = (color.getD k 0).testBit j ∧
    NeopixelParallelType.SetPixel 1 (lutMemory (laneMask 2)) (List.replicate 8 0) 0 [0xA5]
      = [0, 4, 0, 4, 4, 0, 4, 0] := by
  refine ⟨?_, by decide⟩
  subst hs
  have hT : (index + 1) * 8 * color.length = index * 8 * color.length + 8 * color.length := by
    ring
  have hle : (index + 1) * 8 * color.length ≤ maxLeds * 8 * color.length :=
    Nat.mul_le_mul_right _ (Nat.mul_le_mul_right _ hidx)
  have hq : (j + 4) % 8 < 8 := Nat.mod_lt _ (by norm_num)
  rw [getD_SetPixel, List.length_replicate, if_pos (by omega), getD_replicate_zero,
    laneBits_at _ _ _ k j (by omega) hk (by omega)]
  split
  · rename_i h
    rw [h]
    simpa using testBit_laneMask L hL
  · rename_i h
    simp at h
    simp [h]

/-- C8 at lane 2, pixel 1 of 2, colour `A5 00 00`, byte 0, bit 5. -/
theorem C8_witness :
    (2 : Nat) ≤ 7 ∧ [0xA5, 0, 0].length = 3 ∧ 1 < 2 ∧ 0 < 3 ∧ (5 : Nat) ≤ 7 ∧
    (((NeopixelParallelType.SetPixel 2 (lutMemory (laneMask 2))
        (List.replicate (2 * 8 * 3) 0) 1 [0xA5, 0, 0]).getD
        ((1 + 1) * 8 * 3 - 8 * (0 + 1) + (5 + 4) % 8) 0).testBit 2
      = ([0xA5, 0, 0].getD 0 0).testBit 5 ∧
    NeopixelParallelType.SetPixel 1 (lutMemory (laneMask 2)) (List.replicate 8 0) 0 [0xA5]
      = [0, 4, 0, 4, 4, 0, 4, 0]) :=
  ⟨by decide, rfl, by decide, by decide, by decide,
    C8_lane_bit_readback 2 3 2 1 [0xA5, 0, 0] 0 5 (by decide) rfl (by decide) (by decide)
      (by decide)⟩

theorem ext_getD (l1 l2 : List Nat) (hl : l1.length = l2.length)
    (h : ∀ p, l1.getD p 0 = l2.getD p 0) : l1 = l2 := by
  apply List.ext_getElem hl
  intro n h1 h2
  have := h n
  simp only [List.getD_eq_getElem?_getD, List.getElem?_eq_getElem h1,
    List.getElem?_eq_getElem h2, Option.getD_some] at this
  exact this

theorem getD_lt_256 (l : List Nat) (hl : ∀ x ∈ l, x < 256) (p : Nat) : l.getD p 0 < 256 := by
  by_cases h : p < l.length
  · rw [List.getD_eq_getElem _ _ h]
    exact hl _ (List.getElem_mem h)
  · simp only [List.getD_eq_getElem?_getD, List.getElem?_eq_none (Nat.le_of_not_lt h),
      Option.getD_none]
    norm_num

theorem laneBits_cases (mask : Nat) (cs : List Nat) : ∀ (target p : Nat),
    laneBits mask cs target p = 0 ∨ laneBits mask cs target p = mask % 256 := by
  induction cs with
  | nil => intro _ _; exact Or.inl rfl
  | cons c cs ih =>
    intro target p
    unfold laneBits
    split
    · split
      · exact Or.inr rfl
      · exact Or.inl rfl
    · split
      · split
        · exact Or.inr rfl
        · exact Or.inl rfl
      · exact ih _ _

theorem testBit_laneMask_ne (L bit : Nat) (hL : L ≤ 7) (hne : bit ≠ L) :
    (laneMask L % 256).testBit bit = false := by
  rw [laneMask_eq L hL, Nat.shiftLeft_eq, Nat.one_mul]
  have e : (256 : Nat) = 2 ^ 8 := by norm_num
  rw [e, Nat.testBit_mod_two_pow, Nat.testBit_two_pow]
  simp [Ne.symm hne]

theorem or_mod_256 (a v : Nat) (hv : v < 256) : (a % 256 ||| v) % 256 = a % 256 ||| v := by
  apply Nat.mod_eq_of_lt
  have e : (256 : Nat) = 2 ^ 8 := by norm_num
  rw [e] at hv ⊢
  exact Nat.or_lt_two_pow (Nat.mod_lt _ (by norm_num)) hv

theorem SetPixel_comm (m1 m2 maxLeds : Nat) (buffer : List Nat) (i1 i2 : Nat)
    (c1 c2 : List Nat) :
    NeopixelParallelType.SetPixel maxLeds (lutMemory m2)
        (NeopixelParallelType.SetPixel maxLeds (lutMemory m1) buffer i1 c1) i2 c2
      = NeopixelParallelType.SetPixel maxLeds (lutMemory m1)
        (NeopixelParallelType.SetPixel maxLeds (lutMemory m2) buffer i2 c2) i1 c1 := by
  apply ext_getD
  · simp only [length_SetPixel]
  · intro p
    simp only [getD_SetPixel, length_SetPixel]
    have v1 := laneBits_lt m1 c1 ((i1 + 1) * 8 * c1.length) p
    have v2 := laneBits_lt m2 c2 ((i2 + 1) * 8 * c2.length) p
    by_cases h1 : i1 < maxLeds ∧ i1 * 8 * c1.length ≤ p ∧ p < (i1 + 1) * 8 * c1.length
        ∧ p < buffer.length <;>
    by_cases h2 : i2 < maxLeds ∧ i2 * 8 * c2.length ≤ p ∧ p < (i2 + 1) * 8 * c2.length
        ∧ p < buffer.length
    · rw [if_pos h2, if_pos h1, if_pos h1, if_pos h2, or_mod_256 _ _ v1, or_mod_256 _ _ v2,
        Nat.or_assoc, Nat.or_assoc, Nat.or_comm (laneBits m1 _ _ _)]
    · rw [if_neg h2, if_pos h1, if_pos h1, if_neg h2]
    · rw [if_pos h2, if_neg h1, if_neg h1, if_pos h2]
    · rw [if_neg h2, if_neg h1, if_neg h1, if_neg h2]

/-- C9: `SetPixel` of lane `L1 ≤ 7` on a buffer of bytes keeps the length of the buffer and
changes no bit other than bit `L1` of the bytes of the region `[index*8*s, (index+1)*8*s)`
of its pixel; and the `SetPixel` calls of two lanes commute, for all indices and colours
(also when the two lanes are not distinct). -/
theorem C9_lanes_independent (L1 L2 maxLeds : Nat) (buffer : List Nat) (i1 i2 : Nat)
    (c1 c2 : List Nat) (hL1 : L1 ≤ 7) (hbuf : ∀ x ∈ buffer, x < 256) :
    (NeopixelParallelType.SetPixel maxLeds (lutMemory (laneMask L1)) buffer i1 c1).length
      = buffer.length ∧
    (∀ p bit, (bit ≠ L1 ∨ p < i1 * 8 * c1.length ∨ (i1 + 1) * 8 * c1.length ≤ p) →
      ((NeopixelParallelType.SetPixel maxLeds (lutMemory (laneMask L1)) buffer i1 c1).getD
          p 0).testBit bit = (buffer.getD p 0).testBit bit) ∧
    NeopixelParallelType.SetPixel maxLeds (lutMemory (laneMask L2))
        (NeopixelParallelType.SetPixel maxLeds (lutMemory (laneMask L1)) buffer i1 c1) i2 c2
      = NeopixelParallelType.SetPixel maxLeds (lutMemory (laneMask L1))
        (NeopixelParallelType.SetPixel maxLeds (lutMemory (laneMask L2)) buffer i2 c2) i1 c1 := by
  refine ⟨length_SetPixel _ _ _ _ _, ?_, SetPixel_comm _ _ _ _ _ _ _ _⟩
  intro p bit hcase
  rw [getD_SetPixel]
  split
  · rename_i hin
    rw [Nat.mod_eq_of_lt (getD_lt_256 buffer hbuf p), Nat.testBit_or]
    have hb : bit ≠ L1 := by
      rcases hcase with h | h | h
      · exact h
      · omega
      · omega
    rcases laneBits_cases (laneMask L1) c1 ((i1 + 1) * 8 * c1.length) p with h | h
    · rw [h]; simp
    · rw [h, testBit_laneMask_ne L1 bit hL1 hb]; simp
  · rfl

/-- C9 at lanes 0 and 3 on a buffer of two `ColorGrb` pixels. -/
theorem C9_witness :
    (0 : Nat) ≤ 7 ∧ (∀ x ∈ List.replicate 48 0, x < 256) ∧
    ((NeopixelParallelType.SetPixel 2 (lutMemory (laneMask 0)) (List.replicate 48 0) 1
        [1, 2, 3]).length = (List.replicate 48 0).length ∧
    (∀ p bit, (bit ≠ 0 ∨ p < 1 * 8 * [1, 2, 3].length ∨ (1 + 1) * 8 * [1, 2, 3].length ≤ p) →
      ((NeopixelParallelType.SetPixel 2 (lutMemory (laneMask 0)) (List.replicate 48 0) 1
          [1, 2, 3]).getD p 0).testBit bit = ((List.replicate 48 0).getD p 0).testBit bit) ∧
    NeopixelParallelType.SetPixel 2 (lutMemory (laneMask 3))
        (NeopixelParallelType.SetPixel 2 (lutMemory (laneMask 0)) (List.replicate 48 0) 1
          [1, 2, 3]) 0 [4, 5, 6]
      = NeopixelParallelType.SetPixel 2 (lutMemory (laneMask 0))
        (NeopixelParallelType.SetPixel 2 (lutMemory (laneMask 3)) (List.replicate 48 0) 0
          [4, 5, 6]) 1 [1, 2, 3]) :=
  ⟨by decide, by decide,
    C9_lanes_independent 0 3 2 (List.replicate 48 0) 1 0 [1, 2, 3] [4, 5, 6] (by decide)
      (by decide)⟩

set_option maxRecDepth 100000 in
/-- C10 fails for the parallel-lane drivers: three one-pixel frames, the first transmitted at
once, the other two decoded while that transfer keeps the backend busy. When the backend is
ready one further transfer is started; in the split build its data is the bytewise OR of the
second and the third frame (`SetPixel` only ORs, the buffer is cleared only when a transfer
starts), not the third frame; in the single-lane build it is the third frame. -/
theorem C10_parallel_frames_merge :
    dmaStarts (processData (splitBuild 4 false) 1 readyEnv
      (run (splitBuild 4 false) idleEnv World.initial coalesceStream)).drivers.hw
      = [laneImage [3, 1, 2], laneImage [255, 255, 0]] ∧
    laneImage [255, 255, 0] ≠ laneImage [255, 0, 0] ∧
    dmaStarts (processData singleBuild 1 readyEnv
      (run singleBuild idleEnv World.initial coalesceStream)).drivers.hw
      = [[0, 3, 1, 2], [0, 255, 0, 0]] := by
  decide

theorem renderWait_spec (resetTime lastRenderTime currentTime : Nat)
    (h64 : resetTime + lastRenderTime < 2 ^ 64) (hle : lastRenderTime ≤ currentTime) :
    currentTime + renderWait resetTime lastRenderTime currentTime ≥ lastRenderTime + resetTime ∧
    renderWait resetTime lastRenderTime currentTime ≤ resetTime ∧
    (lastRenderTime + resetTime ≤ currentTime →
      renderWait resetTime lastRenderTime currentTime = 0) := by
  unfold renderWait
  rw [Nat.mod_eq_of_lt h64]
  by_cases h : currentTime < resetTime + lastRenderTime
  · have h2 : resetTime + lastRenderTime - currentTime < 2 ^ 64 := by omega
    rw [if_pos h, Nat.mod_eq_of_lt h2]
    refine ⟨?_, Nat.min_le_right _ _, by omega⟩
    rw [Nat.min_eq_left (by omega)]
    omega
  · rw [if_neg h]
    omega

/-- C11: when `renderDma` starts a transfer (the channel is not busy), with
`resetTime + lastRenderTime` inside 64 bits and `lastRenderTime ≤ currentTime`, the only
operations are a wait `w` (skipped when `w = 0`) followed by the start of the transfer, and
`currentTime + w ≥ lastRenderTime + resetTime`, `w ≤ resetTime`, `w = 0` when the interval
has elapsed. -/
theorem C11_reset_time_guard (env : Env) (resetTime : Nat) (resetBuffer : Bool)
    (m : LedDriver) (d : Drivers) (hidle : d.isDmaBusy = false)
    (h64 : resetTime + d.lastRenderTime < 2 ^ 64) (hle : d.lastRenderTime ≤ env.time_us_64) :
    (renderDma env resetTime resetBuffer m d).2.hw
      = d.hw ++ (if renderWait resetTime d.lastRenderTime env.time_us_64 = 0 then []
          else [HwEvent.busyWait (renderWait resetTime d.lastRenderTime env.time_us_64)])
        ++ [HwEvent.dmaStart (memcpy m.dma m.buffer m.dmaSize)] ∧
    env.time_us_64 + renderWait resetTime d.lastRenderTime env.time_us_64
      ≥ d.lastRenderTime + resetTime ∧
    renderWait resetTime d.lastRenderTime env.time_us_64 ≤ resetTime ∧
    (d.lastRenderTime + resetTime ≤ env.time_us_64 →
      renderWait resetTime d.lastRenderTime env.time_us_64 = 0) := by
  refine ⟨?_, renderWait_spec resetTime d.lastRenderTime env.time_us_64 h64 hle⟩
  simp [renderDma, hidle]

/-- C11 at a `ws2812` driver of one pixel, 100 us after the previous transfer ended. -/
theorem C11_witness :
    Drivers.initial.isDmaBusy = false ∧
    650 + Drivers.initial.lastRenderTime < 2 ^ 64 ∧
    Drivers.initial.lastRenderTime ≤ (Env.mk 100 none).time_us_64 ∧
    ((renderDma (Env.mk 100 none) 650 false (LedDriver.new 1 4) Drivers.initial).2.hw
      = Drivers.initial.hw
        ++ (if renderWait 650 Drivers.initial.lastRenderTime (Env.mk 100 none).time_us_64 = 0
            then []
            else [HwEvent.busyWait
              (renderWait 650 Drivers.initial.lastRenderTime (Env.mk 100 none).time_us_64)])
        ++ [HwEvent.dmaStart (memcpy (LedDriver.new 1 4).dma (LedDriver.new 1 4).buffer
              (LedDriver.new 1 4).dmaSize)] ∧
    (Env.mk 100 none).time_us_64
        + renderWait 650 Drivers.initial.lastRenderTime (Env.mk 100 none).time_us_64
      ≥ Drivers.initial.lastRenderTime + 650 ∧
    renderWait 650 Drivers.initial.lastRenderTime (Env.mk 100 none).time_us_64 ≤ 650 ∧
    (Drivers.initial.lastRenderTime + 650 ≤ (Env.mk 100 none).time_us_64 →
      renderWait 650 Drivers.initial.lastRenderTime (Env.mk 100 none).time_us_64 = 0)) :=
  ⟨rfl, by decide, by decide,
    C11_reset_time_guard (Env.mk 100 none) 650 false (LedDriver.new 1 4) Drivers.initial rfl
      (by decide) (by decide)⟩

theorem dmaStarts_append (xs ys : List HwEvent) :
    dmaStarts (xs ++ ys) = dmaStarts xs ++ dmaStarts ys := by
  induction xs with
  | nil => rfl
  | cons x xs ih => cases x <;> simp [dmaStarts, ih]

theorem dmaStarts_busyWaits (k us : Nat) :
    dmaStarts (List.replicate k (HwEvent.busyWait us)) = [] := by
  induction k with
  | zero => rfl
  | succ k ih => simp [List.replicate_succ, dmaStarts, ih]

/-- A transfer started by `renderDma` on an idle channel adds exactly one entry. -/
theorem renderDma_dmaStarts (env : Env) (resetTime : Nat) (resetBuffer : Bool)
    (m : LedDriver) (d : Drivers) (hidle : d.isDmaBusy = false) :
    dmaStarts (renderDma env resetTime resetBuffer m d).2.hw
      = dmaStarts d.hw ++ [memcpy m.dma m.buffer m.dmaSize] := by
  simp only [renderDma, hidle, Bool.false_eq_true, if_false, dmaStarts_append]
  split <;> simp [dmaStarts]

theorem isReadyBlocking_strips (env : Env) (d : Drivers) :
    (isReadyBlocking env d).2.ledStrip1 = d.ledStrip1 ∧
    (isReadyBlocking env d).2.muxer = d.muxer ∧
    (isReadyBlocking env d).2.isDmaBusy = !(isReadyBlocking env d).1 ∧
    dmaStarts (isReadyBlocking env d).2.hw = dmaStarts d.hw := by
  simp [isReadyBlocking, dmaStarts_append, dmaStarts_busyWaits]

/-- The display call on configured drivers with an idle channel starts one transfer. -/
theorem displaySegments_dmaStarts (b : Build) (env : Env) (d : Drivers)
    (hc : configured b d = true) (hidle : d.isDmaBusy = false) :
    ∃ data, dmaStarts (displaySegments b env d).hw = dmaStarts d.hw ++ [data] := by
  unfold configured at hc
  unfold displaySegments
  split at hc
  · rename_i hS h1 hm
    simp only [hS, renderAllLanes, h1, hm]
    exact ⟨_, renderDma_dmaStarts _ _ _ _ _ hidle⟩
  · rename_i hS h1
    simp only [hS, renderSingleLane, h1]
    exact ⟨_, renderDma_dmaStarts _ _ _ _ _ hidle⟩
  · rename_i hS h1
    simp only [hS, renderSingleLane, h1]
    exact ⟨_, renderDma_dmaStarts _ _ _ _ _ hidle⟩
  · simp at hc

theorem configured_ledStrip1 (b : Build) (d : Drivers) (hc : configured b d = true) :
    (d.ledStrip1 != none) = true := by
  unfold configured at hc
  split at hc <;> simp_all

theorem configured_isReadyBlocking (b : Build) (env : Env) (d : Drivers)
    (hc : configured b d = true) : configured b (isReadyBlocking env d).2 = true := by
  unfold configured at hc ⊢
  rw [(isReadyBlocking_strips env d).1, (isReadyBlocking_strips env d).2.1]
  exact hc

/-- C12: for configured drivers and every call `renderLeds(newFrame)`, with `pending` the
flag before the call OR `newFrame`: if `pending` holds and the readiness poll succeeds,
exactly one transfer is started, the show counter goes up by one and the flag is false
afterwards; if `pending` holds and the poll fails, no transfer is started, the counters are
unchanged and the flag is true afterwards; if `pending` does not hold, drivers and counters
are unchanged and the flag stays false. `dropLateFrame` leaves the flag false. -/
theorem C12_render_deferral (b : Build) (env : Env) (newFrame : Bool) (w : World)
    (hc : configured b w.drivers = true) :
    ((w.readyToRender || newFrame) = true → (isReadyBlocking env w.drivers).1 = true →
      (∃ data, dmaStarts (renderLeds b env newFrame w).drivers.hw
          = dmaStarts w.drivers.hw ++ [data]) ∧
      (renderLeds b env newFrame w).statistics.showFrames = w.statistics.showFrames + 1 ∧
      (renderLeds b env newFrame w).readyToRender = false) ∧
    ((w.readyToRender || newFrame) = true → (isReadyBlocking env w.drivers).1 = false →
      dmaStarts (renderLeds b env newFrame w).drivers.hw = dmaStarts w.drivers.hw ∧
      (renderLeds b env newFrame w).statistics = w.statistics ∧
      (renderLeds b env newFrame w).readyToRender = true) ∧
    ((w.readyToRender || newFrame) = false →
      (renderLeds b env newFrame w).drivers = w.drivers ∧
      (renderLeds b env newFrame w).statistics = w.statistics ∧
      (renderLeds b env newFrame w).readyToRender = false) ∧
    (dropLateFrame w).readyToRender = false := by
  have h1 := configured_ledStrip1 b w.drivers hc
  have hs := isReadyBlocking_strips env w.drivers
  refine ⟨?_, ?_, ?_, rfl⟩
  · intro hp hr
    have hidle : (isReadyBlocking env w.drivers).2.isDmaBusy = false := by
      rw [hs.2.2.1, hr]; rfl
    obtain ⟨data, hd⟩ := displaySegments_dmaStarts b env _
      (configured_isReadyBlocking b env w.drivers hc) hidle
    cases newFrame
    · simp only [Bool.or_false] at hp
      simp only [renderLeds, Bool.false_eq_true, if_false, hp, h1, Bool.and_self, if_true, hr]
      exact ⟨⟨data, by rw [hd, hs.2.2.2]⟩, by trivial, by trivial⟩
    · simp only [renderLeds, if_true, h1, Bool.and_self, hr]
      exact ⟨⟨data, by rw [hd, hs.2.2.2]⟩, by trivial, by trivial⟩
  · intro hp hr
    cases newFrame
    · simp only [Bool.or_false] at hp
      simp only [renderLeds, Bool.false_eq_true, if_false, hp, h1, Bool.and_self, if_true, hr]
      exact ⟨hs.2.2.2, by trivial, by trivial⟩
    · simp only [renderLeds, if_true, h1, Bool.and_self, hr, Bool.false_eq_true, if_false]
      exact ⟨hs.2.2.2, by trivial, by trivial⟩
  · intro hp
    simp only [Bool.or_eq_false_iff] at hp
    obtain ⟨hp1, hp2⟩ := hp
    subst hp2
    simp only [renderLeds, Bool.false_eq_true, if_false, hp1, Bool.false_and]
    exact ⟨by trivial, by trivial, by trivial⟩

/-- C12 at a strip of one `ws2812` pixel with nothing pending and a new frame. -/
theorem C12_witness :
    configured singleBuild sampleWorld.drivers = true ∧
    (((sampleWorld.readyToRender || true) = true →
      (isReadyBlocking (idleEnv 0) sampleWorld.drivers).1 = true →
      (∃ data, dmaStarts (renderLeds singleBuild (idleEnv 0) true sampleWorld).drivers.hw
          = dmaStarts sampleWorld.drivers.hw ++ [data]) ∧
      (renderLeds singleBuild (idleEnv 0) true sampleWorld).statistics.showFrames
        = sampleWorld.statistics.showFrames + 1 ∧
      (renderLeds singleBuild (idleEnv 0) true sampleWorld).readyToRender = false) ∧
    ((sampleWorld.readyToRender || true) = true →
      (isReadyBlocking (idleEnv 0) sampleWorld.drivers).1 = false →
      dmaStarts (renderLeds singleBuild (idleEnv 0) true sampleWorld).drivers.hw
        = dmaStarts sampleWorld.drivers.hw ∧
      (renderLeds singleBuild (idleEnv 0) true sampleWorld).statistics = sampleWorld.statistics ∧
      (renderLeds singleBuild (idleEnv 0) true sampleWorld).readyToRender = true) ∧
    ((sampleWorld.readyToRender || true) = false →
      (renderLeds singleBuild (idleEnv 0) true sampleWorld).drivers = sampleWorld.drivers ∧
      (renderLeds singleBuild (idleEnv 0) true sampleWorld).statistics = sampleWorld.statistics ∧
      (renderLeds singleBuild (idleEnv 0) true sampleWorld).readyToRender = false) ∧
    (dropLateFrame sampleWorld).readyToRender = false) :=
  ⟨by decide, C12_render_deferral singleBuild (idleEnv 0) true sampleWorld (by decide)⟩

theorem deleteStrip_ledStrip1 (s : Strip) (d : Drivers) :
    (deleteStrip s d).ledStrip1 = d.ledStrip1 := by
  unfold deleteStrip
  cases s
  · rfl
  · rfl
  · simp only
    split <;> split <;> rfl

theorem deleteStrips_ledStrip1 (d : Drivers) :
    (deleteStrip2 (deleteStrip1 d)).ledStrip1 = none := by
  have h1 : (deleteStrip1 d).ledStrip1 = none := by
    unfold deleteStrip1
    split
    · rfl
    · assumption
  unfold deleteStrip2
  split
  · simp only [deleteStrip_ledStrip1, h1]
  · exact h1

/-- Every state produced by `initLedStrip` is configured, when the build compiles: parallel
classes under `SECOND_SEGMENT_START_INDEX`, a single-lane class otherwise. -/
theorem initLedStrip_configured (b : Build) (count : Nat) (w : World)
    (hb : b.LED_DRIVER.isParallel = b.SECOND_SEGMENT_START_INDEX.isSome) :
    configured b (initLedStrip b count w).drivers = true := by
  have h0 := deleteStrips_ledStrip1 w.drivers
  show configured b (createStrips b count (deleteStrip2 (deleteStrip1 w.drivers))) = true
  generalize deleteStrip2 (deleteStrip1 w.drivers) = d0 at h0 ⊢
  unfold createStrips configured
  cases hS : b.SECOND_SEGMENT_START_INDEX with
  | none =>
    simp only [hS, Option.isSome_none] at hb
    simp only [h0]
    cases ht : b.LED_DRIVER <;> simp [ht, LedType.isParallel] at hb <;>
      simp [assignStrip1, newStrip]
  | some start =>
    simp only [hS, Option.isSome_some] at hb
    by_cases hgt : count > start
    · simp only [hgt, if_true]
      cases ht : b.LED_DRIVER <;> simp [ht, LedType.isParallel] at hb <;>
        cases ht2 : b.LED_DRIVER2 <;> simp [assignStrip1, assignStrip2, newStrip]
    · simp only [hgt, if_false, h0]
      cases ht : b.LED_DRIVER <;> simp [ht, LedType.isParallel] at hb <;>
        simp [assignStrip1, newStrip]

/-- C13 (amended): the queue capacity `MAX_BUFFER` is strictly greater than the byte length
`6 + 3 * n + 2` of a frame of `n` pixels exactly when `n ≤ 3010`. -/
theorem C13_queue_capacity (n : Nat) : wireLength n < MAX_BUFFER ↔ n ≤ 3010 := by
  unfold wireLength MAX_BUFFER
  omega

/-- C13, as stated, fails: the header for 4096 pixels passes the sanity check (the decoder
goes on to `RED` with a strip of 4096 pixels), and the frame of 4096 pixels has 12296 bytes,
more than `MAX_BUFFER = 9040`. -/
theorem C13_counterexample :
    (run singleBuild idleEnv World.initial
      (header 15 255 (singleBuild.crc8 15 255))).frameState.state = .RED ∧
    (run singleBuild idleEnv World.initial
      (header 15 255 (singleBuild.crc8 15 255))).ledsNumber = 4096 ∧
    wireLength 4096 = 12296 ∧ MAX_BUFFER = 9040 ∧ ¬ (wireLength 4096 < MAX_BUFFER) := by
  rw [run_header singleBuild idleEnv World.initial 15 255 _ rfl]
  have h := after_header singleBuild (idleEnv 5) World.initial 15 255 (by decide) (by decide)
  exact ⟨h.1, h.2.2, by decide, by decide, by decide⟩

theorem renderLeds_queue (b : Build) (env : Env) (nf : Bool) (w : World) (q : Nat) :
    renderLeds b env nf { w with queueCurrent := q }
      = { renderLeds b env nf w with queueCurrent := q } := by
  unfold renderLeds
  cases nf <;> simp only [Bool.false_eq_true, if_false, if_true] <;>
    split <;> (try split) <;> rfl

theorem step_queue (b : Build) (env : Env) (w : World) (x q : Nat) :
    step b env { w with queueCurrent := q } x = { step b env w x with queueCurrent := q } := by
  unfold step
  cases h : w.frameState.state <;> simp only [h]
  case HEADER_A => split <;> rfl
  case HEADER_d => split <;> rfl
  case HEADER_a => split <;> rfl
  case HEADER_HI => rfl
  case HEADER_LO => rfl
  case HEADER_CRC =>
    split
    · split
      · rfl
      · by_cases hc : (w.frameState.count + 1) % 65536 = w.ledsNumber
        · simp only [getLedsNumber, hc, ne_eq, not_true_eq_false, if_false]
          rfl
        · simp only [getLedsNumber, hc, ne_eq, not_false_eq_true, if_true]
          rfl
    · rfl
  case RED => rfl
  case GREEN => rfl
  case BLUE =>
    simp only [setStripPixel]
    split <;> rfl
  case FINAL =>
    exact congrArg (setState .HEADER_A) (renderLeds_queue b env true
      { w with statistics := { w.statistics with goodFrames := w.statistics.goodFrames + 1 } } q)

theorem renderLeds_queue_fields (b : Build) (env : Env) (nf : Bool) (w : World) :
    (renderLeds b env nf w).buffer = w.buffer ∧
    (renderLeds b env nf w).queueEnd = w.queueEnd ∧
    (renderLeds b env nf w).queueCurrent = w.queueCurrent := by
  unfold renderLeds
  cases nf <;> simp only [Bool.false_eq_true, if_false, if_true] <;>
    split <;> (try split) <;> exact ⟨rfl, rfl, rfl⟩

theorem step_queue_fields (b : Build) (env : Env) (w : World) (x : Nat) :
    (step b env w x).buffer = w.buffer ∧
    (step b env w x).queueEnd = w.queueEnd ∧
    (step b env w x).queueCurrent = w.queueCurrent := by
  unfold step
  cases h : w.frameState.state <;> simp only [h]
  case HEADER_A => split <;> exact ⟨rfl, rfl, rfl⟩
  case HEADER_d => split <;> exact ⟨rfl, rfl, rfl⟩
  case HEADER_a => split <;> exact ⟨rfl, rfl, rfl⟩
  case HEADER_HI => exact ⟨rfl, rfl, rfl⟩
  case HEADER_LO => exact ⟨rfl, rfl, rfl⟩
  case HEADER_CRC =>
    split
    · split
      · exact ⟨rfl, rfl, rfl⟩
      · split <;> exact ⟨rfl, rfl, rfl⟩
    · exact ⟨rfl, rfl, rfl⟩
  case RED => exact ⟨rfl, rfl, rfl⟩
  case GREEN => exact ⟨rfl, rfl, rfl⟩
  case BLUE => split <;> exact ⟨rfl, rfl, rfl⟩
  case FINAL =>
    exact renderLeds_queue_fields b env true
      { w with statistics := { w.statistics with goodFrames := w.statistics.goodFrames + 1 } }

theorem run_queue (b : Build) (xs : List Nat) : ∀ (env : Nat → Env) (w : World) (q : Nat),
    run b env { w with queueCurrent := q } xs = { run b env w xs with queueCurrent := q } := by
  induction xs with
  | nil => intro _ _ _; rfl
  | cons x xs ih =>
    intro env w q
    show run b _ (step b (env 0) { w with queueCurrent := q } x) xs = _
    rw [step_queue, ih]
    rfl

theorem processLoop_stop (b : Build) (fuel : Nat) (env : Nat → Env) (w : World)
    (h : w.queueCurrent = w.queueEnd) : processLoop b (fuel + 1) env w = w := by
  unfold processLoop
  rw [if_neg (not_not.mpr h)]

theorem processLoop_next (b : Build) (fuel : Nat) (env : Nat → Env) (w : World)
    (h : w.queueCurrent ≠ w.queueEnd) :
    processLoop b (fuel + 1) env w
      = processLoop b fuel (fun i => env (i + 1))
          (step b (env 0) { w with queueCurrent := nextCursor w.queueCurrent }
            (w.buffer.getD w.queueCurrent 0)) := by
  rw [processLoop, if_pos h]
  rfl

theorem drain_stop (fuel qc qe : Nat) (h : qc = qe) :
    drainIndices (fuel + 1) qc qe = [] ∧ drainCursor (fuel + 1) qc qe = qc := by
  unfold drainIndices drainCursor
  rw [if_neg (not_not.mpr h), if_neg (not_not.mpr h)]
  exact ⟨rfl, rfl⟩

theorem drain_next (fuel qc qe : Nat) (h : qc ≠ qe) :
    drainIndices (fuel + 1) qc qe = qc :: drainIndices fuel (nextCursor qc) qe ∧
    drainCursor (fuel + 1) qc qe = drainCursor fuel (nextCursor qc) qe := by
  constructor
  · rw [drainIndices, if_pos h]; rfl
  · rw [drainCursor, if_pos h]; rfl

/-- The loop of `processData` feeds the decoder the bytes of `base.buffer` at the indices
`drainIndices`, in order, and leaves the cursor at `drainCursor`. -/
theorem processLoop_eq (b : Build) : ∀ (fuel : Nat) (env : Nat → Env) (w : World),
    processLoop b fuel env w
      = { run b env w ((drainIndices fuel w.queueCurrent w.queueEnd).map
            (fun i => w.buffer.getD i 0))
          with queueCurrent := drainCursor fuel w.queueCurrent w.queueEnd } := by
  intro fuel
  induction fuel with
  | zero => intro env w; rfl
  | succ fuel ih =>
    intro env w
    by_cases h : w.queueCurrent = w.queueEnd
    · rw [processLoop_stop b fuel env w h, (drain_stop fuel _ _ h).1, (drain_stop fuel _ _ h).2]
      rfl
    · rw [processLoop_next b fuel env w h, step_queue, ih, (drain_next fuel _ _ h).1,
        (drain_next fuel _ _ h).2]
      have hf := step_queue_fields b (env 0) w (w.buffer.getD w.queueCurrent 0)
      show ({ run b (fun i => env (i + 1))
          { step b (env 0) w (w.buffer.getD w.queueCurrent 0) with
            queueCurrent := nextCursor w.queueCurrent }
          (List.map (fun i => (step b (env 0) w (w.buffer.getD w.queueCurrent 0)).buffer.getD i 0)
            (drainIndices fuel (nextCursor w.queueCurrent)
              (step b (env 0) w (w.buffer.getD w.queueCurrent 0)).queueEnd)) with
          queueCurrent := drainCursor fuel (nextCursor w.queueCurrent)
            (step b (env 0) w (w.buffer.getD w.queueCurrent 0)).queueEnd } : World) = _
      rw [hf.1, hf.2.1, run_queue]
      rfl

theorem MAX_BUFFER_eq : MAX_BUFFER = 9040 := rfl

theorem nextCursor_eq (qc : Nat) (h : qc < MAX_BUFFER) :
    nextCursor qc = (qc + 1) % MAX_BUFFER ∧ nextCursor qc < MAX_BUFFER := by
  unfold nextCursor
  rw [MAX_BUFFER_eq] at h ⊢
  split <;> omega

theorem drain_closed : ∀ (fuel qc qe : Nat), qc < MAX_BUFFER → qe < MAX_BUFFER →
    (qe + MAX_BUFFER - qc) % MAX_BUFFER ≤ fuel →
    drainIndices fuel qc qe
      = (List.range ((qe + MAX_BUFFER - qc) % MAX_BUFFER)).map (fun i => (qc + i) % MAX_BUFFER) ∧
    drainCursor fuel qc qe = qe := by
  intro fuel
  induction fuel with
  | zero =>
    intro qc qe hqc hqe hd
    rw [MAX_BUFFER_eq] at hqc hqe hd
    have h0 : (qe + MAX_BUFFER - qc) % MAX_BUFFER = 0 := by rw [MAX_BUFFER_eq]; omega
    rw [h0]
    refine ⟨rfl, ?_⟩
    show qc = qe
    rw [MAX_BUFFER_eq] at h0
    omega
  | succ fuel ih =>
    intro qc qe hqc hqe hd
    by_cases h : qc = qe
    · rw [(drain_stop fuel qc qe h).1, (drain_stop fuel qc qe h).2]
      have h0 : (qe + MAX_BUFFER - qc) % MAX_BUFFER = 0 := by
        rw [MAX_BUFFER_eq] at hqc ⊢; omega
      rw [h0]
      exact ⟨rfl, h⟩
    · obtain ⟨n1, n2⟩ := nextCursor_eq qc hqc
      have hdist : (qe + MAX_BUFFER - qc) % MAX_BUFFER
          = (qe + MAX_BUFFER - nextCursor qc) % MAX_BUFFER + 1 := by
        rw [n1]
        rw [MAX_BUFFER_eq] at hqc hqe ⊢
        omega
      obtain ⟨i1, i2⟩ := ih (nextCursor qc) qe n2 hqe (by omega)
      rw [(drain_next fuel qc qe h).1, (drain_next fuel qc qe h).2, i1, i2, hdist,
        List.range_succ_eq_map, List.map_cons, List.map_map]
      refine ⟨?_, rfl⟩
      congr 1
      · rw [MAX_BUFFER_eq] at hqc ⊢; omega
      · apply List.map_congr_left
        intro i _
        simp only [Function.comp, Nat.succ_eq_add_one]
        rw [n1]
        rw [MAX_BUFFER_eq]
        omega

theorem run_queue_fields (b : Build) (xs : List Nat) : ∀ (env : Nat → Env) (w : World),
    (run b env w xs).buffer = w.buffer ∧ (run b env w xs).queueEnd = w.queueEnd := by
  induction xs with
  | nil => intro _ _; exact ⟨rfl, rfl⟩
  | cons x xs ih =>
    intro env w
    rw [run_cons]
    obtain ⟨i1, i2⟩ := ih (fun i => env (i + 1)) (step b (env 0) w x)
    have hf := step_queue_fields b (env 0) w x
    exact ⟨i1.trans hf.1, i2.trans hf.2.1⟩

theorem lateRender_queue_fields (b : Build) (env : Env) (w : World) :
    (lateRender b env w).buffer = w.buffer ∧
    (lateRender b env w).queueEnd = w.queueEnd ∧
    (lateRender b env w).queueCurrent = w.queueCurrent := by
  unfold lateRender
  split
  · exact renderLeds_queue_fields b env false w
  · exact ⟨rfl, rfl, rfl⟩

/-- C14: with both cursors below `MAX_BUFFER` and at least `MAX_BUFFER` iterations allowed,
`processData` (after the late render) reads `base.buffer` exactly at the indices
`queueCurrent, (queueCurrent + 1) mod MAX_BUFFER, ...` up to but excluding `queueEnd`, which
are pairwise distinct and all below `MAX_BUFFER`, feeds the decoder the bytes read, in that
order, and ends with `queueCurrent = queueEnd`; the result does not depend on the number of
iterations allowed. -/
theorem C14_queue_drain (b : Build) (fuel : Nat) (env : Nat → Env) (w : World)
    (hqc : w.queueCurrent < MAX_BUFFER) (hqe : w.queueEnd < MAX_BUFFER)
    (hfuel : MAX_BUFFER ≤ fuel) :
    drainIndices fuel w.queueCurrent w.queueEnd
      = (List.range ((w.queueEnd + MAX_BUFFER - w.queueCurrent) % MAX_BUFFER)).map
          (fun i => (w.queueCurrent + i) % MAX_BUFFER) ∧
    (drainIndices fuel w.queueCurrent w.queueEnd).Nodup ∧
    (∀ i ∈ drainIndices fuel w.queueCurrent w.queueEnd, i < MAX_BUFFER) ∧
    processData b fuel env w
      = { run b (fun i => env (i + 1)) (lateRender b (env 0) w)
            ((drainIndices fuel w.queueCurrent w.queueEnd).map (fun i => w.buffer.getD i 0))
          with queueCurrent := w.queueEnd } ∧
    (processData b fuel env w).queueCurrent = (processData b fuel env w).queueEnd := by
  have hd : (w.queueEnd + MAX_BUFFER - w.queueCurrent) % MAX_BUFFER ≤ fuel :=
    Nat.le_trans (Nat.le_of_lt (Nat.mod_lt _ (by rw [MAX_BUFFER_eq]; norm_num))) hfuel
  obtain ⟨c1, c2⟩ := drain_closed fuel w.queueCurrent w.queueEnd hqc hqe hd
  have hl := lateRender_queue_fields b (env 0) w
  have hpd : processData b fuel env w
      = { run b (fun i => env (i + 1)) (lateRender b (env 0) w)
            ((drainIndices fuel w.queueCurrent w.queueEnd).map (fun i => w.buffer.getD i 0))
          with queueCurrent := w.queueEnd } := by
    show processLoop b fuel (fun i => env (i + 1)) (lateRender b (env 0) w) = _
    rw [processLoop_eq, hl.1, hl.2.1, hl.2.2, c2]
  refine ⟨c1, ?_, ?_, hpd, ?_⟩
  · rw [c1]
    apply List.Nodup.map_on _ (List.nodup_range _)
    intro x hx y hy hxy
    rw [List.mem_range] at hx hy
    have hx' := Nat.lt_of_lt_of_le hx (Nat.le_of_lt (Nat.mod_lt _ (by rw [MAX_BUFFER_eq]; norm_num)))
    have hy' := Nat.lt_of_lt_of_le hy (Nat.le_of_lt (Nat.mod_lt _ (by rw [MAX_BUFFER_eq]; norm_num)))
    rw [MAX_BUFFER_eq] at hqc hxy hx' hy'
    omega
  · rw [c1]
    intro i hi
    rw [List.mem_map] at hi
    obtain ⟨k, _, rfl⟩ := hi
    exact Nat.mod_lt _ (by rw [MAX_BUFFER_eq]; norm_num)
  · rw [hpd]
    show w.queueEnd = (run b (fun i => env (i + 1)) (lateRender b (env 0) w) _).queueEnd
    rw [(run_queue_fields b _ _ _).2, hl.2.1]

/-- C14 at a queue that holds four bytes across the wrap. -/
theorem C14_witness :
    wrapQueueWorld.queueCurrent < MAX_BUFFER ∧ wrapQueueWorld.queueEnd < MAX_BUFFER ∧
    MAX_BUFFER ≤ 9040 ∧
    (drainIndices 9040 wrapQueueWorld.queueCurrent wrapQueueWorld.queueEnd
      = (List.range ((wrapQueueWorld.queueEnd + MAX_BUFFER - wrapQueueWorld.queueCurrent)
          % MAX_BUFFER)).map (fun i => (wrapQueueWorld.queueCurrent + i) % MAX_BUFFER) ∧
    (drainIndices 9040 wrapQueueWorld.queueCurrent wrapQueueWorld.queueEnd).Nodup ∧
    (∀ i ∈ drainIndices 9040 wrapQueueWorld.queueCurrent wrapQueueWorld.queueEnd,
      i < MAX_BUFFER) ∧
    processData singleBuild 9040 idleEnv wrapQueueWorld
      = { run singleBuild (fun i => idleEnv (i + 1)) (lateRender singleBuild (idleEnv 0)
              wrapQueueWorld)
            ((drainIndices 9040 wrapQueueWorld.queueCurrent wrapQueueWorld.queueEnd).map
              (fun i => wrapQueueWorld.buffer.getD i 0))
          with queueCurrent := wrapQueueWorld.queueEnd } ∧
    (processData singleBuild 9040 idleEnv wrapQueueWorld).queueCurrent
      = (processData singleBuild 9040 idleEnv wrapQueueWorld).queueEnd) :=
  ⟨by decide, by decide, by decide,
    C14_queue_drain singleBuild 9040 idleEnv wrapQueueWorld (by decide) (by decide)
      (by decide)⟩

theorem pixelWrites_append (xs ys : List HwEvent) :
    pixelWrites (xs ++ ys) = pixelWrites xs ++ pixelWrites ys := by
  induction xs with
  | nil => rfl
  | cons x xs ih => cases x <;> simp [pixelWrites, ih]

theorem pixelWrites_busyWaits (k us : Nat) :
    pixelWrites (List.replicate k (HwEvent.busyWait us)) = [] := by
  induction k with
  | zero => rfl
  | succ k ih => simp [List.replicate_succ, pixelWrites, ih]

theorem renderDma_pixelWrites (env : Env) (resetTime : Nat) (resetBuffer : Bool)
    (m : LedDriver) (d : Drivers) :
    pixelWrites (renderDma env resetTime resetBuffer m d).2.hw = pixelWrites d.hw := by
  unfold renderDma
  split
  · rfl
  · simp only [pixelWrites_append]
    split <;> simp [pixelWrites]

theorem displaySegments_pixelWrites (b : Build) (env : Env) (d : Drivers) :
    pixelWrites (displaySegments b env d).hw = pixelWrites d.hw := by
  unfold displaySegments
  split
  · unfold renderAllLanes
    split
    · exact renderDma_pixelWrites _ _ _ _ _
    · rfl
  · unfold renderSingleLane
    split
    · exact renderDma_pixelWrites _ _ _ _ _
    · exact renderDma_pixelWrites _ _ _ _ _
    · rfl

theorem isReadyBlocking_pixelWrites (env : Env) (d : Drivers) :
    pixelWrites (isReadyBlocking env d).2.hw = pixelWrites d.hw := by
  simp [isReadyBlocking, pixelWrites_append, pixelWrites_busyWaits]

/-- What `renderLeds` leaves alone: the frame state, the strip size, the good-frame and
total-frame counters, the `SetPixel` calls so far; it logs itself as one call. -/
theorem renderLeds_frame (b : Build) (env : Env) (nf : Bool) (w : World) :
    (renderLeds b env nf w).frameState = w.frameState ∧
    (renderLeds b env nf w).ledsNumber = w.ledsNumber ∧
    (renderLeds b env nf w).statistics.goodFrames = w.statistics.goodFrames ∧
    (renderLeds b env nf w).statistics.totalFrames = w.statistics.totalFrames ∧
    (renderLeds b env nf w).calls = w.calls ++ [Call.renderLeds nf] ∧
    pixelWrites (renderLeds b env nf w).drivers.hw = pixelWrites w.drivers.hw := by
  unfold renderLeds
  cases nf <;> simp only [Bool.false_eq_true, if_false, if_true]
  · split
    · split
      · refine ⟨rfl, rfl, rfl, rfl, rfl, ?_⟩
        simp only [displaySegments_pixelWrites, isReadyBlocking_pixelWrites]
      · exact ⟨rfl, rfl, rfl, rfl, rfl, isReadyBlocking_pixelWrites _ _⟩
    · exact ⟨rfl, rfl, rfl, rfl, rfl, rfl⟩
  · split
    · split
      · refine ⟨rfl, rfl, rfl, rfl, rfl, ?_⟩
        simp only [displaySegments_pixelWrites, isReadyBlocking_pixelWrites]
      · exact ⟨rfl, rfl, rfl, rfl, rfl, isReadyBlocking_pixelWrites _ _⟩
    · exact ⟨rfl, rfl, rfl, rfl, rfl, rfl⟩

/-- The step taken in `FINAL`. -/
theorem step_FINAL (b : Build) (env : Env) (w : World) (x : Nat)
    (hs : w.frameState.state = .FINAL) :
    step b env w x = setState .HEADER_A (renderLeds b env true
      { w with statistics := { w.statistics with goodFrames := w.statistics.goodFrames + 1 } }) := by
  unfold step
  simp only [hs]

theorem step_goodFrames (b : Build) (env : Env) (w : World) (x : Nat) :
    (step b env w x).statistics.goodFrames
      = if w.frameState.state = .FINAL then w.statistics.goodFrames + 1
        else w.statistics.goodFrames := by
  cases h : w.frameState.state
  case FINAL =>
    rw [step_FINAL b env w x h, if_pos rfl]
    exact (renderLeds_frame b env true _).2.2.1
  all_goals
    rw [if_neg (by simp)]
    unfold step
    simp only [h]
  case HEADER_A => split <;> rfl
  case HEADER_d => split <;> rfl
  case HEADER_a => split <;> rfl
  case HEADER_HI => rfl
  case HEADER_LO => rfl
  case HEADER_CRC =>
    split
    · split
      · rfl
      · split <;> rfl
    · rfl
  case RED => rfl
  case GREEN => rfl
  case BLUE => split <;> rfl

theorem step_magic_statistics (b : Build) (env : Env) (w : World) (x : Nat)
    (hs : w.frameState.state = .HEADER_A ∨ w.frameState.state = .HEADER_d
      ∨ w.frameState.state = .HEADER_a) :
    (step b env w x).statistics = w.statistics := by
  unfold step
  rcases hs with h | h | h <;> simp only [h] <;> split <;> rfl

theorem run_magic (b : Build) (env : Nat → Env) (w : World)
    (hs : w.frameState.state = .HEADER_A) :
    run b env w [65, 100, 97] = setState .HEADER_HI w := by
  obtain ⟨⟨st, _, _, _, _, _, _⟩, _, _, _, _, _, _, _, _⟩ := w
  simp only at hs
  subst hs
  rfl

theorem run_magic_hi (b : Build) (env : Nat → Env) (w : World) (hi : Nat)
    (hs : w.frameState.state = .HEADER_A) :
    (run b env w [65, 100, 97, hi]).statistics.totalFrames = w.statistics.totalFrames + 1 := by
  obtain ⟨⟨st, _, _, _, _, _, _⟩, _, _, _, _, _, _, _, _⟩ := w
  simp only at hs
  subst hs
  rfl

/-- C15: a byte processed in `HEADER_A`, `HEADER_d` or `HEADER_a` (a mismatch in particular)
leaves the counters as they are; a header `'A','d','a',hi,lo,c` from `HEADER_A` with a check
byte that does not match raises the total-frame counter exactly once, at the `hi` byte (not
before it, and not again at `lo` and `c`), and leaves the good-frame counter; and a step
raises the good-frame counter, by one, exactly when it is taken in `FINAL`. -/
theorem C15_counters (b : Build) (env : Nat → Env) (w : World) (hi lo c : Nat)
    (hs : w.frameState.state = .HEADER_A) (hhi : hi < 256) (hc : c ≠ b.crc8 hi lo) :
    (∀ (e : Env) (v : World) (x : Nat),
      v.frameState.state = .HEADER_A ∨ v.frameState.state = .HEADER_d
        ∨ v.frameState.state = .HEADER_a →
      (step b e v x).statistics = v.statistics) ∧
    (run b env w [65, 100, 97]).statistics = w.statistics ∧
    (run b env w [65, 100, 97, hi]).statistics.totalFrames = w.statistics.totalFrames + 1 ∧
    (run b env w (header hi lo c)).statistics.totalFrames = w.statistics.totalFrames + 1 ∧
    (run b env w (header hi lo c)).statistics.goodFrames = w.statistics.goodFrames ∧
    (∀ (e : Env) (v : World) (x : Nat),
      (step b e v x).statistics.goodFrames
        = if v.frameState.state = .FINAL then v.statistics.goodFrames + 1
          else v.statistics.goodFrames) := by
  refine ⟨fun e v x h => step_magic_statistics b e v x h, ?_, run_magic_hi b env w hi hs, ?_, ?_,
    fun e v x => step_goodFrames b e v x⟩
  · rw [run_magic b env w hs]; rfl
  · rw [run_header b env w hi lo c hs]
    have h1 : hi * 256 % 65536 = hi * 256 := Nat.mod_eq_of_lt (by omega)
    have h2 : hi * 256 / 256 = hi := by omega
    have h3 : ¬ (b.crc8 hi lo = c) := fun h => hc h.symm
    simp only [step, headerWorld, h1, h2, h3, if_false, setState]
  · rw [run_header b env w hi lo c hs]
    have h1 : hi * 256 % 65536 = hi * 256 := Nat.mod_eq_of_lt (by omega)
    have h2 : hi * 256 / 256 = hi := by omega
    have h3 : ¬ (b.crc8 hi lo = c) := fun h => hc h.symm
    simp only [step, headerWorld, h1, h2, h3, if_false, setState]

/-- C15 at the header `'A','d','a',0,0,0` with the sample check `0x55`. -/
theorem C15_witness :
    World.initial.frameState.state = .HEADER_A ∧ (0 : Nat) < 256 ∧ 0 ≠ singleBuild.crc8 0 0 ∧
    ((∀ (e : Env) (v : World) (x : Nat),
      v.frameState.state = .HEADER_A ∨ v.frameState.state = .HEADER_d
        ∨ v.frameState.state = .HEADER_a →
      (step singleBuild e v x).statistics = v.statistics) ∧
    (run singleBuild idleEnv World.initial [65, 100, 97]).statistics
      = World.initial.statistics ∧
    (run singleBuild idleEnv World.initial [65, 100, 97, 0]).statistics.totalFrames
      = World.initial.statistics.totalFrames + 1 ∧
    (run singleBuild idleEnv World.initial (header 0 0 0)).statistics.totalFrames
      = World.initial.statistics.totalFrames + 1 ∧
    (run singleBuild idleEnv World.initial (header 0 0 0)).statistics.goodFrames
      = World.initial.statistics.goodFrames ∧
    (∀ (e : Env) (v : World) (x : Nat),
      (step singleBuild e v x).statistics.goodFrames
        = if v.frameState.state = .FINAL then v.statistics.goodFrames + 1
          else v.statistics.goodFrames)) :=
  ⟨rfl, by decide, by decide,
    C15_counters singleBuild idleEnv World.initial 0 0 0 rfl (by decide) (by decide)⟩

theorem renderLeds_withFletcher (b : Build) (env : Env) (nf : Bool) (w : World) (f1 f2 : Nat) :
    renderLeds b env nf (withFletcher f1 f2 w) = withFletcher f1 f2 (renderLeds b env nf w) := by
  unfold renderLeds withFletcher
  cases nf <;> simp only [Bool.false_eq_true, if_false, if_true] <;>
    split <;> (try split) <;> rfl

/-- No step depends on the running payload checksum: two states that differ in it alone are
taken to states that differ in it alone. -/
theorem step_withFletcher (b : Build) (env : Env) (w : World) (x f1 f2 : Nat) :
    withFletcher 0 0 (step b env (withFletcher f1 f2 w) x) = withFletcher 0 0 (step b env w x) := by
  by_cases hF : w.frameState.state = .FINAL
  · have hF' : (withFletcher f1 f2 w).frameState.state = .FINAL := hF
    rw [step_FINAL b env w x hF, step_FINAL b env _ x hF']
    have e := renderLeds_withFletcher b env true
      { w with statistics := { w.statistics with goodFrames := w.statistics.goodFrames + 1 } }
      f1 f2
    exact (congrArg (fun v => withFletcher 0 0 (setState .HEADER_A v)) e).trans rfl
  obtain ⟨⟨st, crc, cnt, cur, g1, g2, col⟩, stat, n, rdy, buf, qc, qe, d, calls⟩ := w
  cases st
  · unfold step withFletcher
    simp only
    split <;> rfl
  · unfold step withFletcher
    simp only
    split <;> rfl
  · unfold step withFletcher
    simp only
    split <;> rfl
  · rfl
  · rfl
  · unfold step withFletcher
    simp only
    split
    · split
      · rfl
      · by_cases hc : (cnt + 1) % 65536 = n
        · simp only [getLedsNumber, hc, ne_eq, not_true_eq_false, if_false]
          rfl
        · simp only [getLedsNumber, hc, ne_eq, not_false_eq_true, if_true]
          rfl
    · rfl
  · rfl
  · rfl
  · unfold step withFletcher
    cases hb : b.rgb2rgbw <;>
      simp only [setStripPixel, FrameState.rgb2rgbw, FrameState.addFletcher,
        FrameState.getCurrentLedIndex, hb] <;>
      split <;> rfl
  · exact absurd rfl hF

/-- C16: the step taken in `FINAL` raises the good-frame counter by one, makes exactly one
call on `base`, `renderLeds(true)`, makes no `SetPixel` call on a driver and moves to
`HEADER_A`, whatever the byte processed: two bytes give the same state. And no decoder step
depends on the running payload checksum: from two states that differ in the checksum alone,
every byte leads to states that differ in the checksum alone. -/
theorem C16_final_ignores_trailer (b : Build) (env : Env) (w : World) (x y : Nat)
    (hs : w.frameState.state = .FINAL) :
    (step b env w x).statistics.goodFrames = w.statistics.goodFrames + 1 ∧
    (step b env w x).calls = w.calls ++ [Call.renderLeds true] ∧
    pixelWrites (step b env w x).drivers.hw = pixelWrites w.drivers.hw ∧
    (step b env w x).frameState.state = .HEADER_A ∧
    step b env w x = step b env w y ∧
    (∀ (e : Env) (v : World) (z f1 f2 : Nat),
      withFletcher 0 0 (step b e (withFletcher f1 f2 v) z) = withFletcher 0 0 (step b e v z)) := by
  have hg := step_goodFrames b env w x
  rw [if_pos hs] at hg
  refine ⟨hg, ?_, ?_, ?_, ?_, fun e v z f1 f2 => step_withFletcher b e v z f1 f2⟩
  · rw [step_FINAL b env w x hs]
    exact (renderLeds_frame b env true _).2.2.2.2.1
  · rw [step_FINAL b env w x hs]
    exact (renderLeds_frame b env true _).2.2.2.2.2
  · rw [step_FINAL b env w x hs]
    rfl
  · rw [step_FINAL b env w x hs, step_FINAL b env w y hs]

/-- C16 at the end of a one-pixel frame, for the trailer bytes 0 and 65. -/
theorem C16_witness :
    finalWorld.frameState.state = .FINAL ∧
    ((step singleBuild (idleEnv 0) finalWorld 0).statistics.goodFrames
      = finalWorld.statistics.goodFrames + 1 ∧
    (step singleBuild (idleEnv 0) finalWorld 0).calls
      = finalWorld.calls ++ [Call.renderLeds true] ∧
    pixelWrites (step singleBuild (idleEnv 0) finalWorld 0).drivers.hw
      = pixelWrites finalWorld.drivers.hw ∧
    (step singleBuild (idleEnv 0) finalWorld 0).frameState.state = .HEADER_A ∧
    step singleBuild (idleEnv 0) finalWorld 0 = step singleBuild (idleEnv 0) finalWorld 65 ∧
    (∀ (e : Env) (v : World) (z f1 f2 : Nat),
      withFletcher 0 0 (step singleBuild e (withFletcher f1 f2 v) z)
        = withFletcher 0 0 (step singleBuild e v z))) :=
  ⟨by decide, C16_final_ignores_trailer singleBuild (idleEnv 0) finalWorld 0 65 (by decide)⟩

theorem isReadyBlockingLoop_waits (irq : Option Nat) : ∀ (wait waited : Nat) (busy : Bool),
    waited ≤ (isReadyBlockingLoop irq wait waited busy).2 ∧
    (isReadyBlockingLoop irq wait waited busy).2 ≤ waited + wait ∧
    (busy = false → (isReadyBlockingLoop irq wait waited busy).2 = waited) := by
  intro wait
  induction wait with
  | zero => intro waited busy; exact ⟨Nat.le_refl _, Nat.le_refl _, fun _ => rfl⟩
  | succ wait ih =>
    intro waited busy
    unfold isReadyBlockingLoop
    split
    · rename_i h
      obtain ⟨i1, i2, _⟩ := ih (waited + 1) true
      refine ⟨by omega, by omega, ?_⟩
      intro hb
      rw [hb] at h
      simp at h
    · exact ⟨Nat.le_refl _, by omega, fun _ => rfl⟩

theorem renderWait_le (resetTime lastRenderTime currentTime : Nat) :
    renderWait resetTime lastRenderTime currentTime ≤ resetTime := by
  unfold renderWait
  split
  · exact Nat.min_le_right _ _
  · exact Nat.zero_le _

theorem RESET_TIME_le (t : LedType) : t.RESET_TIME ≤ 650 := by
  cases t <;> decide

theorem renderDma_tail (env : Env) (resetTime : Nat) (hr : resetTime ≤ 650) (resetBuffer : Bool)
    (m : LedDriver) (d : Drivers) :
    ∃ rest, (renderDma env resetTime resetBuffer m d).2.hw = d.hw ++ rest ∧ RenderTail rest := by
  unfold renderDma
  split
  · exact ⟨[], by simp, Or.inl rfl⟩
  · by_cases h0 : renderWait resetTime d.lastRenderTime env.time_us_64 = 0
    · refine ⟨[HwEvent.dmaStart (memcpy m.dma m.buffer m.dmaSize)], ?_, Or.inr (Or.inl ⟨_, rfl⟩)⟩
      simp [h0]
    · refine ⟨[HwEvent.busyWait (renderWait resetTime d.lastRenderTime env.time_us_64),
        HwEvent.dmaStart (memcpy m.dma m.buffer m.dmaSize)], ?_,
        Or.inr (Or.inr ⟨_, _, Nat.le_trans (renderWait_le _ _ _) hr, rfl⟩)⟩
      simp [h0]

theorem displaySegments_tail (b : Build) (env : Env) (d : Drivers) :
    ∃ rest, (displaySegments b env d).hw = d.hw ++ rest ∧ RenderTail rest := by
  unfold displaySegments
  split
  · unfold renderAllLanes
    split
    · exact renderDma_tail _ _ (RESET_TIME_le _) _ _ _
    · exact ⟨[], by simp, Or.inl rfl⟩
  · unfold renderSingleLane
    split
    · exact renderDma_tail _ _ (RESET_TIME_le _) _ _ _
    · exact renderDma_tail _ _ (RESET_TIME_le _) _ _ _
    · exact ⟨[], by simp, Or.inl rfl⟩

theorem isReadyBlocking_hw (env : Env) (d : Drivers) :
    ∃ k, k ≤ 200 ∧ (isReadyBlocking env d).2.hw = d.hw ++ List.replicate k (HwEvent.busyWait 50) ∧
      (d.isDmaBusy = false → k = 0) := by
  obtain ⟨_, i2, i3⟩ := isReadyBlockingLoop_waits env.irq 200 0 d.isDmaBusy
  exact ⟨_, by omega, rfl, i3⟩

/-- C17 (amended): a `renderLeds` call waits for a bounded time only. With a request pending
on a strip it polls readiness through `isReadyBlocking`: `k ≤ 200` busy-waits of 50 us, none
when the channel is idle at the call; after them it adds nothing (request deferred), or
starts a transfer, preceded by at most one wait of at most 650 us. With nothing pending it
does not wait and does nothing. -/
theorem C17_render_wait_bounded (b : Build) (env : Env) (newFrame : Bool) (w : World) :
    ∃ k rest, k ≤ 200 ∧
      (renderLeds b env newFrame w).drivers.hw
        = w.drivers.hw ++ List.replicate k (HwEvent.busyWait 50) ++ rest ∧
      RenderTail rest ∧
      (w.drivers.isDmaBusy = false → k = 0) ∧
      ((w.readyToRender || newFrame) = false → k = 0 ∧ rest = []) := by
  have key : ∀ v : World, (v.readyToRender && v.drivers.ledStrip1 != none) = true →
      ∃ k rest, k ≤ 200 ∧
        (if (isReadyBlocking env v.drivers).1 = true then
            ({ v with statistics := { v.statistics with showFrames := v.statistics.showFrames + 1 },
                      readyToRender := false,
                      drivers := displaySegments b env (isReadyBlocking env v.drivers).2 } : World)
          else { v with drivers := (isReadyBlocking env v.drivers).2 }).drivers.hw
          = v.drivers.hw ++ List.replicate k (HwEvent.busyWait 50) ++ rest ∧
        RenderTail rest ∧ (v.drivers.isDmaBusy = false → k = 0) := by
    intro v _
    obtain ⟨k, hk, hhw, hidle⟩ := isReadyBlocking_hw env v.drivers
    split
    · obtain ⟨rest, hr, ht⟩ := displaySegments_tail b env (isReadyBlocking env v.drivers).2
      exact ⟨k, rest, hk, by rw [← hhw]; exact hr, ht, hidle⟩
    · exact ⟨k, [], hk, by simpa using hhw, Or.inl rfl, hidle⟩
  unfold renderLeds
  cases newFrame
  · simp only [Bool.false_eq_true, if_false, Bool.or_false]
    split
    · rename_i hp
      obtain ⟨k, rest, h1, h2, h3, h4⟩ :=
        key { w with calls := w.calls ++ [Call.renderLeds false] } hp
      refine ⟨k, rest, h1, h2, h3, h4, ?_⟩
      intro hn
      simp [hn] at hp
    · exact ⟨0, [], Nat.zero_le _, by simp, Or.inl rfl, fun _ => rfl, fun _ => ⟨rfl, rfl⟩⟩
  · simp only [if_true, Bool.or_true]
    split
    · rename_i hp
      obtain ⟨k, rest, h1, h2, h3, h4⟩ :=
        key { w with calls := w.calls ++ [Call.renderLeds true], readyToRender := true } hp
      exact ⟨k, rest, h1, h2, h3, h4, fun h => by simp at h⟩
    · exact ⟨0, [], Nat.zero_le _, by simp, Or.inl rfl, fun _ => rfl, fun h => by simp at h⟩

set_option maxRecDepth 100000 in
/-- C17, as stated, fails: on a strip with a running transfer that does not finish, a
`renderLeds(true)` call makes 200 busy-waits of 50 us through `isReadyBlocking` before it
leaves the request deferred. -/
theorem C17_counterexample :
    busyWorld.drivers.isDmaBusy = true ∧
    (renderLeds singleBuild (idleEnv 0) true busyWorld).drivers.hw
      = busyWorld.drivers.hw ++ List.replicate 200 (HwEvent.busyWait 50) ∧
    (renderLeds singleBuild (idleEnv 0) true busyWorld).readyToRender = true := by
  decide

theorem frameCalls_append (xs ys : List Call) :
    frameCalls (xs ++ ys) = frameCalls xs ++ frameCalls ys := by
  induction xs with
  | nil => rfl
  | cons x xs ih =>
    cases x with
    | initLedStrip c => simpa [frameCalls] using ih
    | setStripPixel pix c => simp [frameCalls, ih]
    | renderLeds nf => cases nf <;> simp [frameCalls, ih]

theorem range_shift (i n : Nat) :
    (List.range (n + 1)).map (fun k => some (i + k))
      = some i :: (List.range n).map (fun k => some (i + 1 + k)) := by
  rw [List.range_succ_eq_map, List.map_cons, List.map_map]
  congr 1
  apply List.map_congr_left
  intro k _
  simp only [Function.comp, Nat.succ_eq_add_one]
  congr 1
  omega

/-- The payload of `n + 1` pixels processed from `RED`, in any build: the counters are kept
and the calls are the `n + 1` calls of `setStripPixel` with consecutive indices. -/
theorem run_payload_calls (b : Build) : ∀ (n : Nat) (env : Nat → Env) (w : World)
    (p : List Nat),
    w.frameState.state = .RED → p.length = 3 * (n + 1) →
    w.ledsNumber = w.frameState.currentLed + n + 1 → w.ledsNumber ≤ 65536 →
    (run b env w p).statistics = w.statistics ∧
    frameCalls (run b env w p).calls = frameCalls w.calls ++
      (List.range (n + 1)).map (fun k => some (w.frameState.currentLed + k)) := by
  intro n
  induction n with
  | zero =>
    intro env w p hs hp hl _
    match p, hp with
    | [r, g, bl], _ =>
      simp only [run_cons, run]
      rw [pixel_steps b _ _ _ w r g bl hs]
      refine ⟨rfl, ?_⟩
      rw [range_shift w.frameState.currentLed 0]
      simp [pixelWorld, frameCalls_append, frameCalls]
  | succ n ih =>
    intro env w p hs hp hl hle
    match p, hp with
    | r :: g :: bl :: p', hp' =>
      simp only [run_cons]
      rw [pixel_steps b _ _ _ w r g bl hs]
      have hst : (pixelWorld b w r g bl).frameState.state = .RED := by
        simp only [pixelWorld]
        rw [if_pos (by omega)]
      have hcur : (pixelWorld b w r g bl).frameState.currentLed
          = w.frameState.currentLed + 1 := by
        simp only [pixelWorld]
        exact Nat.mod_eq_of_lt (by omega)
      have hln : (pixelWorld b w r g bl).ledsNumber = w.ledsNumber := rfl
      have hp'' : p'.length = 3 * (n + 1) := by
        simp only [List.length_cons] at hp'; omega
      obtain ⟨i1, i2⟩ := ih (fun i => env (i + 1 + 1 + 1)) (pixelWorld b w r g bl) p' hst hp''
        (by rw [hln, hcur]; omega) (by rw [hln]; exact hle)
      refine ⟨i1.trans rfl, ?_⟩
      rw [i2, hcur, range_shift w.frameState.currentLed (n + 1)]
      simp [pixelWorld, frameCalls_append, frameCalls]

/-- One frame in wire format without its last trailing byte, decoded from `HEADER_A`: the
pixels are set, one render is requested, the good-frame counter goes up by one and the
decoder is back in `HEADER_A`. -/
theorem frame_decoded (b : Build) (env : Nat → Env) (w : World) (hi lo : Nat) (p : List Nat)
    (t1 : Nat) (hs : w.frameState.state = .HEADER_A) (hhi : hi < 256)
    (hn : hi * 256 + lo + 1 ≤ 4096) (hp : p.length = 3 * (hi * 256 + lo + 1)) :
    (run b env w (header hi lo (b.crc8 hi lo) ++ p ++ [t1])).frameState.state = .HEADER_A ∧
    (run b env w (header hi lo (b.crc8 hi lo) ++ p ++ [t1])).statistics.goodFrames
      = w.statistics.goodFrames + 1 ∧
    frameCalls (run b env w (header hi lo (b.crc8 hi lo) ++ p ++ [t1])).calls
      = frameCalls w.calls ++ (List.range (hi * 256 + lo + 1)).map some ++ [none] := by
  obtain ⟨a1, a2, a3⟩ := after_header b (env 5) w hi lo hhi hn
  have hF := (frame_reaches_FINAL_once b env w hi lo p hs hhi hn hp).2
  have hcalls0 : frameCalls (step b (env 5) (headerWorld b w hi lo) (b.crc8 hi lo)).calls
      = frameCalls w.calls := by
    rw [step_CRC_ok b _ w hi lo hhi hn]
    split
    · simp [setState, initLedStrip, headerWorld, frameCalls_append, frameCalls]
    · rfl
  have hgood0 : (step b (env 5) (headerWorld b w hi lo) (b.crc8 hi lo)).statistics.goodFrames
      = w.statistics.goodFrames := by
    rw [step_CRC_ok b _ w hi lo hhi hn]
    split <;> rfl
  obtain ⟨i1, i2⟩ := run_payload_calls b (hi * 256 + lo)
    (fun i => env (i + (header hi lo (b.crc8 hi lo)).length))
    (step b (env 5) (headerWorld b w hi lo) (b.crc8 hi lo)) p a1 hp
    (by rw [a3, a2]; omega) (by rw [a3]; omega)
  have hrun : run b env w (header hi lo (b.crc8 hi lo) ++ p)
      = run b (fun i => env (i + (header hi lo (b.crc8 hi lo)).length))
          (step b (env 5) (headerWorld b w hi lo) (b.crc8 hi lo)) p := by
    rw [run_append, run_header b env w hi lo _ hs]
  rw [run_singleton_append]
  generalize hwF : run b env w (header hi lo (b.crc8 hi lo) ++ p) = wF at hF hrun
  have hg : wF.statistics.goodFrames = w.statistics.goodFrames := by
    rw [hrun, i1, hgood0]
  have hc : frameCalls wF.calls = frameCalls w.calls
      ++ (List.range (hi * 256 + lo + 1)).map some := by
    rw [hrun, i2, hcalls0, a2]
    simp
  have f1 := step_goodFrames b (env (header hi lo (b.crc8 hi lo) ++ p).length) wF t1
  rw [if_pos hF] at f1
  rw [step_FINAL b _ wF t1 hF] at f1 ⊢
  have f2 := (renderLeds_frame b (env (header hi lo (b.crc8 hi lo) ++ p).length) true
    { wF with statistics := { wF.statistics with goodFrames := wF.statistics.goodFrames + 1 } }
    ).2.2.2.2.1
  refine ⟨rfl, by rw [f1, hg], ?_⟩
  show frameCalls (renderLeds b _ true _).calls = _
  rw [f2, frameCalls_append, hc]
  rfl

theorem step_in_HEADER_A (b : Build) (e : Env) (w : World) (x : Nat)
    (hs : w.frameState.state = .HEADER_A) :
    (x ≠ 65 → step b e w x = w) ∧
    (step b e w x).statistics = w.statistics ∧ (step b e w x).calls = w.calls := by
  unfold step
  simp only [hs]
  refine ⟨fun h => by rw [if_neg h], ?_, ?_⟩ <;> split <;> rfl

theorem wireFrame_split (b : Build) (hi lo : Nat) (p : List Nat) (t1 t2 : Nat) :
    wireFrame b hi lo p t1 t2 = (header hi lo (b.crc8 hi lo) ++ p ++ [t1]) ++ [t2] := by
  simp [wireFrame]

/-- C18 (amended): for every stream of two well-formed frames in wire format sent back to
back, where the second trailing byte of the first frame is not `'A'` (the other trailing
bytes are arbitrary), the decoder started in `HEADER_A` decodes both frames: the calls are
the `n1` calls of `setStripPixel` of the first frame, a render request, the `n2` calls of
the second frame, a render request; and the good-frame counter ends 2 higher. -/
theorem C18_back_to_back (b : Build) (env : Nat → Env) (w : World)
    (hi1 lo1 : Nat) (p1 : List Nat) (t1 t2 : Nat) (hi2 lo2 : Nat) (p2 : List Nat) (u1 u2 : Nat)
    (hs : w.frameState.state = .HEADER_A) (ht2 : t2 ≠ 65)
    (hhi1 : hi1 < 256) (hlo1 : lo1 < 256) (hn1 : (hi1 <<< 8 ||| lo1) + 1 ≤ 4096)
    (hp1 : p1.length = 3 * ((hi1 <<< 8 ||| lo1) + 1))
    (hhi2 : hi2 < 256) (hlo2 : lo2 < 256) (hn2 : (hi2 <<< 8 ||| lo2) + 1 ≤ 4096)
    (hp2 : p2.length = 3 * ((hi2 <<< 8 ||| lo2) + 1)) :
    frameCalls (run b env w
        (wireFrame b hi1 lo1 p1 t1 t2 ++ wireFrame b hi2 lo2 p2 u1 u2)).calls
      = frameCalls w.calls
        ++ (List.range ((hi1 <<< 8 ||| lo1) + 1)).map some ++ [none]
        ++ (List.range ((hi2 <<< 8 ||| lo2) + 1)).map some ++ [none] ∧
    (run b env w
        (wireFrame b hi1 lo1 p1 t1 t2 ++ wireFrame b hi2 lo2 p2 u1 u2)).statistics.goodFrames
      = w.statistics.goodFrames + 2 := by
  rw [length_field hi1 lo1 hlo1] at hn1 hp1 ⊢
  rw [length_field hi2 lo2 hlo2] at hn2 hp2 ⊢
  rw [wireFrame_split, wireFrame_split, run_append,
    run_singleton_append b (header hi1 lo1 (b.crc8 hi1 lo1) ++ p1 ++ [t1]) t2]
  obtain ⟨a1, a2, a3⟩ := frame_decoded b env w hi1 lo1 p1 t1 hs hhi1 hn1 hp1
  generalize run b env w (header hi1 lo1 (b.crc8 hi1 lo1) ++ p1 ++ [t1]) = w1 at a1 a2 a3
  rw [(step_in_HEADER_A b _ w1 t2 a1).1 ht2]
  generalize (fun i => env (i + (header hi1 lo1 (b.crc8 hi1 lo1) ++ p1 ++ [t1] ++ [t2]).length))
    = env2
  rw [run_singleton_append b (header hi2 lo2 (b.crc8 hi2 lo2) ++ p2 ++ [u1]) u2]
  obtain ⟨c1, c2, c3⟩ := frame_decoded b env2 w1 hi2 lo2 p2 u1 a1 hhi2 hn2 hp2
  generalize run b env2 w1 (header hi2 lo2 (b.crc8 hi2 lo2) ++ p2 ++ [u1]) = w2 at c1 c2 c3
  obtain ⟨_, d2, d3⟩ := step_in_HEADER_A b
    (env2 (header hi2 lo2 (b.crc8 hi2 lo2) ++ p2 ++ [u1]).length) w2 u2 c1
  constructor
  · rw [d3, c3, a3]
  · rw [d2, c2, a2]

/-- C18 (amended) at two one-pixel frames with the trailing bytes `65, 0` and `65, 65`. -/
theorem C18_witness :
    World.initial.frameState.state = .HEADER_A ∧ (0 : Nat) ≠ 65 ∧
    (0 : Nat) < 256 ∧ (0 : Nat) < 256 ∧ (0 <<< 8 ||| 0) + 1 ≤ 4096 ∧
    [1, 2, 3].length = 3 * ((0 <<< 8 ||| 0) + 1) ∧
    (0 : Nat) < 256 ∧ (0 : Nat) < 256 ∧ (0 <<< 8 ||| 0) + 1 ≤ 4096 ∧
    [4, 5, 6].length = 3 * ((0 <<< 8 ||| 0) + 1) ∧
    (frameCalls (run singleBuild idleEnv World.initial
        (wireFrame singleBuild 0 0 [1, 2, 3] 65 0
          ++ wireFrame singleBuild 0 0 [4, 5, 6] 65 65)).calls
      = frameCalls World.initial.calls
        ++ (List.range ((0 <<< 8 ||| 0) + 1)).map some ++ [none]
        ++ (List.range ((0 <<< 8 ||| 0) + 1)).map some ++ [none] ∧
    (run singleBuild idleEnv World.initial
        (wireFrame singleBuild 0 0 [1, 2, 3] 65 0
          ++ wireFrame singleBuild 0 0 [4, 5, 6] 65 65)).statistics.goodFrames
      = World.initial.statistics.goodFrames + 2) :=
  ⟨rfl, by decide, by decide, by decide, by decide, by decide, by decide, by decide, by decide,
    by decide,
    C18_back_to_back singleBuild idleEnv World.initial 0 0 [1, 2, 3] 65 0 0 0 [4, 5, 6] 65 65
      rfl (by decide) (by decide) (by decide) (by decide) (by decide) (by decide) (by decide)
      (by decide) (by decide)⟩

/-- C18, as stated, fails: when the second trailing byte of the first frame is `'A'`, the
second frame is not decoded: no pixel is set for it, no render is requested for it, the
good-frame counter ends 1 higher. -/
theorem C18_counterexample :
    frameCalls (run singleBuild idleEnv World.initial
        (wireFrame singleBuild 0 0 [1, 2, 3] 0 65
          ++ wireFrame singleBuild 0 0 [4, 5, 6] 0 0)).calls = [some 0, none] ∧
    (run singleBuild idleEnv World.initial
        (wireFrame singleBuild 0 0 [1, 2, 3] 0 65
          ++ wireFrame singleBuild 0 0 [4, 5, 6] 0 0)).statistics.goodFrames = 1 := by
  decide

theorem newStrip_parallel (t : LedType) (ht : t.isParallel = true) (c : Nat) (d : Drivers) :
    (newStrip t c d).1 = Strip.lane t c (laneMask d.instances) (lutMemory (laneMask d.instances)) ∧
    (newStrip t c d).2.instances = d.instances + 1 ∧
    (newStrip t c d).2.maxLeds = max d.maxLeds c ∧
    (newStrip t c d).2.muxer = some (LedDriver.new (max d.maxLeds c)
      (max d.maxLeds c * 8 * sizeofColor t.colorData)) := by
  cases t <;> simp [LedType.isParallel] at ht <;> exact ⟨rfl, rfl, rfl, rfl⟩

theorem LedDriver_new_buffer (n size : Nat) (h : size % 4 = 0) :
    (LedDriver.new n size).buffer.length = size := by
  simp [LedDriver.new, h]

theorem lane_buffer_size_mod (m s : Nat) : (m * 8 * s) % 4 = 0 := by
  have h : m * 8 * s = 4 * (2 * m * s) := by ring
  rw [h, Nat.mul_mod_right]

theorem foldl_max_le (cs : List Nat) : ∀ a : Nat, a ≤ cs.foldl max a := by
  induction cs with
  | nil => intro a; exact Nat.le_refl a
  | cons c cs ih =>
    intro a
    exact Nat.le_trans (Nat.le_max_left a c) (ih (max a c))

/-- The state after the construction of lanes with the counts `counts`. -/
theorem constructLanes_spec (t : LedType) (ht : t.isParallel = true) :
    ∀ (counts : List Nat) (d : Drivers),
    (constructLanes t counts d).2.maxLeds = counts.foldl max d.maxLeds ∧
    (constructLanes t counts d).2.instances = d.instances + counts.length ∧
    (constructLanes t counts d).1.length = counts.length ∧
    (∀ s ∈ (constructLanes t counts d).1, s.isLane = true) ∧
    (counts ≠ [] → ∃ m, (constructLanes t counts d).2.muxer = some m ∧
      m.buffer.length = (constructLanes t counts d).2.maxLeds * 8 * sizeofColor t.colorData) := by
  intro counts
  induction counts with
  | nil => intro d; exact ⟨rfl, rfl, rfl, by simp [constructLanes], fun h => absurd rfl h⟩
  | cons c counts ih =>
    intro d
    obtain ⟨n1, n2, n3, n4⟩ := newStrip_parallel t ht c d
    obtain ⟨i1, i2, i3, i4, i5⟩ := ih (newStrip t c d).2
    simp only [constructLanes, List.foldl_cons, List.length_cons]
    refine ⟨by rw [i1, n3], by rw [i2, n2]; omega, by rw [i3], ?_, ?_⟩
    · intro s hs
      rw [List.mem_cons] at hs
      rcases hs with h | h
      · rw [h, n1]; rfl
      · exact i4 s h
    · intro _
      by_cases hc : counts = []
      · subst hc
        refine ⟨_, n4, ?_⟩
        simp only [constructLanes]
        rw [n3, LedDriver_new_buffer _ _ (lane_buffer_size_mod _ _)]
      · exact i5 hc

theorem constructLanes_append (t : LedType) (counts : List Nat) (c : Nat) : ∀ d : Drivers,
    (constructLanes t (counts ++ [c]) d).2 = (newStrip t c (constructLanes t counts d).2).2 := by
  induction counts with
  | nil => intro d; rfl
  | cons x counts ih =>
    intro d
    simp only [List.cons_append, constructLanes]
    exact ih _

theorem deleteStrip_lane (s : Strip) (hs : s.isLane = true) (d : Drivers) :
    (deleteStrip s d).instances = d.instances - 1 ∧
    ((deleteStrip s d).instances = 0 →
      (deleteStrip s d).maxLeds = 0 ∧ (deleteStrip s d).muxer = none) ∧
    ((deleteStrip s d).instances ≠ 0 →
      (deleteStrip s d).maxLeds = d.maxLeds ∧ (deleteStrip s d).muxer = d.muxer) := by
  cases s with
  | neopixel t m => simp [Strip.isLane] at hs
  | dotstar t m => simp [Strip.isLane] at hs
  | lane t n mask lut =>
    unfold deleteStrip
    simp only
    by_cases h0 : d.instances > 0
    · simp only [h0, if_true]
      by_cases h1 : d.instances - 1 = 0
      · simp [h1]
      · simp [h1]
    · have hz : d.instances = 0 := by omega
      simp [hz]

theorem destroyLanes_all : ∀ (lanes : List Strip) (d : Drivers),
    (∀ s ∈ lanes, s.isLane = true) → lanes.length = d.instances →
    (d.instances = 0 → d.maxLeds = 0 ∧ d.muxer = none) →
    (destroyLanes lanes d).instances = 0 ∧ (destroyLanes lanes d).maxLeds = 0 ∧
      (destroyLanes lanes d).muxer = none := by
  intro lanes
  induction lanes with
  | nil =>
    intro d _ hl h0
    have hz : d.instances = 0 := by simpa using hl.symm
    exact ⟨hz, (h0 hz).1, (h0 hz).2⟩
  | cons s lanes ih =>
    intro d hall hl _
    obtain ⟨e1, e2, _⟩ := deleteStrip_lane s (hall s (List.mem_cons_self _ _)) d
    simp only [List.length_cons] at hl
    exact ih (deleteStrip s d) (fun x hx => hall x (List.mem_cons_of_mem _ hx))
      (by rw [e1]; omega) e2

/-- C19: starting with no live lane, after the construction of the first `i` of the lanes
with the declared counts `counts` (for every `i`, whatever the number of lanes), `maxLeds` is
the maximum of the first `i` counts and, when `i > 0`, the shared buffer has
`maxLeds * 8 * sizeof(colorData)` bytes; a further construction does not lower `maxLeds`,
the destruction of a lane while another one is alive leaves `maxLeds` and the buffer as they
are; and once all lanes have been destroyed, in any order, `instances = 0`, `maxLeds = 0`
and the shared buffer is released. -/
theorem C19_shared_buffer_lifecycle (t : LedType) (d : Drivers) (counts : List Nat)
    (order : List Strip) (ht : t.isParallel = true)
    (h0 : d.instances = 0 ∧ d.maxLeds = 0 ∧ d.muxer = none)
    (hperm : order.Perm (constructLanes t counts d).1) :
    (∀ i, (constructLanes t (counts.take i) d).2.maxLeds = (counts.take i).foldl max 0 ∧
      (counts.take i ≠ [] → ∃ m, (constructLanes t (counts.take i) d).2.muxer = some m ∧
        m.buffer.length
          = (counts.take i).foldl max 0 * 8 * sizeofColor t.colorData)) ∧
    (∀ i c, (constructLanes t (counts.take i ++ [c]) d).2.maxLeds
      = max (constructLanes t (counts.take i) d).2.maxLeds c) ∧
    (∀ s ∈ (constructLanes t counts d).1,
      (deleteStrip s (constructLanes t counts d).2).instances ≠ 0 →
      (deleteStrip s (constructLanes t counts d).2).maxLeds
        = (constructLanes t counts d).2.maxLeds ∧
      (deleteStrip s (constructLanes t counts d).2).muxer
        = (constructLanes t counts d).2.muxer) ∧
    (destroyLanes order (constructLanes t counts d).2).instances = 0 ∧
    (destroyLanes order (constructLanes t counts d).2).maxLeds = 0 ∧
    (destroyLanes order (constructLanes t counts d).2).muxer = none := by
  obtain ⟨hi0, hm0, hx0⟩ := h0
  refine ⟨?_, ?_, ?_, ?_⟩
  · intro i
    obtain ⟨i1, _, _, _, i5⟩ := constructLanes_spec t ht (counts.take i) d
    rw [hm0] at i1
    refine ⟨i1, fun h => ?_⟩
    obtain ⟨m, e1, e2⟩ := i5 h
    exact ⟨m, e1, by rw [e2, i1]⟩
  · intro i c
    rw [constructLanes_append]
    exact (newStrip_parallel t ht c _).2.2.1
  · intro s hs hne
    exact (deleteStrip_lane s ((constructLanes_spec t ht counts d).2.2.2.1 s hs) _).2.2 hne
  · obtain ⟨_, i2, i3, i4, i5⟩ := constructLanes_spec t ht counts d
    apply destroyLanes_all
    · intro s hs
      exact i4 s (hperm.mem_iff.mp hs)
    · rw [hperm.length_eq, i3, i2, hi0]; omega
    · intro hz
      have hc : counts = [] := by
        rw [i2, hi0] at hz
        exact List.length_eq_zero.mp (by omega)
      subst hc
      exact ⟨hm0, hx0⟩

/-- C19 at three `ws2812p` lanes with 5, 9 and 7 pixels, destroyed last lane first. -/
theorem C19_witness :
    LedType.ws2812p.isParallel = true ∧
    (Drivers.initial.instances = 0 ∧ Drivers.initial.maxLeds = 0 ∧
      Drivers.initial.muxer = none) ∧
    ((constructLanes .ws2812p [5, 9, 7] Drivers.initial).1.reverse).Perm
      (constructLanes .ws2812p [5, 9, 7] Drivers.initial).1 ∧
    ((∀ i, (constructLanes .ws2812p ([5, 9, 7].take i) Drivers.initial).2.maxLeds
        = ([5, 9, 7].take i).foldl max 0 ∧
      ([5, 9, 7].take i ≠ [] →
        ∃ m, (constructLanes .ws2812p ([5, 9, 7].take i) Drivers.initial).2.muxer = some m ∧
        m.buffer.length
          = ([5, 9, 7].take i).foldl max 0 * 8 * sizeofColor LedType.ws2812p.colorData)) ∧
    (∀ i c, (constructLanes .ws2812p ([5, 9, 7].take i ++ [c]) Drivers.initial).2.maxLeds
      = max (constructLanes .ws2812p ([5, 9, 7].take i) Drivers.initial).2.maxLeds c) ∧
    (∀ s ∈ (constructLanes .ws2812p [5, 9, 7] Drivers.initial).1,
      (deleteStrip s (constructLanes .ws2812p [5, 9, 7] Drivers.initial).2).instances ≠ 0 →
      (deleteStrip s (constructLanes .ws2812p [5, 9, 7] Drivers.initial).2).maxLeds
        = (constructLanes .ws2812p [5, 9, 7] Drivers.initial).2.maxLeds ∧
      (deleteStrip s (constructLanes .ws2812p [5, 9, 7] Drivers.initial).2).muxer
        = (constructLanes .ws2812p [5, 9, 7] Drivers.initial).2.muxer) ∧
    (destroyLanes (constructLanes .ws2812p [5, 9, 7] Drivers.initial).1.reverse
      (constructLanes .ws2812p [5, 9, 7] Drivers.initial).2).instances = 0 ∧
    (destroyLanes (constructLanes .ws2812p [5, 9, 7] Drivers.initial).1.reverse
      (constructLanes .ws2812p [5, 9, 7] Drivers.initial).2).maxLeds = 0 ∧
    (destroyLanes (constructLanes .ws2812p [5, 9, 7] Drivers.initial).1.reverse
      (constructLanes .ws2812p [5, 9, 7] Drivers.initial).2).muxer = none) :=
  ⟨rfl, ⟨rfl, rfl, rfl⟩, List.reverse_perm _,
    C19_shared_buffer_lifecycle .ws2812p Drivers.initial [5, 9, 7]
      (constructLanes .ws2812p [5, 9, 7] Drivers.initial).1.reverse rfl ⟨rfl, rfl, rfl⟩
      (List.reverse_perm _)⟩

theorem map_eraseIdx_eq {α β : Type} (f : α → β) : ∀ (l : List α) (j : Nat),
    (l.eraseIdx j).map f = (l.map f).eraseIdx j := by
  intro l
  induction l with
  | nil => intro j; rfl
  | cons x l ih =>
    intro j
    cases j with
    | zero => rfl
    | succ j => simp only [List.eraseIdx_cons_succ, List.map_cons, ih]

/-- The masks of the live lanes are the single bits given by their ranks. -/
theorem masks_eq_ranks (t : LedType) (ht : t.isParallel = true) : ∀ (ops : List LaneOp)
    (s : List Strip × Drivers) (live : List Nat),
    s.2.instances = s.1.length →
    s.1.map Strip.myLaneMask = live.map (fun r => 1 <<< r) →
    (∀ x ∈ s.1, x.isLane = true) → (∀ r ∈ live, r < 8) →
    atMostEight ops live.length = true →
    (runLaneOps t ops s).1.map Strip.myLaneMask = (runRanks ops live).map (fun r => 1 <<< r) ∧
    ∀ r ∈ runRanks ops live, r < 8 := by
  intro ops
  induction ops with
  | nil => intro s live _ hm _ hr _; exact ⟨hm, hr⟩
  | cons op ops ih =>
    intro s live hi hm hl hr h8
    have hlen : s.1.length = live.length := by
      have := congrArg List.length hm
      simpa using this
    cases op with
    | construct n =>
      simp only [atMostEight, Bool.and_eq_true, decide_eq_true_eq] at h8
      obtain ⟨n1, n2, _, _⟩ := newStrip_parallel t ht n s.2
      have hmask : (newStrip t n s.2).1.myLaneMask = 1 <<< live.length := by
        rw [n1, ← hlen, ← hi]
        exact laneMask_eq _ (by omega)
      refine ih ((LaneOp.construct n).apply t s) ((LaneOp.construct n).ranks live) ?_ ?_ ?_ ?_ ?_
      · simp only [LaneOp.apply, List.length_append, List.length_singleton]
        rw [n2, hi]
      · simp only [LaneOp.apply, LaneOp.ranks, List.map_append, List.map_cons, List.map_nil]
        rw [hm, hmask]
      · intro x hx
        simp only [LaneOp.apply, List.mem_append, List.mem_singleton] at hx
        rcases hx with hx | hx
        · exact hl x hx
        · rw [hx, n1]
          rfl
      · intro r hr2
        simp only [LaneOp.ranks, List.mem_append, List.mem_singleton] at hr2
        rcases hr2 with h | h
        · exact hr r h
        · omega
      · simp only [LaneOp.ranks, List.length_append, List.length_singleton]
        exact h8.2
    | destroy j =>
      simp only [atMostEight, Bool.and_eq_true, decide_eq_true_eq] at h8
      have hj : j < s.1.length := by omega
      have hget : s.1[j]? = some s.1[j] := List.getElem?_eq_getElem hj
      have hlane := hl s.1[j] (List.getElem_mem hj)
      refine ih ((LaneOp.destroy j).apply t s) ((LaneOp.destroy j).ranks live) ?_ ?_ ?_ ?_ ?_
      · simp only [LaneOp.apply, hget]
        rw [(deleteStrip_lane _ hlane s.2).1, hi, List.length_eraseIdx_of_lt hj]
      · simp only [LaneOp.apply, hget, LaneOp.ranks]
        rw [map_eraseIdx_eq, hm, map_eraseIdx_eq]
      · intro x hx
        simp only [LaneOp.apply, hget] at hx
        exact hl x (List.mem_of_mem_eraseIdx hx)
      · intro r hr2
        exact hr r (List.mem_of_mem_eraseIdx hr2)
      · simp only [LaneOp.ranks]
        rw [List.length_eraseIdx_of_lt (by omega)]
        exact h8.2

theorem eraseIdx_last (l : List Nat) (a : Nat) : (l ++ [a]).eraseIdx l.length = l := by
  rw [List.eraseIdx_append_of_length_le (Nat.le_refl _)]
  simp

/-- Lanes destroyed in reverse order of construction: the ranks are `0, 1, ..., k - 1`. -/
theorem reverseOrder_ranks : ∀ (ops : List LaneOp) (live : List Nat),
    live = List.range live.length → reverseOrder ops live.length = true →
    runRanks ops live = List.range (runRanks ops live).length := by
  intro ops
  induction ops with
  | nil => intro live h _; exact h
  | cons op ops ih =>
    intro live h hr
    cases op with
    | construct n =>
      simp only [reverseOrder] at hr
      refine ih (live ++ [live.length]) ?_ ?_
      · simp only [List.length_append, List.length_singleton]
        rw [List.range_succ, ← h]
      · simpa using hr
    | destroy j =>
      simp only [reverseOrder, Bool.and_eq_true, decide_eq_true_eq] at hr
      obtain ⟨hj, hr⟩ := hr
      have e : live.eraseIdx j = List.range j := by
        rw [h, ← hj, List.range_succ]
        have := eraseIdx_last (List.range j) j
        rw [List.length_range] at this
        exact this
      refine ih (live.eraseIdx j) ?_ ?_
      · rw [e, List.length_range]
      · rw [e, List.length_range]
        have : live.length - 1 = j := by omega
        rw [this] at hr
        exact hr

/-- No construction after a destruction before all lanes are destroyed: the ranks are
pairwise distinct. -/
theorem rebuildOnly_ranks : ∀ (ops : List LaneOp) (live : List Nat) (torn : Bool),
    live.Nodup → (torn = false → live = List.range live.length) →
    atMostEight ops live.length = true → rebuildOnly ops live.length torn = true →
    (runRanks ops live).Nodup := by
  intro ops
  induction ops with
  | nil => intro live _ h _ _ _; exact h
  | cons op ops ih =>
    intro live torn hnd h h8 hr
    cases op with
    | construct n =>
      simp only [rebuildOnly, Bool.and_eq_true, Bool.not_eq_true'] at hr
      simp only [atMostEight, Bool.and_eq_true, decide_eq_true_eq] at h8
      have hl : live ++ [live.length] = List.range (live.length + 1) := by
        rw [List.range_succ, ← h hr.1]
      refine ih (live ++ [live.length]) false ?_ ?_ ?_ ?_
      · rw [hl]
        exact List.nodup_range _
      · intro _
        simp only [List.length_append, List.length_singleton]
        exact hl
      · simpa using h8.2
      · simpa using hr.2
    | destroy j =>
      simp only [rebuildOnly] at hr
      simp only [atMostEight, Bool.and_eq_true, decide_eq_true_eq] at h8
      have hlen : (live.eraseIdx j).length = live.length - 1 :=
        List.length_eraseIdx_of_lt h8.1
      refine ih (live.eraseIdx j) (decide (live.length - 1 ≠ 0)) ?_ ?_ ?_ ?_
      · exact List.Nodup.sublist (List.eraseIdx_sublist live j) hnd
      · intro ht
        have hz : (live.eraseIdx j).length = 0 := by
          simp only [decide_eq_false_iff_not, ne_eq, not_not] at ht
          omega
        rw [List.length_eq_zero.mp hz]
        rfl
      · rw [hlen]; exact h8.2
      · rw [hlen]; exact hr

theorem shiftLeft_one_injective : Function.Injective (fun r : Nat => 1 <<< r) := by
  intro a b h
  simp only [Nat.shiftLeft_eq, Nat.one_mul] at h
  exact Nat.pow_right_injective (Nat.le_refl 2) h

/-- C20 (amended): starting with no live lane, in every state reached by constructing and
destroying parallel lanes in any order with at most 8 lanes alive at once, the mask of each
live lane is the single bit `1 << r`, where `r < 8` is the rank of the lane: the number of
lanes that were alive when it was constructed. So the masks of the live lanes are pairwise
distinct exactly when their ranks are. They are pairwise distinct whenever the lanes are
destroyed in reverse order of construction, and whenever no lane is constructed after a
destruction before all lanes have been destroyed. -/
theorem C20_distinct_lane_masks (t : LedType) (d : Drivers) (ops : List LaneOp)
    (ht : t.isParallel = true) (h0 : d.instances = 0) (h8 : atMostEight ops 0 = true) :
    (runLaneOps t ops ([], d)).1.map Strip.myLaneMask
      = (runRanks ops []).map (fun r => 1 <<< r) ∧
    (∀ r ∈ runRanks ops [], r < 8) ∧
    (∀ x ∈ (runLaneOps t ops ([], d)).1, ∃ i, i < 8 ∧ x.myLaneMask = 1 <<< i) ∧
    (((runLaneOps t ops ([], d)).1.map Strip.myLaneMask).Nodup ↔ (runRanks ops []).Nodup) ∧
    (reverseOrder ops 0 = true →
      ((runLaneOps t ops ([], d)).1.map Strip.myLaneMask).Nodup) ∧
    (rebuildOnly ops 0 false = true →
      ((runLaneOps t ops ([], d)).1.map Strip.myLaneMask).Nodup) := by
  obtain ⟨hm, hr⟩ := masks_eq_ranks t ht ops ([], d) [] h0 rfl
    (fun x hx => absurd hx (List.not_mem_nil x)) (fun r hr => absurd hr (List.not_mem_nil r)) h8
  have hiff : ((runLaneOps t ops ([], d)).1.map Strip.myLaneMask).Nodup
      ↔ (runRanks ops []).Nodup := by
    rw [hm]
    exact List.nodup_map_iff shiftLeft_one_injective
  refine ⟨hm, hr, ?_, hiff, ?_, ?_⟩
  · intro x hx
    have hmem : x.myLaneMask ∈ (runLaneOps t ops ([], d)).1.map Strip.myLaneMask :=
      List.mem_map_of_mem _ hx
    rw [hm, List.mem_map] at hmem
    obtain ⟨r, hr1, hr2⟩ := hmem
    exact ⟨r, hr r hr1, hr2.symm⟩
  · intro hrev
    rw [hiff, reverseOrder_ranks ops [] rfl hrev]
    exact List.nodup_range _
  · intro hreb
    rw [hiff]
    exact rebuildOnly_ranks ops [] false List.nodup_nil (fun _ => rfl) h8 hreb

set_option maxRecDepth 100000 in
/-- C20 (amended) at the operations of two rounds of `Base::initLedStrip`, which destroys
both lanes before it constructs new ones: the live lanes have the masks 1 and 2, as have
`ledStrip1` and `ledStrip2` after two calls of `initLedStrip` in a split build. -/
theorem C20_witness :
    LedType.ws2812p.isParallel = true ∧ Drivers.initial.instances = 0 ∧
    atMostEight initLedStripOps 0 = true ∧ rebuildOnly initLedStripOps 0 false = true ∧
    ((runLaneOps .ws2812p initLedStripOps ([], Drivers.initial)).1.map
        Strip.myLaneMask).Nodup ∧
    (runLaneOps .ws2812p initLedStripOps ([], Drivers.initial)).1.map Strip.myLaneMask
      = [1, 2] ∧
    (initLedStrip (splitBuild 4 false) 6
        (initLedStrip (splitBuild 4 false) 10 World.initial)).drivers.ledStrip1.map
      Strip.myLaneMask = some 1 ∧
    (initLedStrip (splitBuild 4 false) 6
        (initLedStrip (splitBuild 4 false) 10 World.initial)).drivers.ledStrip2.map
      Strip.myLaneMask = some 2 ∧
    atMostEight gapOps 0 = true ∧ reverseOrder gapOps 0 = false ∧
    rebuildOnly gapOps 0 false = false ∧ runRanks gapOps [] = [1, 3, 2] ∧
    (runLaneOps .ws2812p gapOps ([], Drivers.initial)).1.map Strip.myLaneMask = [2, 8, 4] :=
  ⟨rfl, rfl, by decide, by decide,
    (C20_distinct_lane_masks .ws2812p Drivers.initial initLedStripOps rfl rfl
      (by decide)).2.2.2.2.2 (by decide),
    by decide, by decide, by decide, by decide, by decide, by decide, by decide, by decide⟩

/-- C20, as stated, fails: two lanes are constructed, the first is destroyed, a third is
constructed (never more than 2 alive); the two live lanes both have the mask `1 << 1`. -/
theorem C20_counterexample :
    atMostEight [.construct 1, .construct 1, .destroy 0, .construct 1] 0 = true ∧
    runRanks [.construct 1, .construct 1, .destroy 0, .construct 1] [] = [1, 1] ∧
    (runLaneOps .ws2812p [.construct 1, .construct 1, .destroy 0, .construct 1]
      ([], Drivers.initial)).1.map Strip.myLaneMask = [2, 2] := by
  decide

theorem setPixelLoopTrace_buffer (lut : List Nat) (cs : List Nat) : ∀ (target : Nat)
    (mem : List Nat), 8 * cs.length ≤ target →
    (setPixelLoopTrace lut cs (target : Int) mem).1 = setPixelLoop lut cs target mem := by
  induction cs with
  | nil => intro _ _ _; rfl
  | cons c cs ih =>
    intro target mem hT
    simp only [List.length_cons] at hT
    have e4 : ((target : Int) - 4).toNat = target - 4 := by omega
    have e8 : ((target : Int) - 8).toNat = target - 8 := by omega
    have c8 : (target : Int) - 8 = ((target - 8 : Nat) : Int) := by omega
    simp only [setPixelLoopTrace, setPixelLoop, e4, e8]
    rw [c8]
    exact ih (target - 8) _ (by omega)

theorem setPixelLoopTrace_words (lut : List Nat) (cs : List Nat) : ∀ (target : Int)
    (mem : List Nat),
    (setPixelLoopTrace lut cs target mem).2.length = 2 * cs.length ∧
    ∀ o ∈ (setPixelLoopTrace lut cs target mem).2,
      target - 8 * (cs.length : Int) ≤ o ∧ o + 4 ≤ target ∧ (target % 4 = 0 → o % 4 = 0) := by
  induction cs with
  | nil =>
    intro target mem
    exact ⟨rfl, fun o ho => by simp [setPixelLoopTrace] at ho⟩
  | cons c cs ih =>
    intro target mem
    obtain ⟨hl, hw⟩ := ih (target - 8)
      (orWord32 (orWord32 mem (target - 4).toNat (lutAt lut ((c % 256) &&& 0b00001111)))
        (target - 8).toNat (lutAt lut ((c % 256) >>> 4)))
    simp only [setPixelLoopTrace, List.length_cons, List.mem_cons]
    refine ⟨by rw [hl]; omega, ?_⟩
    intro o ho
    have hc : ((cs.length + 1 : Nat) : Int) = (cs.length : Int) + 1 := by push_cast; rfl
    rcases ho with h | h | h
    · subst h
      refine ⟨by omega, by omega, fun h4 => by omega⟩
    · subst h
      refine ⟨by omega, by omega, fun h4 => by omega⟩
    · obtain ⟨a, b2, c2⟩ := hw o h
      refine ⟨by omega, by omega, fun h4 => c2 (by omega)⟩

theorem setPixelLoop_outside (lut : List Nat) (cs : List Nat) : ∀ (target : Nat)
    (mem : List Nat) (p : Nat), 8 * cs.length ≤ target →
    (p < target - 8 * cs.length ∨ target ≤ p) →
    (setPixelLoop lut cs target mem).getD p 0 = mem.getD p 0 := by
  induction cs with
  | nil => intro _ _ _ _ _; rfl
  | cons c cs ih =>
    intro target mem p hT hp
    simp only [List.length_cons] at hT hp
    simp only [setPixelLoop]
    rw [ih (target - 8) _ p (by omega) (by omega), getD_orWord32, if_neg (by omega),
      getD_orWord32, if_neg (by omega)]

theorem length_colorBytes (l : ColorLayout) (c : ColorDefinition) :
    (colorBytes l c).length = sizeofColor l := by
  cases l <;> rfl

/-- C21: `NeopixelParallelType::SetPixel` on a shared buffer of `maxLeds * 8 * s` bytes, for a
colour of `s` bytes and an index `0 ≤ index`. For `index < maxLeds` it dereferences `2 * s`
words; each lies at a byte offset `o` with `index*8*s ≤ o` and `o + 4 ≤ (index+1)*8*s`, is
4-aligned and ends inside the buffer; no byte outside `[index*8*s, (index+1)*8*s)` changes and
the length of the buffer is kept. For `index ≥ maxLeds` no word is dereferenced and the buffer
is unchanged. The buffer that the `NeopixelParallel` constructor installs has
`maxLeds * 8 * sizeof(colorData)` bytes. -/
theorem C21_SetPixel_in_bounds (maxLeds : Nat) (lut buffer : List Nat) (index s : Nat)
    (color : List Nat) (hs : color.length = s) (hbuf : buffer.length = maxLeds * 8 * s) :
    (NeopixelParallelType.SetPixelTrace maxLeds lut buffer index color).1
      = NeopixelParallelType.SetPixel maxLeds lut buffer index color ∧
    (index < maxLeds →
      (NeopixelParallelType.SetPixelTrace maxLeds lut buffer index color).2.length = 2 * s ∧
      ∀ o ∈ (NeopixelParallelType.SetPixelTrace maxLeds lut buffer index color).2,
        ((index * 8 * s : Nat) : Int) ≤ o ∧ o + 4 ≤ (((index + 1) * 8 * s : Nat) : Int) ∧
        o + 4 ≤ (buffer.length : Int) ∧ o % 4 = 0) ∧
    (maxLeds ≤ index →
      NeopixelParallelType.SetPixelTrace maxLeds lut buffer index color = (buffer, [])) ∧
    (NeopixelParallelType.SetPixel maxLeds lut buffer index color).length = buffer.length ∧
    (∀ p, (p < index * 8 * s ∨ (index + 1) * 8 * s ≤ p) →
      (NeopixelParallelType.SetPixel maxLeds lut buffer index color).getD p 0
        = buffer.getD p 0) ∧
    (∀ (t : LedType) (n : Nat) (d : Drivers), t.isParallel = true →
      ∃ m, (newStrip t n d).2.muxer = some m ∧
        m.buffer.length = (newStrip t n d).2.maxLeds * 8 * sizeofColor t.colorData) := by
  subst hs
  have hT : (index + 1) * 8 * color.length = index * 8 * color.length + 8 * color.length := by
    ring
  refine ⟨?_, ?_, ?_, length_SetPixel _ _ _ _ _, ?_, ?_⟩
  · unfold NeopixelParallelType.SetPixelTrace NeopixelParallelType.SetPixel
    split
    · rfl
    · exact setPixelLoopTrace_buffer lut color _ buffer (by omega)
  · intro hidx
    have hle : (index + 1) * 8 * color.length ≤ maxLeds * 8 * color.length :=
      Nat.mul_le_mul_right _ (Nat.mul_le_mul_right _ hidx)
    unfold NeopixelParallelType.SetPixelTrace
    rw [if_neg (by omega)]
    obtain ⟨hl, hw⟩ := setPixelLoopTrace_words lut color
      (((index + 1) * 8 * color.length : Nat) : Int) buffer
    refine ⟨hl, ?_⟩
    intro o ho
    obtain ⟨a, b, c⟩ := hw o ho
    have h8 : (((index + 1) * 8 * color.length : Nat) : Int) % 4 = 0 := by
      have e : (index + 1) * 8 * color.length = 4 * (2 * (index + 1) * color.length) := by ring
      rw [e]
      omega
    refine ⟨by omega, b, by omega, c h8⟩
  · intro hidx
    unfold NeopixelParallelType.SetPixelTrace
    rw [if_pos hidx]
  · intro p hp
    unfold NeopixelParallelType.SetPixel
    split
    · rfl
    · exact setPixelLoop_outside lut color _ buffer p (by omega) (by omega)
  · intro t n d ht
    obtain ⟨_, _, n3, n4⟩ := newStrip_parallel t ht n d
    refine ⟨_, n4, ?_⟩
    rw [n3, LedDriver_new_buffer _ _ (lane_buffer_size_mod _ _)]

/-- C21 at lane 0, pixel 1 of 2, colour `01 02 03`: the six words are at the offsets
44, 40, ..., 24, inside `[24, 48)`. -/
theorem C21_witness :
    [1, 2, 3].length = 3 ∧ (List.replicate 48 0).length = 2 * 8 * 3 ∧ 1 < 2 ∧
    (NeopixelParallelType.SetPixelTrace 2 (lutMemory (laneMask 0)) (List.replicate 48 0) 1
      [1, 2, 3]).2 = [44, 40, 36, 32, 28, 24] ∧
    ((NeopixelParallelType.SetPixelTrace 2 (lutMemory (laneMask 0)) (List.replicate 48 0) 1
        [1, 2, 3]).2.length = 2 * 3 ∧
      ∀ o ∈ (NeopixelParallelType.SetPixelTrace 2 (lutMemory (laneMask 0))
          (List.replicate 48 0) 1 [1, 2, 3]).2,
        ((1 * 8 * 3 : Nat) : Int) ≤ o ∧ o + 4 ≤ (((1 + 1) * 8 * 3 : Nat) : Int) ∧
        o + 4 ≤ ((List.replicate 48 0).length : Int) ∧ o % 4 = 0) :=
  ⟨rfl, rfl, by decide, by decide,
    (C21_SetPixel_in_bounds 2 (lutMemory (laneMask 0)) (List.replicate 48 0) 1 3 [1, 2, 3]
      rfl rfl).2.1 (by decide)⟩

theorem testBit_mod_256 (x bit : Nat) (h : bit < 8) : (x % 256).testBit bit = x.testBit bit := by
  have e : (256 : Nat) = 2 ^ 8 := by norm_num
  rw [e, Nat.testBit_mod_two_pow]
  simp [h]

theorem BitsKept_refl (l : List Nat) : BitsKept l l := fun _ _ _ h => h

theorem BitsKept_trans (a b c : List Nat) (h1 : BitsKept a b) (h2 : BitsKept b c) :
    BitsKept a c := fun p bit hb h => h2 p bit hb (h1 p bit hb h)

theorem orWord32_keeps (mem : List Nat) (off w : Nat) : BitsKept mem (orWord32 mem off w) := by
  intro p bit hb h
  rw [getD_orWord32]
  split
  · rw [Nat.testBit_or, testBit_mod_256 _ _ hb, h]
    rfl
  · exact h

theorem setPixelLoop_keeps (lut : List Nat) (cs : List Nat) : ∀ (target : Nat) (mem : List Nat),
    BitsKept mem (setPixelLoop lut cs target mem) := by
  induction cs with
  | nil => intro _ mem; exact BitsKept_refl mem
  | cons c cs ih =>
    intro target mem
    simp only [setPixelLoop]
    exact BitsKept_trans _ _ _ (orWord32_keeps _ _ _)
      (BitsKept_trans _ _ _ (orWord32_keeps _ _ _) (ih _ _))

theorem SetPixel_keeps (maxLeds : Nat) (lut buffer : List Nat) (index : Nat) (color : List Nat) :
    BitsKept buffer (NeopixelParallelType.SetPixel maxLeds lut buffer index color) := by
  unfold NeopixelParallelType.SetPixel
  split
  · exact BitsKept_refl _
  · exact setPixelLoop_keeps _ _ _ _

theorem SetPixel_idem (maxLeds mask : Nat) (buffer : List Nat) (index : Nat) (c : List Nat) :
    NeopixelParallelType.SetPixel maxLeds (lutMemory mask)
        (NeopixelParallelType.SetPixel maxLeds (lutMemory mask) buffer index c) index c
      = NeopixelParallelType.SetPixel maxLeds (lutMemory mask) buffer index c := by
  apply ext_getD
  · simp only [length_SetPixel]
  · intro p
    rw [getD_SetPixel, length_SetPixel, getD_SetPixel]
    have v := laneBits_lt mask c ((index + 1) * 8 * c.length) p
    split
    · rw [or_mod_256 _ _ v, Nat.or_assoc, Nat.or_self]
    · rfl

theorem cell_or (m : Nat) (x y : Bool) :
    (if (x || y) = true then m else 0) = (if x = true then m else 0) ||| (if y = true then m else 0) := by
  cases x <;> cases y <;> simp

theorem testBit_low_nibble_or (a b k : Nat) :
    (((a ||| b) % 256) &&& 0b00001111).testBit k
      = (((a % 256) &&& 0b00001111).testBit k || ((b % 256) &&& 0b00001111).testBit k) := by
  have e : (256 : Nat) = 2 ^ 8 := by norm_num
  simp only [e, Nat.testBit_and, Nat.testBit_mod_two_pow, Nat.testBit_or]
  cases decide (k < 8) <;> cases a.testBit k <;> cases b.testBit k <;>
    cases Nat.testBit 15 k <;> rfl

theorem testBit_high_nibble_or (a b k : Nat) :
    (((a ||| b) % 256) >>> 4).testBit k
      = (((a % 256) >>> 4).testBit k || ((b % 256) >>> 4).testBit k) := by
  have e : (256 : Nat) = 2 ^ 8 := by norm_num
  simp only [e, Nat.testBit_shiftRight, Nat.testBit_mod_two_pow, Nat.testBit_or]
  cases decide (4 + k < 8) <;> cases a.testBit (4 + k) <;> cases b.testBit (4 + k) <;> rfl

theorem laneBits_orBytes (mask : Nat) : ∀ (c1 c2 : List Nat) (target p : Nat),
    c1.length = c2.length →
    laneBits mask (orBytes c1 c2) target p
      = laneBits mask c1 target p ||| laneBits mask c2 target p := by
  intro c1
  induction c1 with
  | nil =>
    intro c2 target p h
    cases c2 with
    | nil => simp [orBytes, laneBits]
    | cons _ _ => simp at h
  | cons a c1 ih =>
    intro c2 target p h
    cases c2 with
    | nil => simp at h
    | cons b c2 =>
      simp only [List.length_cons, Nat.add_right_cancel_iff] at h
      simp only [orBytes, List.zipWith_cons_cons, laneBits]
      split
      · rw [testBit_low_nibble_or, cell_or]
      · split
        · rw [testBit_high_nibble_or, cell_or]
        · exact ih c2 _ _ h

theorem length_orBytes (c1 c2 : List Nat) (h : c1.length = c2.length) :
    (orBytes c1 c2).length = c1.length := by
  simp [orBytes, h]

theorem SetPixel_or (maxLeds mask : Nat) (buffer : List Nat) (index : Nat) (c1 c2 : List Nat)
    (h : c1.length = c2.length) :
    NeopixelParallelType.SetPixel maxLeds (lutMemory mask)
        (NeopixelParallelType.SetPixel maxLeds (lutMemory mask) buffer index c1) index c2
      = NeopixelParallelType.SetPixel maxLeds (lutMemory mask) buffer index (orBytes c1 c2) := by
  apply ext_getD
  · simp only [length_SetPixel]
  · intro p
    rw [getD_SetPixel, length_SetPixel, getD_SetPixel, getD_SetPixel, length_orBytes c1 c2 h,
      ← h, laneBits_orBytes mask c1 c2 _ _ h]
    have v := laneBits_lt mask c1 ((index + 1) * 8 * c1.length) p
    split
    · rw [or_mod_256 _ _ v, Nat.or_assoc]
    · rfl

theorem stripSetPixel_keeps (k i : Nat) (c : ColorDefinition) (d : Drivers) :
    BitsKept (sharedBuffer d) (sharedBuffer (stripSetPixel k i c d)) := by
  unfold stripSetPixel
  simp only
  split
  · by_cases hk : k = 1 <;> simp only [hk, if_true, if_false] <;> exact BitsKept_refl _
  · by_cases hk : k = 1 <;> simp only [hk, if_true, if_false] <;> exact BitsKept_refl _
  · split
    · rename_i hm
      simp only [sharedBuffer, hm]
      exact SetPixel_keeps _ _ _ _ _
    · exact BitsKept_refl _
  · exact BitsKept_refl _

theorem routePixel_keeps (b : Build) (n pix : Nat) (c : ColorDefinition) (d : Drivers) :
    BitsKept (sharedBuffer d) (sharedBuffer (routePixel b n pix c d)) := by
  unfold routePixel
  split
  · split
    · exact stripSetPixel_keeps _ _ _ _
    · split <;> exact stripSetPixel_keeps _ _ _ _
  · exact stripSetPixel_keeps _ _ _ _

theorem setStripPixel_keeps (b : Build) (pix : Nat) (c : ColorDefinition) (w : World) :
    BitsKept (sharedBuffer w.drivers) (sharedBuffer (setStripPixel b pix c w).2.drivers) := by
  unfold setStripPixel
  simp only
  split
  · exact routePixel_keeps _ _ _ _ _
  · exact BitsKept_refl _

theorem renderAllLanes_reset (env : Env) (d : Drivers) :
    (d.isDmaBusy = true → renderAllLanes env d = d) ∧
    ((renderAllLanes env d).muxer = d.muxer ∨ ResetByTransfer d (renderAllLanes env d)) := by
  unfold renderAllLanes
  split
  · rename_i t n mk lut m h1 hm
    by_cases hb : d.isDmaBusy = true
    · have e : renderDma env t.RESET_TIME true m d = (m, d) := by
        simp only [renderDma, hb, if_true]
      refine ⟨fun _ => ?_, Or.inl ?_⟩
      · rw [e]
        simp only [← hm]
      · rw [e]
        exact hm.symm
    · have hb2 : d.isDmaBusy = false := by simpa using hb
      refine ⟨fun h => absurd h hb, Or.inr ⟨m, hm, ?_, ?_⟩⟩
      · simp only [renderDma, hb2, Bool.false_eq_true, if_false, if_true]
      · exact renderDma_dmaStarts env t.RESET_TIME true m d hb2
  · exact ⟨fun _ => rfl, Or.inl rfl⟩

theorem renderDma_muxer (env : Env) (resetTime : Nat) (resetBuffer : Bool) (m : LedDriver)
    (d : Drivers) : (renderDma env resetTime resetBuffer m d).2.muxer = d.muxer := by
  unfold renderDma
  split <;> rfl

theorem renderSingleLane_muxer (env : Env) (d : Drivers) :
    (renderSingleLane env d).muxer = d.muxer := by
  unfold renderSingleLane
  split
  · exact renderDma_muxer _ _ _ _ _
  · exact renderDma_muxer _ _ _ _ _
  · rfl

theorem ResetByTransfer_isReadyBlocking (env : Env) (d d2 : Drivers)
    (h : ResetByTransfer (isReadyBlocking env d).2 d2) : ResetByTransfer d d2 := by
  obtain ⟨m, hm, h2, h3⟩ := h
  obtain ⟨_, e2, _, e4⟩ := isReadyBlocking_strips env d
  exact ⟨m, by rw [← e2]; exact hm, h2, by rw [← e4]; exact h3⟩

/-- What `Base::renderLeds` does to the shared buffer: nothing, or `renderAllLanes` has
started a transfer of its content and zeroed it. -/
theorem renderLeds_reset (b : Build) (env : Env) (nf : Bool) (w : World) :
    (renderLeds b env nf w).drivers.muxer = w.drivers.muxer ∨
    (b.SECOND_SEGMENT_START_INDEX ≠ none ∧
      ResetByTransfer w.drivers (renderLeds b env nf w).drivers) := by
  have key : ∀ d : Drivers, (displaySegments b env (isReadyBlocking env d).2).muxer = d.muxer ∨
      (b.SECOND_SEGMENT_START_INDEX ≠ none ∧
        ResetByTransfer d (displaySegments b env (isReadyBlocking env d).2)) := by
    intro d
    unfold displaySegments
    cases hS : b.SECOND_SEGMENT_START_INDEX with
    | none =>
      left
      simp only
      rw [renderSingleLane_muxer, (isReadyBlocking_strips env d).2.1]
    | some start =>
      simp only
      rcases (renderAllLanes_reset env (isReadyBlocking env d).2).2 with h | h
      · left
        rw [h, (isReadyBlocking_strips env d).2.1]
      · right
        exact ⟨by simp, ResetByTransfer_isReadyBlocking env d _ h⟩
  unfold renderLeds
  cases nf <;> simp only [Bool.false_eq_true, if_false, if_true]
  · split
    · split
      · exact key w.drivers
      · left
        exact (isReadyBlocking_strips env w.drivers).2.1
    · left; rfl
  · split
    · split
      · exact key w.drivers
      · left
        exact (isReadyBlocking_strips env w.drivers).2.1
    · left; rfl

theorem sharedBuffer_congr (d1 d2 : Drivers) (h : d2.muxer = d1.muxer) :
    BitsKept (sharedBuffer d1) (sharedBuffer d2) := by
  unfold sharedBuffer
  rw [h]
  exact BitsKept_refl _

/-- What one decoder step does to the shared buffer: it keeps every bit, or the render
request of the step has started a transfer and zeroed the buffer, or the step has called
`initLedStrip`, which deletes the strips and constructs new ones. -/
theorem step_reset (b : Build) (env : Env) (w : World) (x : Nat) :
    BitsKept (sharedBuffer w.drivers) (sharedBuffer (step b env w x).drivers) ∨
    (w.frameState.state = .FINAL ∧ b.SECOND_SEGMENT_START_INDEX ≠ none ∧
      ResetByTransfer w.drivers (step b env w x).drivers) ∨
    (w.frameState.state = .HEADER_CRC ∧
      (step b env w x).calls
        = w.calls ++ [Call.initLedStrip ((w.frameState.count + 1) % 65536)]) := by
  unfold step
  cases h : w.frameState.state <;> simp only
  case HEADER_A => left; split <;> exact BitsKept_refl _
  case HEADER_d => left; split <;> exact BitsKept_refl _
  case HEADER_a => left; split <;> exact BitsKept_refl _
  case HEADER_HI => left; exact BitsKept_refl _
  case HEADER_LO => left; exact BitsKept_refl _
  case HEADER_CRC =>
    split
    · split
      · left; exact BitsKept_refl _
      · split
        · right; right; exact ⟨trivial, rfl⟩
        · left; exact BitsKept_refl _
    · left; exact BitsKept_refl _
  case RED => left; exact BitsKept_refl _
  case GREEN => left; exact BitsKept_refl _
  case BLUE =>
    left
    split <;> exact setStripPixel_keeps b _ _ _
  case FINAL =>
    rcases renderLeds_reset b env true
      { w with statistics := { w.statistics with goodFrames := w.statistics.goodFrames + 1 } }
      with hr | hr
    · left
      exact sharedBuffer_congr _ _ hr
    · right; left
      exact ⟨trivial, hr⟩

/-- C22: `NeopixelParallelType::SetPixel`, with the table of a lane mask, only sets bits. A
second call with the same index and colour changes nothing; no call clears a bit of the
buffer; a call with `c1` followed by a call with `c2` at the same index gives the buffer of
one call with the bytewise OR of `c1` and `c2`. `Base::setStripPixel` keeps every bit of the
shared buffer; `renderAllLanes` on a busy channel does nothing, otherwise it leaves `muxer`
as it is or it has started a transfer of the buffer and zeroed it; so does
`Base::renderLeds`; a decoder step keeps every bit of the shared buffer unless its render
request has started such a transfer or it has called `initLedStrip` (new strips with a new
buffer). -/
theorem C22_SetPixel_only_sets_bits (maxLeds mask : Nat) (lut buffer : List Nat) (index : Nat)
    (c1 c2 : List Nat) (b : Build) (env : Env) (newFrame : Bool) (w : World) (pix : Nat)
    (c : ColorDefinition) (x : Nat) (d : Drivers) (hlen : c1.length = c2.length) :
    NeopixelParallelType.SetPixel maxLeds (lutMemory mask)
        (NeopixelParallelType.SetPixel maxLeds (lutMemory mask) buffer index c1) index c1
      = NeopixelParallelType.SetPixel maxLeds (lutMemory mask) buffer index c1 ∧
    BitsKept buffer (NeopixelParallelType.SetPixel maxLeds lut buffer index c1) ∧
    NeopixelParallelType.SetPixel maxLeds (lutMemory mask)
        (NeopixelParallelType.SetPixel maxLeds (lutMemory mask) buffer index c1) index c2
      = NeopixelParallelType.SetPixel maxLeds (lutMemory mask) buffer index (orBytes c1 c2) ∧
    BitsKept (sharedBuffer w.drivers) (sharedBuffer (setStripPixel b pix c w).2.drivers) ∧
    (d.isDmaBusy = true → renderAllLanes env d = d) ∧
    ((renderAllLanes env d).muxer = d.muxer ∨ ResetByTransfer d (renderAllLanes env d)) ∧
    ((renderLeds b env newFrame w).drivers.muxer = w.drivers.muxer ∨
      (b.SECOND_SEGMENT_START_INDEX ≠ none ∧
        ResetByTransfer w.drivers (renderLeds b env newFrame w).drivers)) ∧
    (BitsKept (sharedBuffer w.drivers) (sharedBuffer (step b env w x).drivers) ∨
      (w.frameState.state = .FINAL ∧ b.SECOND_SEGMENT_START_INDEX ≠ none ∧
        ResetByTransfer w.drivers (step b env w x).drivers) ∨
      (w.frameState.state = .HEADER_CRC ∧
        (step b env w x).calls
          = w.calls ++ [Call.initLedStrip ((w.frameState.count + 1) % 65536)])) :=
  ⟨SetPixel_idem maxLeds mask buffer index c1, SetPixel_keeps maxLeds lut buffer index c1,
    SetPixel_or maxLeds mask buffer index c1 c2 hlen, setStripPixel_keeps b pix c w,
    (renderAllLanes_reset env d).1, (renderAllLanes_reset env d).2,
    renderLeds_reset b env newFrame w, step_reset b env w x⟩

/-- C22 on lane 2 with the colour bytes `05` and `A0` at pixel 0 of a zeroed buffer: the two
calls leave the cells of `A5`. -/
theorem C22_witness :
    [0x05].length = [0xA0].length ∧
    NeopixelParallelType.SetPixel 1 (lutMemory (laneMask 2))
        (NeopixelParallelType.SetPixel 1 (lutMemory (laneMask 2)) (List.replicate 8 0) 0 [0x05])
        0 [0xA0]
      = [0, 4, 0, 4, 4, 0, 4, 0] ∧
    orBytes [0x05] [0xA0] = [0xA5] :=
  ⟨rfl,
    ((C22_SetPixel_only_sets_bits 1 (laneMask 2) (lutMemory (laneMask 2)) (List.replicate 8 0)
      0 [0x05] [0xA0] singleBuild (idleEnv 0) true World.initial 0 ⟨0, 0, 0, 0⟩ 0
      Drivers.initial rfl).2.2.1).trans (by decide),
    by decide⟩

theorem length_writeBytes : ∀ (bs : List Nat) (mem : List Nat) (off : Nat),
    (writeBytes mem off bs).length = mem.length := by
  intro bs
  induction bs with
  | nil => intro _ _; rfl
  | cons b bs ih =>
    intro mem off
    simp only [writeBytes, ih, List.length_set]

theorem getD_writeBytes : ∀ (bs : List Nat) (mem : List Nat) (off p : Nat),
    (writeBytes mem off bs).getD p 0
      = if off ≤ p ∧ p < off + bs.length ∧ p < mem.length then bs.getD (p - off) 0 % 256
        else mem.getD p 0 := by
  intro bs
  induction bs with
  | nil =>
    intro mem off p
    simp only [writeBytes, List.length_nil, Nat.add_zero]
    rw [if_neg (by omega)]
  | cons b bs ih =>
    intro mem off p
    simp only [writeBytes, List.length_cons]
    rw [ih, List.length_set, getD_set]
    by_cases h0 : off = p
    · subst h0
      by_cases hl : off < mem.length
      · rw [if_neg (by omega), if_pos ⟨rfl, hl⟩, if_pos (by omega)]
        simp
      · rw [if_neg (by omega), if_neg (by omega), if_neg (by omega)]
    · by_cases h1 : off + 1 ≤ p ∧ p < off + 1 + bs.length ∧ p < mem.length
      · rw [if_pos h1, if_pos (by omega)]
        have e : p - off = (p - (off + 1)) + 1 := by omega
        rw [e, List.getD_cons_succ]
      · rw [if_neg h1, if_neg (by omega), if_neg (by omega)]

theorem length_memsetZero (dst : List Nat) (n : Nat) : (memsetZero dst n).length = dst.length := by
  simp only [memsetZero, List.length_append, List.length_replicate, List.length_drop]
  omega

theorem getD_memsetZero (dst : List Nat) (n p : Nat) :
    (memsetZero dst n).getD p 0 = if p < n then 0 else dst.getD p 0 := by
  unfold memsetZero
  simp only [List.getD_eq_getElem?_getD, List.getElem?_append, List.length_replicate,
    List.getElem?_replicate, List.getElem?_drop]
  by_cases hp : p < n
  · by_cases hl : p < dst.length
    · rw [if_pos (by omega), if_pos (by omega), if_pos hp]
      rfl
    · rw [if_neg (by omega), if_pos hp, List.getElem?_eq_none (by omega)]
      rfl
  · rw [if_neg (by omega), if_neg hp]
    by_cases hl : n ≤ dst.length
    · congr 2
      omega
    · rw [List.getElem?_eq_none (by omega), List.getElem?_eq_none (by omega)]

theorem memcpy_all (dst src : List Nat) (n : Nat) (hs : src.length = n) (hd : dst.length = n) :
    memcpy dst src n = src := by
  unfold memcpy
  rw [List.take_of_length_le (by omega), List.drop_of_length_le (by omega), List.append_nil]

theorem getD_take_drop (l : List Nat) (a n k : Nat) :
    ((l.drop a).take n).getD k 0 = if k < n then l.getD (a + k) 0 else 0 := by
  simp only [List.getD_eq_getElem?_getD, List.getElem?_take, List.getElem?_drop]
  split <;> rfl

theorem flatMap_pixelWord (buffer : List Nat) : ∀ n : Nat,
    (List.range n).flatMap (pixelWord buffer) = (buffer.drop 4).take (4 * n) := by
  intro n
  induction n with
  | zero => simp
  | succ n ih =>
    rw [List.range_succ, List.flatMap_append, ih]
    simp only [List.flatMap_cons, List.flatMap_nil, List.append_nil, pixelWord]
    have e : 4 * (n + 1) = 4 * n + 4 := by ring
    rw [e, List.take_add, List.drop_drop]
    congr 3
    omega

theorem getD_dotstarFrame (n : Nat) (buffer : List Nat) (h : buffer.length = 4 * (n + 2))
    (p : Nat) :
    (dotstarFrame n buffer).getD p 0
      = if p < 4 then 0 else if p < 4 * (n + 1) then buffer.getD p 0
        else if p < 4 * (n + 2) then 0xFF else 0 := by
  unfold dotstarFrame
  rw [flatMap_pixelWord]
  have hl : ((buffer.drop 4).take (4 * n)).length = 4 * n := by
    simp only [List.length_take, List.length_drop]
    omega
  simp only [List.getD_eq_getElem?_getD, List.getElem?_append, List.length_append, hl,
    List.length_cons, List.length_nil]
  by_cases h1 : p < 4
  · rw [if_pos (by omega), if_pos h1, if_pos h1]
    interval_cases p <;> rfl
  · by_cases h2 : p < 4 * (n + 1)
    · rw [if_pos (by omega), if_neg h1, if_neg h1, if_pos h2, List.getElem?_take,
        if_pos (by omega), List.getElem?_drop]
      congr 2
      omega
    · rw [if_neg (by omega), if_neg h1, if_neg h2]
      by_cases h3 : p < 4 * (n + 2)
      · rw [if_pos h3]
        have : p - (0 + 1 + 1 + 1 + 1 + 4 * n) < 4 := by omega
        generalize p - (0 + 1 + 1 + 1 + 1 + 4 * n) = q at this
        interval_cases q <;> rfl
      · rw [if_neg h3]
        have : 4 ≤ p - (0 + 1 + 1 + 1 + 1 + 4 * n) := by omega
        generalize p - (0 + 1 + 1 + 1 + 1 + 4 * n) = q at this
        rw [List.getElem?_eq_none (by simpa using this)]
        rfl

theorem colorBytes_lt (l : ColorLayout) (c : ColorDefinition) :
    ∀ x ∈ colorBytes l c, x < 256 := by
  intro x hx
  cases l <;> simp only [colorBytes, List.mem_cons, List.mem_singleton, List.not_mem_nil,
    or_false] at hx <;> omega

theorem getD_of_length_le (l : List Nat) (p : Nat) (h : l.length ≤ p) : l.getD p 0 = 0 := by
  simp only [List.getD_eq_getElem?_getD, List.getElem?_eq_none h, Option.getD_none]

/-- The buffer that `DotstarType::renderSingleLane` hands to `renderDma`. -/
theorem dotstar_render_buffer (n : Nat) (buffer : List Nat) (h : buffer.length = 4 * (n + 2)) :
    writeBytes (memsetZero buffer 4) ((n + 1) * 4) [255, 255, 255, 255]
      = dotstarFrame n buffer := by
  apply ext_getD
  · rw [length_writeBytes, length_memsetZero, h]
    unfold dotstarFrame
    rw [flatMap_pixelWord]
    simp only [List.length_append, List.length_take, List.length_drop, List.length_cons,
      List.length_nil]
    omega
  · intro p
    rw [getD_writeBytes, getD_memsetZero, length_memsetZero, getD_dotstarFrame n buffer h]
    simp only [List.length_cons, List.length_nil]
    by_cases h1 : p < 4
    · rw [if_neg (by omega), if_pos h1, if_pos h1]
    · by_cases h2 : p < 4 * (n + 1)
      · rw [if_neg (by omega), if_neg h1, if_neg h1, if_pos h2]
      · by_cases h3 : p < 4 * (n + 2)
        · rw [if_pos (by omega), if_neg h1, if_neg h2, if_pos h3]
          have : p - (n + 1) * 4 < 4 := by omega
          generalize p - (n + 1) * 4 = q at this
          interval_cases q <;> rfl
        · rw [if_neg (by omega), if_neg h1, if_neg h1, if_neg h2, if_neg h3]
          exact getD_of_length_le _ _ (by omega)

theorem pixelWord_writeBytes (buffer : List Nat) (index : Nat) (bs : List Nat)
    (hl : bs.length = 4) (hb : ∀ x ∈ bs, x < 256)
    (h : 4 * (index + 1) + 4 ≤ buffer.length) :
    pixelWord (writeBytes buffer ((index + 1) * 4) bs) index = bs := by
  apply ext_getD
  · simp only [pixelWord, List.length_take, List.length_drop, length_writeBytes]
    omega
  · intro k
    unfold pixelWord
    rw [getD_take_drop, getD_writeBytes]
    by_cases hk : k < 4
    · rw [if_pos hk, if_pos (by omega)]
      have e : 4 * (index + 1) + k - (index + 1) * 4 = k := by omega
      rw [e]
      exact Nat.mod_eq_of_lt (getD_lt_256 bs hb k)
    · rw [if_neg hk]
      exact (getD_of_length_le _ _ (by omega)).symm

/-- C23: a `DotstarType` strip (`apa102`) of `n` pixels, with the two blocks of `4 * (n + 2)`
bytes that its constructor allocates. `SetPixel(index, c)` with `0 ≤ index < n` stores the
four bytes of `c` as pixel word `index`, at the offsets `4*(index+1) .. 4*(index+1)+3`; every
other byte, the start frame (offsets below 4) and the end frame (offsets from `4*(n+1)`)
included, keeps its value, and so do the sizes. For `index ≥ n` the object is unchanged.
`renderSingleLane` on an idle channel starts one transfer; its data is 4 zero bytes, the `n`
pixel words of the buffer in index order, and 4 bytes `0xFF`. -/
theorem C23_dotstar_frame (n : Nat) (m : LedDriver) (index : Nat) (c : ColorDefinition)
    (env : Env) (d : Drivers)
    (hn : m.ledsNumber = n) (hsize : m.dmaSize = 4 * (n + 2))
    (hbuf : m.buffer.length = 4 * (n + 2)) (hdma : m.dma.length = 4 * (n + 2))
    (hstrip : d.ledStrip1 = some (Strip.dotstar .apa102 m)) (hidle : d.isDmaBusy = false) :
    (index < n →
      pixelWord (DotstarType.SetPixel m index (colorBytes .ColorDotstartBgr c)).buffer index
        = colorBytes .ColorDotstartBgr c ∧
      (∀ p, (p < 4 * (index + 1) ∨ 4 * (index + 1) + 4 ≤ p) →
        (DotstarType.SetPixel m index (colorBytes .ColorDotstartBgr c)).buffer.getD p 0
          = m.buffer.getD p 0) ∧
      (∀ p, (p < 4 ∨ 4 * (n + 1) ≤ p) →
        (DotstarType.SetPixel m index (colorBytes .ColorDotstartBgr c)).buffer.getD p 0
          = m.buffer.getD p 0)) ∧
    (n ≤ index → DotstarType.SetPixel m index (colorBytes .ColorDotstartBgr c) = m) ∧
    ((DotstarType.SetPixel m index (colorBytes .ColorDotstartBgr c)).buffer.length
        = 4 * (n + 2) ∧
      (DotstarType.SetPixel m index (colorBytes .ColorDotstartBgr c)).ledsNumber = n ∧
      (DotstarType.SetPixel m index (colorBytes .ColorDotstartBgr c)).dmaSize = 4 * (n + 2) ∧
      (DotstarType.SetPixel m index (colorBytes .ColorDotstartBgr c)).dma = m.dma) ∧
    dmaStarts (renderSingleLane env d).hw = dmaStarts d.hw ++ [dotstarFrame n m.buffer] ∧
    (newStrip .apa102 n d).1
      = Strip.dotstar .apa102 { ledsNumber := n, dmaSize := 4 * (n + 2),
                                buffer := List.replicate (4 * (n + 2)) 0,
                                dma := List.replicate (4 * (n + 2)) 0 } := by
  have hlen : (colorBytes .ColorDotstartBgr c).length = 4 := rfl
  have frame : ∀ p, (p < 4 * (index + 1) ∨ 4 * (index + 1) + 4 ≤ p) →
      (DotstarType.SetPixel m index (colorBytes .ColorDotstartBgr c)).buffer.getD p 0
        = m.buffer.getD p 0 := by
    intro p hp
    unfold DotstarType.SetPixel
    split
    · rfl
    · simp only [getD_writeBytes, hlen]
      rw [if_neg (by omega)]
  refine ⟨?_, ?_, ?_, ?_, ?_⟩
  · intro hidx
    refine ⟨?_, frame, fun p hp => frame p (by omega)⟩
    unfold DotstarType.SetPixel
    rw [if_neg (by omega)]
    simp only [hlen]
    exact pixelWord_writeBytes m.buffer index _ hlen (colorBytes_lt _ c) (by omega)
  · intro hidx
    unfold DotstarType.SetPixel
    rw [if_pos (by omega)]
  · unfold DotstarType.SetPixel
    split
    · exact ⟨hbuf, hn, hsize, rfl⟩
    · exact ⟨by simp only [length_writeBytes, hbuf], hn, hsize, rfl⟩
  · simp only [renderSingleLane, hstrip]
    rw [renderDma_dmaStarts _ _ _ _ _ hidle]
    have hc : colorBytes (LedType.apa102).colorData (ColorDotstartBgr.ofGray 0xff)
        = [255, 255, 255, 255] := by decide
    have hs : sizeofColor (LedType.apa102).colorData = 4 := rfl
    simp only [hc, hs, hn, hsize]
    rw [dotstar_render_buffer n m.buffer hbuf, memcpy_all _ _ _ _ hdma]
    rw [← dotstar_render_buffer n m.buffer hbuf, length_writeBytes, length_memsetZero, hbuf]
  · have e : (n + 2) * 4 = 4 * (n + 2) := by ring
    simp only [newStrip, LedDriver.new, LedType.colorData, sizeofColor, e]
    have h4 : (4 * (n + 2)) % 4 = 0 := Nat.mul_mod_right 4 _
    simp [h4]

/-- C23 on a strip of 2 pixels: the transfer carries the start frame, the two pixel words in
index order and the end frame. -/
theorem C23_witness :
    sampleDotstar.ledsNumber = 2 ∧ sampleDotstar.dmaSize = 4 * (2 + 2) ∧
    sampleDotstar.buffer.length = 4 * (2 + 2) ∧ sampleDotstar.dma.length = 4 * (2 + 2) ∧
    sampleDotstarDrivers.ledStrip1 = some (Strip.dotstar .apa102 sampleDotstar) ∧
    sampleDotstarDrivers.isDmaBusy = false ∧
    dmaStarts (renderSingleLane (idleEnv 0) sampleDotstarDrivers).hw
      = [[0, 0, 0, 0, 0xFF, 3, 2, 1, 0xE7, 6, 5, 4, 0xFF, 0xFF, 0xFF, 0xFF]] :=
  ⟨rfl, rfl, rfl, rfl, rfl, rfl,
    ((C23_dotstar_frame 2 sampleDotstar 0 ⟨0, 0, 0, 0⟩ (idleEnv 0) sampleDotstarDrivers
      rfl rfl rfl rfl rfl rfl).2.2.2.1).trans (by decide)⟩

end HyperSerialPico
